import Mathlib

/-!
Triangle rasterizer: barycentric solver, depth test and rasterization drivers

A shallow embedding of `src/math/barycentric.cpp` and `src/geometry/Triangle.cpp`.

Modelling conventions used throughout:

* C++ `int` values are modelled as `ℤ` (no statement below depends on overflow).
* C++ `float` values are modelled as rationals.  The `float` arithmetic is embedded twice,
  side by side:
  - the binary32 embedding (the definitions named `F32.…`): every `float` operation is the
    exact operation followed by `round32`, the rounding to the nearest binary32 value with
    ties to even, subnormal numbers included; each operation is rounded on its own (no
    fused multiply-add, no intermediate of higher precision); the conversion of an `int`
    rounds likewise, the conversion to `int` truncates.  Results beyond the largest finite
    binary32 value (infinities, NaN) are outside the model: the statements in this
    embedding evaluate concrete inputs or bound their inputs so that no such result
    arises;
  - the exact embedding (the definitions without prefix): every operation is the exact field
    operation.  It carries the statements whose conclusion does not depend on rounding and
    the geometric facts, which the binary32 embedding inherits on the grid of small
    integers, where the two embeddings agree.
* A `std::vector` holding a triangle is a record of its three entries
  `[0]`, `[1]`, `[2]`.
* The depth buffer `float*` is a `List ℚ`; reading or writing outside of it has
  no defined behaviour in C++, and the model returns `none` there.
* The target image of the 2D drivers is a `Canvas`: the image together with the
  record of the coordinates passed to `image.set`.
* A division with a zero divisor has no defined behaviour in C++, and the model
  returns `none` there.
-/

namespace Renderer

/-- Two-component vector `Vector2<T>`. -/
structure Vector2 (T : Type) where
  x : T
  y : T
deriving DecidableEq, Repr

/-- Three-component vector `Vector3<T>` (`src/math/vector.h`). -/
structure Vector3 (T : Type) where
  x : T
  y : T
  z : T
deriving DecidableEq, Repr

/-- Integer pixel coordinates (`Point` is `Vector2<int>`). -/
abbrev Point := Vector2 ℤ

/-- The three entries `triangle[0]`, `triangle[1]`, `triangle[2]` of a vertex vector. -/
structure Triangle (V : Type) where
  v0 : V
  v1 : V
  v2 : V
deriving DecidableEq, Repr

/-- Modelled from the spec: componentwise subtraction of 2D points (`operator-` of
`Vector2`, declared in the absent `math/point.h`). -/
def Vector2.sub {T : Type} [Sub T] (a b : Vector2 T) : Vector2 T :=
  ⟨a.x - b.x, a.y - b.y⟩

/-- Modelled from the spec: componentwise subtraction of 3D vectors (`operator-` of
`Vector3`, absent from the abridged `math/vector.h`). -/
def Vector3.sub {T : Type} [Sub T] (a b : Vector3 T) : Vector3 T :=
  ⟨a.x - b.x, a.y - b.y, a.z - b.z⟩

/-- Modelled from the spec: the cross product `Vector3<T>::CrossProduct`, absent from the
abridged `math/vector.h`. -/
def Vector3.CrossProduct {T : Type} [Mul T] [Sub T] (a b : Vector3 T) : Vector3 T :=
  ⟨a.y * b.z - a.z * b.y, a.z * b.x - a.x * b.z, a.x * b.y - a.y * b.x⟩

/-- Conversion of a `float` to `int`: truncation toward zero. -/
def floatToInt (q : ℚ) : ℤ :=
  if 0 ≤ q then ⌊q⌋ else ⌈q⌉

/-- The sentinel `INVALID_VECTOR(-1, 1, 1)`. -/
def INVALID_VECTOR : Vector3 ℚ := ⟨-1, 1, 1⟩

/-- The local `result` of the 2D `computeBarycentricVector`: the cross product of
`(ab.x, ac.x, pa.x)` and `(ab.y, ac.y, pa.y)`, the integer differences converted to `float`. -/
def crossResult2D (triangleVertices : Triangle Point) (point : Point) : Vector3 ℚ :=
  let a := triangleVertices.v0
  let b := triangleVertices.v1
  let c := triangleVertices.v2
  let ab := b.sub a
  let ac := c.sub a
  let pa := a.sub point
  let xComponents : Vector3 ℚ := ⟨(ab.x : ℚ), (ac.x : ℚ), (pa.x : ℚ)⟩
  let yComponents : Vector3 ℚ := ⟨(ab.y : ℚ), (ac.y : ℚ), (pa.y : ℚ)⟩
  Vector3.CrossProduct xComponents yComponents

/-- The 2D `computeBarycentricVector(const std::vector<Point>&, const Point&)`. -/
def computeBarycentricVector2D (triangleVertices : Triangle Point) (point : Point) :
    Vector3 ℚ :=
  let result := crossResult2D triangleVertices point
  if |result.z| < 1 then
    INVALID_VECTOR
  else
    ⟨1 - (result.x + result.y) / result.z, result.y / result.z, result.x / result.z⟩

/-- The local `result` of the 3D `computeBarycentricVector`: the cross product of
`(ac.x, ab.x, pa.x)` and `(ac.y, ab.y, pa.y)`. -/
def crossResult3D (triangleVertices : Triangle (Vector3 ℚ)) (point : Vector3 ℚ) :
    Vector3 ℚ :=
  let a := triangleVertices.v0
  let b := triangleVertices.v1
  let c := triangleVertices.v2
  let ac := c.sub a
  let ab := b.sub a
  let pa := a.sub point
  let xComponents : Vector3 ℚ := ⟨ac.x, ab.x, pa.x⟩
  let yComponents : Vector3 ℚ := ⟨ac.y, ab.y, pa.y⟩
  Vector3.CrossProduct xComponents yComponents

/-- The 3D `computeBarycentricVector(const std::vector<Vector3<float>>&, Vector3<float>&)`. -/
def computeBarycentricVector3D (triangleVertices : Triangle (Vector3 ℚ))
    (point : Vector3 ℚ) : Vector3 ℚ :=
  let result := crossResult3D triangleVertices point
  if |result.z| > 1 / 100 then
    ⟨1 - (result.x + result.y) / result.z, result.y / result.z, result.x / result.z⟩
  else
    INVALID_VECTOR

/-- The 2D `shouldRender(const std::vector<Point>, const Point&)`. -/
def shouldRender2D (triangle : Triangle Point) (point : Point) : Bool :=
  let barycentricCoordinate := computeBarycentricVector2D triangle point
  if barycentricCoordinate.x < 0 ∨ barycentricCoordinate.y < 0 ∨ barycentricCoordinate.z < 0 then
    false
  else
    true

/-- Outcome of a call of the 3D `shouldRender`: the returned flag, the weights stored through
`resultingBarycentric`, and the depth buffer after the call. -/
structure DepthTest where
  visible : Bool
  barycentric : Vector3 ℚ
  zBuffer : List ℚ
deriving DecidableEq, Repr

/-- The interpolated depth `z` accumulated by the 3D `shouldRender`. -/
def interpolateZ (triangle : Triangle (Vector3 ℚ)) (barycentricCoordinate : Vector3 ℚ) : ℚ :=
  0 + triangle.v0.z * barycentricCoordinate.x
    + triangle.v1.z * barycentricCoordinate.y
    + triangle.v2.z * barycentricCoordinate.z

/-- The 3D `shouldRender(triangle, point, zBuffer, width, resultingBarycentric)`.
The result is `none` exactly when the call indexes `zBuffer` outside of its extent. -/
def shouldRender3D (triangle : Triangle (Vector3 ℚ)) (point : Vector3 ℚ)
    (zBuffer : List ℚ) (width : ℤ) : Option DepthTest :=
  let barycentricCoordinate := computeBarycentricVector3D triangle point
  if barycentricCoordinate.x < 0 ∨ barycentricCoordinate.y < 0 ∨ barycentricCoordinate.z < 0 then
    some ⟨false, barycentricCoordinate, zBuffer⟩
  else
    let z := interpolateZ triangle barycentricCoordinate
    let zBufferIndex := floatToInt (point.x + point.y * (width : ℚ))
    if 0 ≤ zBufferIndex then
      match zBuffer[zBufferIndex.toNat]? with
      | none => none
      | some stored =>
        if stored < z then
          some ⟨true, barycentricCoordinate, zBuffer.set zBufferIndex.toNat z⟩
        else
          some ⟨false, barycentricCoordinate, zBuffer⟩
    else
      none

/-- The screen point `Vector3<float>(x, y, 0)` built by the 3D drivers for pixel `(x, y)`. -/
def screenPoint (x y : ℤ) : Vector3 ℚ := ⟨(x : ℚ), (y : ℚ), 0⟩

/-- A pixel position converted to `float` coordinates. -/
def Point.toFloat (p : Point) : Vector2 ℚ := ⟨(p.x : ℚ), (p.y : ℚ)⟩

/-- The `x, y` part of a 3D vertex (the solver ignores `z`). -/
def Vector3.xy (v : Vector3 ℚ) : Vector2 ℚ := ⟨v.x, v.y⟩

/-- The point `P` lies in the closed triangle `A B C` (interior or boundary): it is a
combination of the vertices with non-negative coefficients of sum one. -/
def inClosedTriangle (A B C P : Vector2 ℚ) : Prop :=
  ∃ a b c : ℚ, 0 ≤ a ∧ 0 ≤ b ∧ 0 ≤ c ∧ a + b + c = 1 ∧
    P.x = a * A.x + b * B.x + c * C.x ∧ P.y = a * A.y + b * B.y + c * C.y

/-- The point `P` lies strictly inside the triangle `A B C`: it is a combination of the
vertices with positive coefficients of sum one. -/
def strictlyInside (A B C P : Vector2 ℚ) : Prop :=
  ∃ a b c : ℚ, 0 < a ∧ 0 < b ∧ 0 < c ∧ a + b + c = 1 ∧
    P.x = a * A.x + b * B.x + c * C.x ∧ P.y = a * A.y + b * B.y + c * C.y

/-- The point `P` lies strictly outside the triangle `A B C`. -/
def strictlyOutside (A B C P : Vector2 ℚ) : Prop :=
  ¬ inClosedTriangle A B C P

/-- The points `A`, `B`, `C` lie on one straight line `a*x + b*y + c = 0`. -/
def collinear (A B C : Vector2 ℚ) : Prop :=
  ∃ a b c : ℚ, (a ≠ 0 ∨ b ≠ 0) ∧
    a * A.x + b * A.y + c = 0 ∧ a * B.x + b * B.y + c = 0 ∧ a * C.x + b * C.y + c = 0

/-- Some component of the weight vector is negative. -/
def hasNegative (w : Vector3 ℚ) : Prop := w.x < 0 ∨ w.y < 0 ∨ w.z < 0

instance (w : Vector3 ℚ) : Decidable (hasNegative w) := by
  unfold hasNegative; infer_instance

/-- Modelled from the spec: the colour `TGAColor` of the absent `vendor/tga/tgaimage.h`, an
RGB(A) tuple.  The channel type `Ch` is left open. -/
structure TGAColor (Ch : Type) where
  r : Ch
  g : Ch
  b : Ch
  a : Ch
deriving DecidableEq, Repr

/-- Modelled from the spec: the raster `TGAImage` of the absent `vendor/tga/tgaimage.h`,
exposing `get_width()`, `get_height()`, `get(x, y)` and `set(x, y, color)`. -/
structure TGAImage (Ch : Type) where
  width : ℤ
  height : ℤ
  pixel : ℤ → ℤ → TGAColor Ch

/-- The accessor `image.get_width()`. -/
def TGAImage.get_width {Ch : Type} (image : TGAImage Ch) : ℤ := image.width

/-- The accessor `image.get_height()`. -/
def TGAImage.get_height {Ch : Type} (image : TGAImage Ch) : ℤ := image.height

/-- The read `image.get(x, y)`. -/
def TGAImage.get {Ch : Type} (image : TGAImage Ch) (x y : ℤ) : TGAColor Ch :=
  image.pixel x y

/-- The write `image.set(x, y, color)`: pixel `(x, y)` takes the colour, all others keep
theirs. -/
def TGAImage.set {Ch : Type} (image : TGAImage Ch) (x y : ℤ) (color : TGAColor Ch) :
    TGAImage Ch :=
  { image with pixel := fun i j => if i = x ∧ j = y then color else image.pixel i j }

/-- The arithmetic conversions of a colour channel that `color.r *= lightIntensity` performs:
the channel is converted to `float`, multiplied, and the product converted back. -/
structure Channel (Ch : Type) where
  toFloat : Ch → ℚ
  ofFloat : ℚ → Ch

/-- The compound assignment `channel *= lightIntensity`. -/
def Channel.scale {Ch : Type} (conv : Channel Ch) (channel : Ch) (lightIntensity : ℚ) : Ch :=
  conv.ofFloat (conv.toFloat channel * lightIntensity)

/-- Modelled from the spec: the box `BoundingBox3d` of the absent `math/BoundingBox3d.h`, a
pair `(minPoint, maxPoint)`. -/
structure BoundingBox3d where
  minPoint : Vector2 ℚ
  maxPoint : Vector2 ℚ
deriving DecidableEq, Repr

/-- Modelled from the spec: the constructor `BoundingBox3d(triangle, maxExtent)` of the absent
`math/BoundingBox3d.h` (section 4.1): each coordinate of `minPoint` is
`max(0, floor(min over vertices))`, each coordinate of `maxPoint` is
`min(maxExtent, ceil(max over vertices))`; only the `x, y` extents are used. -/
def BoundingBox3d.new (triangle : Triangle (Vector3 ℚ)) (maxExtent : Vector2 ℚ) :
    BoundingBox3d :=
  { minPoint :=
      ⟨max 0 ((⌊min (min triangle.v0.x triangle.v1.x) triangle.v2.x⌋ : ℤ) : ℚ),
       max 0 ((⌊min (min triangle.v0.y triangle.v1.y) triangle.v2.y⌋ : ℤ) : ℚ)⟩
    maxPoint :=
      ⟨min maxExtent.x ((⌈max (max triangle.v0.x triangle.v1.x) triangle.v2.x⌉ : ℤ) : ℚ),
       min maxExtent.y ((⌈max (max triangle.v0.y triangle.v1.y) triangle.v2.y⌉ : ℤ) : ℚ)⟩ }

/-- The values taken by the counter of `for (int i = lo; i <= hi; i++)`, where `lo` is
converted to `int` on initialisation and `hi` is a `float` bound. -/
def loopRange (lo hi : ℚ) : List ℤ :=
  (List.range (⌊hi⌋ - floatToInt lo + 1).toNat).map (fun (k : ℕ) => floatToInt lo + (k : ℤ))

/-- The state threaded through a 3D driver: the depth buffer and the target image. -/
abbrev Raster (Ch : Type) := List ℚ × TGAImage Ch

/-- The loop body of the flat-colour `rasterizeTriangle` at pixel `(x, y)`. -/
def rasterizePixel {Ch : Type} (triangle : Triangle (Vector3 ℚ)) (color : TGAColor Ch)
    (state : Raster Ch) (x y : ℤ) : Option (Raster Ch) :=
  let point := screenPoint x y
  match shouldRender3D triangle point state.1 state.2.get_width with
  | none => none
  | some test =>
    if test.visible then
      some (test.zBuffer, state.2.set x y color)
    else
      some (test.zBuffer, state.2)

/-- The two nested loops of the 3D drivers over a bounding box, `x` outermost. -/
def scanBox {Ch : Type} (boundingBox : BoundingBox3d)
    (body : Raster Ch → ℤ → ℤ → Option (Raster Ch)) (state : Raster Ch) :
    Option (Raster Ch) :=
  (loopRange boundingBox.minPoint.x boundingBox.maxPoint.x).foldlM
    (fun st x =>
      (loopRange boundingBox.minPoint.y boundingBox.maxPoint.y).foldlM
        (fun st2 y => body st2 x y) st)
    state

/-- The flat-colour `rasterizeTriangle(triangle, zBuffer, image, color)`.  The result is the
depth buffer and image after the call, `none` when the call indexes the depth buffer outside
of its extent. -/
def rasterizeTriangle {Ch : Type} (triangle : Triangle (Vector3 ℚ)) (zBuffer : List ℚ)
    (image : TGAImage Ch) (color : TGAColor Ch) : Option (Raster Ch) :=
  let boundingBox := BoundingBox3d.new triangle
    ⟨((image.get_width - 1 : ℤ) : ℚ), ((image.get_height - 1 : ℤ) : ℚ)⟩
  scanBox boundingBox (rasterizePixel triangle color) (zBuffer, image)

/-- The loop body of the textured `rasterizeTriangle` at pixel `(x, y)`. -/
def rasterizeTexturedPixel {Ch : Type} (conv : Channel Ch) (triangle : Triangle (Vector3 ℚ))
    (texture : TGAImage Ch) (uv : Triangle (Vector2 ℚ)) (lightIntensity : ℚ)
    (state : Raster Ch) (x y : ℤ) : Option (Raster Ch) :=
  let textureWidth := texture.get_width
  let textureHeight := texture.get_height
  let point := screenPoint x y
  match shouldRender3D triangle point state.1 state.2.get_width with
  | none => none
  | some test =>
    if test.visible then
      let resultingBarycentric := test.barycentric
      let u := uv.v0.x * resultingBarycentric.x + uv.v1.x * resultingBarycentric.y
        + uv.v2.x * resultingBarycentric.z
      let v := uv.v0.y * resultingBarycentric.x + uv.v1.y * resultingBarycentric.y
        + uv.v2.y * resultingBarycentric.z
      let color := texture.get (floatToInt (u * (textureWidth : ℚ)))
        (floatToInt (v * (textureHeight : ℚ)))
      let color := { color with r := conv.scale color.r lightIntensity }
      let color := { color with g := conv.scale color.g lightIntensity }
      let color := { color with b := conv.scale color.b lightIntensity }
      some (test.zBuffer, state.2.set x y color)
    else
      some (test.zBuffer, state.2)

/-- The textured `rasterizeTriangle(triangle, zBuffer, image, texture, uv, lightIntensity)`. -/
def rasterizeTexturedTriangle {Ch : Type} (conv : Channel Ch)
    (triangle : Triangle (Vector3 ℚ)) (zBuffer : List ℚ) (image : TGAImage Ch)
    (texture : TGAImage Ch) (uv : Triangle (Vector2 ℚ)) (lightIntensity : ℚ) :
    Option (Raster Ch) :=
  let boundingBox := BoundingBox3d.new triangle
    ⟨((image.get_width - 1 : ℤ) : ℚ), ((image.get_height - 1 : ℤ) : ℚ)⟩
  scanBox boundingBox (rasterizeTexturedPixel conv triangle texture uv lightIntensity)
    (zBuffer, image)

/-- The depth buffer `new` has the length of `old` and no entry below the one of `old`. -/
def bufferLe (old new : List ℚ) : Prop :=
  new.length = old.length ∧
    ∀ (i : ℕ) (before after : ℚ), old[i]? = some before → new[i]? = some after →
      before ≤ after

/-- Weights with no negative component. -/
def nonNegative (w : Vector3 ℚ) : Prop := 0 ≤ w.x ∧ 0 ≤ w.y ∧ 0 ≤ w.z

/-- The unit triangle `(0,0,0), (1,0,0), (0,1,0)` of the scenario in section 8. -/
def unitTriangle : Triangle (Vector3 ℚ) := ⟨⟨0, 0, 0⟩, ⟨1, 0, 0⟩, ⟨0, 1, 0⟩⟩

/-- A triangle with legs of length `1/16`: its doubled area `1/256` is below the acceptance
threshold of the 3D solver. -/
def smallTriangle : Triangle (Vector3 ℚ) := ⟨⟨0, 0, 0⟩, ⟨1 / 16, 0, 0⟩, ⟨0, 1 / 16, 0⟩⟩

/-- A point strictly inside `smallTriangle`. -/
def smallInner : Vector3 ℚ := ⟨1 / 64, 1 / 64, 0⟩

/-- The integer triangle `(0,0), (4,0), (0,4)`. -/
def rightTriangle : Triangle Point := ⟨⟨0, 0⟩, ⟨4, 0⟩, ⟨0, 4⟩⟩

/-- Three integer points on the diagonal. -/
def flatTriangle2D : Triangle Point := ⟨⟨0, 0⟩, ⟨1, 1⟩, ⟨2, 2⟩⟩

/-- Three spatial vertices whose `x, y` parts lie on the diagonal. -/
def flatTriangle3D : Triangle (Vector3 ℚ) := ⟨⟨0, 0, 0⟩, ⟨1, 1, 1⟩, ⟨2, 2, 0⟩⟩

/-- The invariant of a rasterization pass started from `zBuffer` on an image of the given
extent. -/
def passInvariant {Ch : Type} (zBuffer : List ℚ) (w h : ℤ) (state : Raster Ch) : Prop :=
  bufferLe zBuffer state.1 ∧ state.2.get_width = w ∧ state.2.get_height = h

/-- The conversions of an `unsigned char` colour channel: to `float` exactly, back by
truncation (a product outside `0..255` has no defined conversion in C++; the model wraps
it). -/
def byteChannel : Channel ℕ :=
  ⟨fun c => (c : ℚ), fun q => (floatToInt q).toNat % 256⟩

/-- A black `2 x 2` image with byte channels. -/
def blankImage : TGAImage ℕ := ⟨2, 2, fun _ _ => ⟨0, 0, 0, 0⟩⟩

/-- The colour red. -/
def red : TGAColor ℕ := ⟨255, 0, 0, 255⟩

/-- The colour green. -/
def green : TGAColor ℕ := ⟨0, 255, 0, 255⟩

/-- The UV coordinates `(0,0), (1,0), (0,1)`. -/
def unitUV : Triangle (Vector2 ℚ) := ⟨⟨0, 0⟩, ⟨1, 0⟩, ⟨0, 1⟩⟩

/-- Modelled from the spec: componentwise addition of 2D points (`operator+` of `Vector2`,
declared in the absent `math/point.h`). -/
def Vector2.add {T : Type} [Add T] (a b : Vector2 T) : Vector2 T :=
  ⟨a.x + b.x, a.y + b.y⟩

/-- Modelled from the spec: scaling of an integer point by a `float` (`operator*` of
`Vector2<int>`, declared in the absent `math/point.h`): each component is multiplied as a
`float` and the product converted back to `int`. -/
def Vector2.scale (p : Vector2 ℤ) (f : ℚ) : Vector2 ℤ :=
  ⟨floatToInt ((p.x : ℚ) * f), floatToInt ((p.y : ℚ) * f)⟩

/-- Division `a / b` of `float` values.  A zero divisor has no defined result in C++ and gives
`none`. -/
def floatDiv (a b : ℚ) : Option ℚ :=
  if b = 0 then none else some (a / b)

/-- The values taken by the counter of `for (int i = lo; i <= hi; i++)` with `int` bounds. -/
def closedLoop (lo hi : ℤ) : List ℤ :=
  (List.range (hi - lo + 1).toNat).map (fun (k : ℕ) => lo + (k : ℤ))

/-- The values taken by the counter of `for (int i = lo; i < hi; i++)` with `int` bounds. -/
def openLoop (lo hi : ℤ) : List ℤ :=
  (List.range (hi - lo).toNat).map (fun (k : ℕ) => lo + (k : ℤ))

/-- The target image of a 2D driver together with the record of the coordinates passed to
`image.set`, in the order of the calls. -/
structure Canvas (Ch : Type) where
  image : TGAImage Ch
  written : List (ℤ × ℤ)

/-- The call `image.set(x, y, color)` on a recorded target. -/
def Canvas.set {Ch : Type} (canvas : Canvas Ch) (x y : ℤ) (color : TGAColor Ch) : Canvas Ch :=
  ⟨canvas.image.set x y color, canvas.written ++ [(x, y)]⟩

/-- The function `sortPoints(point1, point2, point3)`: the three references after the three
conditional swaps. -/
def sortPoints (point1 point2 point3 : Point) : Point × Point × Point :=
  let s1 : Point × Point := if point1.y > point2.y then (point2, point1) else (point1, point2)
  let s2 : Point × Point := if s1.1.y > point3.y then (point3, s1.1) else (s1.1, point3)
  let s3 : Point × Point := if s1.2.y > s2.2.y then (s2.2, s1.2) else (s1.2, s2.2)
  (s2.1, s3.1, s3.2)

/-- The inner loop of `drawTriangle3` on row `y`: the two ends are swapped if needed so that
the row is filled from left to right. -/
def fillSpan {Ch : Type} (canvas : Canvas Ch) (segmentA segmentB : Point) (y : ℤ)
    (color : TGAColor Ch) : Canvas Ch :=
  let ends : Point × Point :=
    if segmentA.x > segmentB.x then (segmentB, segmentA) else (segmentA, segmentB)
  (closedLoop ends.1.x ends.2.x).foldl (fun cv x => cv.set x y color) canvas

/-- The body of the first loop of `drawTriangle3` (rows from `point1.y` to `point2.y`). -/
def lowerRow {Ch : Type} (point1 point2 point3 : Point) (color : TGAColor Ch)
    (canvas : Canvas Ch) (y : ℤ) : Option (Canvas Ch) :=
  let triangleHeight := point3.y - point1.y
  let segmentHeight := point2.y - point1.y
  match floatDiv ((y - point1.y : ℤ) : ℚ) (triangleHeight : ℚ) with
  | none => none
  | some alpha =>
    match floatDiv ((y - point1.y : ℤ) : ℚ) (segmentHeight : ℚ) with
    | none => none
    | some beta =>
      let segmentA := point1.add ((point3.sub point1).scale alpha)
      let segmentB := point1.add ((point2.sub point1).scale beta)
      some (fillSpan canvas segmentA segmentB y color)

/-- The body of the second loop of `drawTriangle3` (rows from `point2.y` to `point3.y`). -/
def upperRow {Ch : Type} (point1 point2 point3 : Point) (color : TGAColor Ch)
    (canvas : Canvas Ch) (y : ℤ) : Option (Canvas Ch) :=
  let triangleHeight := point3.y - point1.y
  let segmentHeight := point3.y - point2.y
  match floatDiv ((y - point1.y : ℤ) : ℚ) (triangleHeight : ℚ) with
  | none => none
  | some alpha =>
    match floatDiv ((y - point2.y : ℤ) : ℚ) (segmentHeight : ℚ) with
    | none => none
    | some beta =>
      let segmentA := point1.add ((point3.sub point1).scale alpha)
      let segmentB := point2.add ((point3.sub point2).scale beta)
      some (fillSpan canvas segmentA segmentB y color)

/-- The scanline driver `drawTriangle3(point1, point2, point3, image, color)`.  The result is
`none` when a division by zero is reached. -/
def drawTriangle3 {Ch : Type} (point1 point2 point3 : Point) (canvas : Canvas Ch)
    (color : TGAColor Ch) : Option (Canvas Ch) :=
  let sorted := sortPoints point1 point2 point3
  let point1 := sorted.1
  let point2 := sorted.2.1
  let point3 := sorted.2.2
  match (closedLoop point1.y point2.y).foldlM (lowerRow point1 point2 point3 color) canvas with
  | none => none
  | some canvas2 =>
    (closedLoop point2.y point3.y).foldlM (upperRow point1 point2 point3 color) canvas2

/-- Modelled from the spec: the box `BoundingBox2d` of the absent `math/BoundingBox2d.h`, a
pair `(minPoint, maxPoint)` of integer points. -/
structure BoundingBox2d where
  minPoint : Point
  maxPoint : Point
deriving DecidableEq, Repr

/-- Modelled from the spec: the constructor `BoundingBox2d(triangle, maxExtent)` of the absent
`math/BoundingBox2d.h` (section 4.1): each coordinate of `minPoint` is
`max(0, min over vertices)`, each coordinate of `maxPoint` is
`min(maxExtent, max over vertices)` (floor and ceiling are the identity on integers). -/
def BoundingBox2d.new (triangle : Triangle Point) (maxExtent : Point) : BoundingBox2d :=
  { minPoint :=
      ⟨max 0 (min (min triangle.v0.x triangle.v1.x) triangle.v2.x),
       max 0 (min (min triangle.v0.y triangle.v1.y) triangle.v2.y)⟩
    maxPoint :=
      ⟨min maxExtent.x (max (max triangle.v0.x triangle.v1.x) triangle.v2.x),
       min maxExtent.y (max (max triangle.v0.y triangle.v1.y) triangle.v2.y)⟩ }

/-- The bounding-box driver `drawTriangle4(point1, point2, point3, image, color)`. -/
def drawTriangle4 {Ch : Type} (point1 point2 point3 : Point) (canvas : Canvas Ch)
    (color : TGAColor Ch) : Canvas Ch :=
  let triangle : Triangle Point := ⟨point1, point2, point3⟩
  let boundingBox := BoundingBox2d.new triangle
    ⟨canvas.image.get_width - 1, canvas.image.get_height - 1⟩
  (openLoop boundingBox.minPoint.x boundingBox.maxPoint.x).foldl
    (fun cv x =>
      (openLoop boundingBox.minPoint.y boundingBox.maxPoint.y).foldl
        (fun cv2 y => if shouldRender2D triangle ⟨x, y⟩ then cv2.set x y color else cv2) cv)
    canvas

/-- The public `drawTriangle(Point&, Point&, Point&, TGAImage&, TGAColor)`. -/
def drawTriangle {Ch : Type} (point1 point2 point3 : Point) (canvas : Canvas Ch)
    (color : TGAColor Ch) : Canvas Ch :=
  drawTriangle4 point1 point2 point3 canvas color

/-- The public `drawTriangle(vector<Point>, TGAImage&, TGAColor)`. -/
def drawTriangleVertices {Ch : Type} (triangle : Triangle Point) (canvas : Canvas Ch)
    (color : TGAColor Ch) : Canvas Ch :=
  drawTriangle triangle.v0 triangle.v1 triangle.v2 canvas color

/-- The public `drawTriangle(vector<Vector3<float>>, float*, TGAImage&, TGAColor)`. -/
def drawTriangleDepth {Ch : Type} (triangle : Triangle (Vector3 ℚ)) (zBuffer : List ℚ)
    (image : TGAImage Ch) (color : TGAColor Ch) : Option (Raster Ch) :=
  rasterizeTriangle triangle zBuffer image color

/-- The public `drawTriangle(vector<Vector3<float>>, float*, TGAImage&, TGAImage&,
vector<Vector2<float>>, float)`. -/
def drawTriangleTextured {Ch : Type} (conv : Channel Ch) (triangle : Triangle (Vector3 ℚ))
    (zBuffer : List ℚ) (image : TGAImage Ch) (texture : TGAImage Ch)
    (uv : Triangle (Vector2 ℚ)) (lightIntensity : ℚ) : Option (Raster Ch) :=
  rasterizeTexturedTriangle conv triangle zBuffer image texture uv lightIntensity

/-- A black image of the given extent with byte channels, nothing recorded yet. -/
def blankCanvas (width height : ℤ) : Canvas ℕ :=
  ⟨⟨width, height, fun _ _ => ⟨0, 0, 0, 0⟩⟩, []⟩

/-- The entry `triangle[i]` of a vertex vector. -/
def Triangle.vertex {V : Type} (t : Triangle V) (i : Fin 3) : V :=
  match i with
  | 0 => t.v0
  | 1 => t.v1
  | 2 => t.v2

/-- The vertex vector with its three entries rearranged by the permutation `σ`. -/
def Triangle.permute {V : Type} (t : Triangle V) (σ : Equiv.Perm (Fin 3)) : Triangle V :=
  ⟨t.vertex (σ 0), t.vertex (σ 1), t.vertex (σ 2)⟩

/-- A white `2 x 2` texture with byte channels. -/
def whiteTexture : TGAImage ℕ := ⟨2, 2, fun _ _ => ⟨255, 255, 255, 255⟩⟩

/-- The integer triangle `(0,0), (4,1), (1,4)`, no two vertices in one row. -/
def slantedTriangle : Triangle Point := ⟨⟨0, 0⟩, ⟨4, 1⟩, ⟨1, 4⟩⟩

/-- The texture-space coordinate `u = Σ uv[i].x * weight[i]` of section 4.4. -/
def textureU (uv : Triangle (Vector2 ℚ)) (w : Vector3 ℚ) : ℚ :=
  uv.v0.x * w.x + uv.v1.x * w.y + uv.v2.x * w.z

/-- The texture-space coordinate `v = Σ uv[i].y * weight[i]` of section 4.4. -/
def textureV (uv : Triangle (Vector2 ℚ)) (w : Vector3 ℚ) : ℚ :=
  uv.v0.y * w.x + uv.v1.y * w.y + uv.v2.y * w.z

/-- The texel sampled at `(u*textureWidth, v*textureHeight)`, the two products converted to
`int`. -/
def sampleTexel {Ch : Type} (texture : TGAImage Ch) (uv : Triangle (Vector2 ℚ))
    (w : Vector3 ℚ) : TGAColor Ch :=
  texture.get (floatToInt (textureU uv w * (texture.get_width : ℚ)))
    (floatToInt (textureV uv w * (texture.get_height : ℚ)))

/-- A texel with its `r`, `g` and `b` channels each multiplied by the lighting intensity and
converted back to the channel type; the channel `a` is kept. -/
def litColour {Ch : Type} (conv : Channel Ch) (texel : TGAColor Ch) (lightIntensity : ℚ) :
    TGAColor Ch :=
  ⟨conv.scale texel.r lightIntensity, conv.scale texel.g lightIntensity,
    conv.scale texel.b lightIntensity, texel.a⟩

/-- Both components of the three UV coordinates lie in `[0, 1]`. -/
def uvInUnitSquare (uv : Triangle (Vector2 ℚ)) : Prop :=
  (0 ≤ uv.v0.x ∧ uv.v0.x ≤ 1) ∧ (0 ≤ uv.v0.y ∧ uv.v0.y ≤ 1) ∧
  (0 ≤ uv.v1.x ∧ uv.v1.x ≤ 1) ∧ (0 ≤ uv.v1.y ∧ uv.v1.y ≤ 1) ∧
  (0 ≤ uv.v2.x ∧ uv.v2.x ≤ 1) ∧ (0 ≤ uv.v2.y ∧ uv.v2.y ≤ 1)

instance (uv : Triangle (Vector2 ℚ)) : Decidable (uvInUnitSquare uv) := by
  unfold uvInUnitSquare; infer_instance

/-! ## The binary32 embedding -/

/-- The binary logarithm of a natural number, rounded down, by repeated halving (`fuel`
bounds the number of halvings). -/
def log2Fuel : ℕ → ℕ → ℕ
  | 0, _ => 0
  | fuel + 1, n => if n < 2 then 0 else log2Fuel fuel (n / 2) + 1

/-- The position of the leading binary digit of `n`: the greatest `k` with `2^k ≤ n` (zero for
`n = 0`). -/
def natLog2 (n : ℕ) : ℕ := log2Fuel n n

/-- The binary exponent of a rational `a ≠ 0`: the integer `e` with `2^e ≤ |a| < 2^(e+1)`. -/
def binade (a : ℚ) : ℤ :=
  let e := (natLog2 a.num.natAbs : ℤ) - (natLog2 a.den : ℤ)
  if (2 : ℚ) ^ e ≤ |a| then e else e - 1

/-- The integer nearest to `t`; of two nearest integers the even one. -/
def roundHalfEven (t : ℚ) : ℤ :=
  if t - ⌊t⌋ < 1 / 2 then ⌊t⌋
  else if 1 / 2 < t - ⌊t⌋ then ⌊t⌋ + 1
  else if ⌊t⌋ % 2 = 0 then ⌊t⌋ else ⌊t⌋ + 1

/-- The spacing of the binary32 values around `a`: 24 significant binary digits, and the
fixed spacing `2^-149` of the subnormal range below `2^-126`. -/
def ulp (a : ℚ) : ℚ := (2 : ℚ) ^ (max (binade a) (-126) - 23)

/-- The binary32 rounding of a magnitude `a ≥ 0`: the nearest multiple of the spacing, ties
to the even multiple. -/
def roundMagnitude (a : ℚ) : ℚ := (roundHalfEven (a / ulp a) : ℚ) * ulp a

/-- The rounding of a real result to the `float` type: the nearest binary32 value, ties to
even (the IEEE 754 default mode, in which the `float` operations of the program run).  The
model has no largest value: results beyond the binary32 range are rounded as if the exponent
were unbounded. -/
def round32 (q : ℚ) : ℚ :=
  if 0 ≤ q then roundMagnitude q else -roundMagnitude (-q)

/-- The `float` sum `a + b`. -/
def F32.add (a b : ℚ) : ℚ := round32 (a + b)

/-- The `float` difference `a - b`. -/
def F32.sub (a b : ℚ) : ℚ := round32 (a - b)

/-- The `float` product `a * b`. -/
def F32.mul (a b : ℚ) : ℚ := round32 (a * b)

/-- The `float` quotient `a / b` for a divisor other than zero. -/
def F32.div (a b : ℚ) : ℚ := round32 (a / b)

/-- The conversion of an `int` to `float`. -/
def F32.ofInt (n : ℤ) : ℚ := round32 (n : ℚ)

/-- Modelled from the spec: componentwise `float` subtraction of 3D vectors (`operator-` of
`Vector3<float>`, absent from the abridged `math/vector.h`). -/
def F32.vsub (a b : Vector3 ℚ) : Vector3 ℚ :=
  ⟨F32.sub a.x b.x, F32.sub a.y b.y, F32.sub a.z b.z⟩

/-- Modelled from the spec: the cross product `Vector3<float>::CrossProduct`, absent from the
abridged `math/vector.h`, every product and difference rounded. -/
def F32.CrossProduct (a b : Vector3 ℚ) : Vector3 ℚ :=
  ⟨F32.sub (F32.mul a.y b.z) (F32.mul a.z b.y), F32.sub (F32.mul a.z b.x) (F32.mul a.x b.z),
    F32.sub (F32.mul a.x b.y) (F32.mul a.y b.x)⟩

/-- The local `result` of the 2D `computeBarycentricVector` in binary32: the differences are
taken on `int` values and converted to `float`, the cross product is a `float` computation. -/
def F32.crossResult2D (triangleVertices : Triangle Point) (point : Point) : Vector3 ℚ :=
  let a := triangleVertices.v0
  let b := triangleVertices.v1
  let c := triangleVertices.v2
  let ab := b.sub a
  let ac := c.sub a
  let pa := a.sub point
  let xComponents : Vector3 ℚ := ⟨F32.ofInt ab.x, F32.ofInt ac.x, F32.ofInt pa.x⟩
  let yComponents : Vector3 ℚ := ⟨F32.ofInt ab.y, F32.ofInt ac.y, F32.ofInt pa.y⟩
  F32.CrossProduct xComponents yComponents

/-- The 2D `computeBarycentricVector(const std::vector<Point>&, const Point&)` in binary32. -/
def F32.computeBarycentricVector2D (triangleVertices : Triangle Point) (point : Point) :
    Vector3 ℚ :=
  let result := F32.crossResult2D triangleVertices point
  if |result.z| < 1 then
    INVALID_VECTOR
  else
    ⟨F32.sub 1 (F32.div (F32.add result.x result.y) result.z), F32.div result.y result.z,
      F32.div result.x result.z⟩

/-- The local `result` of the 3D `computeBarycentricVector` in binary32. -/
def F32.crossResult3D (triangleVertices : Triangle (Vector3 ℚ)) (point : Vector3 ℚ) :
    Vector3 ℚ :=
  let a := triangleVertices.v0
  let b := triangleVertices.v1
  let c := triangleVertices.v2
  let ac := F32.vsub c a
  let ab := F32.vsub b a
  let pa := F32.vsub a point
  let xComponents : Vector3 ℚ := ⟨ac.x, ab.x, pa.x⟩
  let yComponents : Vector3 ℚ := ⟨ac.y, ab.y, pa.y⟩
  F32.CrossProduct xComponents yComponents

/-- The value of the `double` literal `1e-2`, with which `abs(result.z)` is compared. -/
def F32.areaThreshold : ℚ := 5764607523034235 / 576460752303423488

/-- The 3D `computeBarycentricVector(const std::vector<Vector3<float>>&, Vector3<float>&)` in
binary32. -/
def F32.computeBarycentricVector3D (triangleVertices : Triangle (Vector3 ℚ))
    (point : Vector3 ℚ) : Vector3 ℚ :=
  let result := F32.crossResult3D triangleVertices point
  if |result.z| > F32.areaThreshold then
    ⟨F32.sub 1 (F32.div (F32.add result.x result.y) result.z), F32.div result.y result.z,
      F32.div result.x result.z⟩
  else
    INVALID_VECTOR

/-- The 2D `shouldRender(const std::vector<Point>, const Point&)` in binary32. -/
def F32.shouldRender2D (triangle : Triangle Point) (point : Point) : Bool :=
  let barycentricCoordinate := F32.computeBarycentricVector2D triangle point
  if barycentricCoordinate.x < 0 ∨ barycentricCoordinate.y < 0 ∨ barycentricCoordinate.z < 0 then
    false
  else
    true

/-- The interpolated depth `z` accumulated by the 3D `shouldRender` in binary32: `z = 0`
followed by three `z += triangle[i].z * weight`. -/
def F32.interpolateZ (triangle : Triangle (Vector3 ℚ)) (barycentricCoordinate : Vector3 ℚ) :
    ℚ :=
  F32.add (F32.add (F32.add 0 (F32.mul triangle.v0.z barycentricCoordinate.x))
    (F32.mul triangle.v1.z barycentricCoordinate.y))
    (F32.mul triangle.v2.z barycentricCoordinate.z)

/-- The local `zBufferIndex = int(point.x + point.y * width)` of the 3D `shouldRender`: `width`
is converted to `float`, the product and the sum are `float` operations, and the sum is
converted to `int`. -/
def F32.zBufferIndex (point : Vector3 ℚ) (width : ℤ) : ℤ :=
  floatToInt (F32.add point.x (F32.mul point.y (F32.ofInt width)))

/-- The 3D `shouldRender(triangle, point, zBuffer, width, resultingBarycentric)` in binary32.
The result is `none` exactly when the call indexes `zBuffer` outside of its extent. -/
def F32.shouldRender3D (triangle : Triangle (Vector3 ℚ)) (point : Vector3 ℚ)
    (zBuffer : List ℚ) (width : ℤ) : Option DepthTest :=
  let barycentricCoordinate := F32.computeBarycentricVector3D triangle point
  if barycentricCoordinate.x < 0 ∨ barycentricCoordinate.y < 0 ∨ barycentricCoordinate.z < 0 then
    some ⟨false, barycentricCoordinate, zBuffer⟩
  else
    let z := F32.interpolateZ triangle barycentricCoordinate
    let zBufferIndex := F32.zBufferIndex point width
    if 0 ≤ zBufferIndex then
      match zBuffer[zBufferIndex.toNat]? with
      | none => none
      | some stored =>
        if stored < z then
          some ⟨true, barycentricCoordinate, zBuffer.set zBufferIndex.toNat z⟩
        else
          some ⟨false, barycentricCoordinate, zBuffer⟩
    else
      none

/-- The screen point `Vector3<float>(x, y, 0)` built by the 3D drivers for pixel `(x, y)`, the
two counters converted to `float`. -/
def F32.screenPoint (x y : ℤ) : Vector3 ℚ := ⟨F32.ofInt x, F32.ofInt y, 0⟩

/-- The loop body of the flat-colour `rasterizeTriangle` at pixel `(x, y)` in binary32. -/
def F32.rasterizePixel {Ch : Type} (triangle : Triangle (Vector3 ℚ)) (color : TGAColor Ch)
    (state : Raster Ch) (x y : ℤ) : Option (Raster Ch) :=
  let point := F32.screenPoint x y
  match F32.shouldRender3D triangle point state.1 state.2.get_width with
  | none => none
  | some test =>
    if test.visible then
      some (test.zBuffer, state.2.set x y color)
    else
      some (test.zBuffer, state.2)

/-- The flat-colour `rasterizeTriangle(triangle, zBuffer, image, color)` in binary32. -/
def F32.rasterizeTriangle {Ch : Type} (triangle : Triangle (Vector3 ℚ)) (zBuffer : List ℚ)
    (image : TGAImage Ch) (color : TGAColor Ch) : Option (Raster Ch) :=
  let boundingBox := BoundingBox3d.new triangle
    ⟨F32.ofInt (image.get_width - 1), F32.ofInt (image.get_height - 1)⟩
  scanBox boundingBox (F32.rasterizePixel triangle color) (zBuffer, image)

/-- The local `u` of the textured `rasterizeTriangle` in binary32. -/
def F32.textureU (uv : Triangle (Vector2 ℚ)) (w : Vector3 ℚ) : ℚ :=
  F32.add (F32.add (F32.mul uv.v0.x w.x) (F32.mul uv.v1.x w.y)) (F32.mul uv.v2.x w.z)

/-- The local `v` of the textured `rasterizeTriangle` in binary32. -/
def F32.textureV (uv : Triangle (Vector2 ℚ)) (w : Vector3 ℚ) : ℚ :=
  F32.add (F32.add (F32.mul uv.v0.y w.x) (F32.mul uv.v1.y w.y)) (F32.mul uv.v2.y w.z)

/-- The texel `texture.get(u * textureWidth, v * textureHeight)` in binary32: the extents are
converted to `float`, the products are `float` operations converted to `int`. -/
def F32.sampleTexel {Ch : Type} (texture : TGAImage Ch) (uv : Triangle (Vector2 ℚ))
    (w : Vector3 ℚ) : TGAColor Ch :=
  texture.get (floatToInt (F32.mul (F32.textureU uv w) (F32.ofInt texture.get_width)))
    (floatToInt (F32.mul (F32.textureV uv w) (F32.ofInt texture.get_height)))

/-- The loop body of the textured `rasterizeTriangle` at pixel `(x, y)` in binary32. -/
def F32.rasterizeTexturedPixel {Ch : Type} (conv : Channel Ch)
    (triangle : Triangle (Vector3 ℚ)) (texture : TGAImage Ch) (uv : Triangle (Vector2 ℚ))
    (lightIntensity : ℚ) (state : Raster Ch) (x y : ℤ) : Option (Raster Ch) :=
  let textureWidth := texture.get_width
  let textureHeight := texture.get_height
  let point := F32.screenPoint x y
  match F32.shouldRender3D triangle point state.1 state.2.get_width with
  | none => none
  | some test =>
    if test.visible then
      let resultingBarycentric := test.barycentric
      let u := F32.add (F32.add (F32.mul uv.v0.x resultingBarycentric.x)
        (F32.mul uv.v1.x resultingBarycentric.y)) (F32.mul uv.v2.x resultingBarycentric.z)
      let v := F32.add (F32.add (F32.mul uv.v0.y resultingBarycentric.x)
        (F32.mul uv.v1.y resultingBarycentric.y)) (F32.mul uv.v2.y resultingBarycentric.z)
      let color := texture.get (floatToInt (F32.mul u (F32.ofInt textureWidth)))
        (floatToInt (F32.mul v (F32.ofInt textureHeight)))
      let color := { color with r := conv.scale color.r lightIntensity }
      let color := { color with g := conv.scale color.g lightIntensity }
      let color := { color with b := conv.scale color.b lightIntensity }
      some (test.zBuffer, state.2.set x y color)
    else
      some (test.zBuffer, state.2)

/-- The textured `rasterizeTriangle(triangle, zBuffer, image, texture, uv, lightIntensity)` in
binary32. -/
def F32.rasterizeTexturedTriangle {Ch : Type} (conv : Channel Ch)
    (triangle : Triangle (Vector3 ℚ)) (zBuffer : List ℚ) (image : TGAImage Ch)
    (texture : TGAImage Ch) (uv : Triangle (Vector2 ℚ)) (lightIntensity : ℚ) :
    Option (Raster Ch) :=
  let boundingBox := BoundingBox3d.new triangle
    ⟨F32.ofInt (image.get_width - 1), F32.ofInt (image.get_height - 1)⟩
  scanBox boundingBox (F32.rasterizeTexturedPixel conv triangle texture uv lightIntensity)
    (zBuffer, image)

/-- Modelled from the spec: scaling of an integer point by a `float` (`operator*` of
`Vector2<int>`, declared in the absent `math/point.h`) in binary32: each component is
converted to `float`, multiplied, and the product converted back to `int`. -/
def F32.scale (p : Vector2 ℤ) (f : ℚ) : Vector2 ℤ :=
  ⟨floatToInt (F32.mul (F32.ofInt p.x) f), floatToInt (F32.mul (F32.ofInt p.y) f)⟩

/-- The quotient `(float)a / b` of two `int` values, both converted to `float`.  A zero
divisor has no defined result in C++ and gives `none`. -/
def F32.floatDiv (a b : ℤ) : Option ℚ :=
  if b = 0 then none else some (F32.div (F32.ofInt a) (F32.ofInt b))

/-- The body of the first loop of `drawTriangle3` in binary32. -/
def F32.lowerRow {Ch : Type} (point1 point2 point3 : Point) (color : TGAColor Ch)
    (canvas : Canvas Ch) (y : ℤ) : Option (Canvas Ch) :=
  let triangleHeight := point3.y - point1.y
  let segmentHeight := point2.y - point1.y
  match F32.floatDiv (y - point1.y) triangleHeight with
  | none => none
  | some alpha =>
    match F32.floatDiv (y - point1.y) segmentHeight with
    | none => none
    | some beta =>
      let segmentA := point1.add (F32.scale (point3.sub point1) alpha)
      let segmentB := point1.add (F32.scale (point2.sub point1) beta)
      some (fillSpan canvas segmentA segmentB y color)

/-- The body of the second loop of `drawTriangle3` in binary32. -/
def F32.upperRow {Ch : Type} (point1 point2 point3 : Point) (color : TGAColor Ch)
    (canvas : Canvas Ch) (y : ℤ) : Option (Canvas Ch) :=
  let triangleHeight := point3.y - point1.y
  let segmentHeight := point3.y - point2.y
  match F32.floatDiv (y - point1.y) triangleHeight with
  | none => none
  | some alpha =>
    match F32.floatDiv (y - point2.y) segmentHeight with
    | none => none
    | some beta =>
      let segmentA := point1.add (F32.scale (point3.sub point1) alpha)
      let segmentB := point2.add (F32.scale (point3.sub point2) beta)
      some (fillSpan canvas segmentA segmentB y color)

/-- The scanline driver `drawTriangle3(point1, point2, point3, image, color)` in binary32. -/
def F32.drawTriangle3 {Ch : Type} (point1 point2 point3 : Point) (canvas : Canvas Ch)
    (color : TGAColor Ch) : Option (Canvas Ch) :=
  let sorted := sortPoints point1 point2 point3
  let point1 := sorted.1
  let point2 := sorted.2.1
  let point3 := sorted.2.2
  match (closedLoop point1.y point2.y).foldlM (F32.lowerRow point1 point2 point3 color)
      canvas with
  | none => none
  | some canvas2 =>
    (closedLoop point2.y point3.y).foldlM (F32.upperRow point1 point2 point3 color) canvas2

/-- The bounding-box driver `drawTriangle4(point1, point2, point3, image, color)` in
binary32. -/
def F32.drawTriangle4 {Ch : Type} (point1 point2 point3 : Point) (canvas : Canvas Ch)
    (color : TGAColor Ch) : Canvas Ch :=
  let triangle : Triangle Point := ⟨point1, point2, point3⟩
  let boundingBox := BoundingBox2d.new triangle
    ⟨canvas.image.get_width - 1, canvas.image.get_height - 1⟩
  (openLoop boundingBox.minPoint.x boundingBox.maxPoint.x).foldl
    (fun cv x =>
      (openLoop boundingBox.minPoint.y boundingBox.maxPoint.y).foldl
        (fun cv2 y => if F32.shouldRender2D triangle ⟨x, y⟩ then cv2.set x y color else cv2) cv)
    canvas

/-- The `x, y` coordinates of the vertex are integers of magnitude at most `bound`. -/
def onGrid (bound : ℤ) (v : Vector3 ℚ) : Prop :=
  ∃ x y : ℤ, v.x = (x : ℚ) ∧ v.y = (y : ℚ) ∧ |x| ≤ bound ∧ |y| ≤ bound

/-- Both coordinates of the integer point have magnitude at most `bound`. -/
def withinBound (bound : ℤ) (p : Point) : Prop := |p.x| ≤ bound ∧ |p.y| ≤ bound

/-- Three vertices on the line `y = 1.5 x` whose coordinates are `float` values. -/
def slopedTriangle : Triangle (Vector3 ℚ) :=
  ⟨⟨4631763 / 8192, 13895289 / 16384, 0⟩, ⟨-(2636257 / 8192), -(7908771 / 16384), 0⟩,
    ⟨-(587715 / 1024), -(1763145 / 2048), 0⟩⟩

/-- The public `drawTriangle(Point&, Point&, Point&, TGAImage&, TGAColor)` in binary32. -/
def F32.drawTriangle {Ch : Type} (point1 point2 point3 : Point) (canvas : Canvas Ch)
    (color : TGAColor Ch) : Canvas Ch :=
  F32.drawTriangle4 point1 point2 point3 canvas color

/-- The public `drawTriangle(vector<Point>, TGAImage&, TGAColor)` in binary32. -/
def F32.drawTriangleVertices {Ch : Type} (triangle : Triangle Point) (canvas : Canvas Ch)
    (color : TGAColor Ch) : Canvas Ch :=
  F32.drawTriangle triangle.v0 triangle.v1 triangle.v2 canvas color

/-- The public `drawTriangle(vector<Vector3<float>>, float*, TGAImage&, TGAColor)` in
binary32. -/
def F32.drawTriangleDepth {Ch : Type} (triangle : Triangle (Vector3 ℚ)) (zBuffer : List ℚ)
    (image : TGAImage Ch) (color : TGAColor Ch) : Option (Raster Ch) :=
  F32.rasterizeTriangle triangle zBuffer image color

/-- The public `drawTriangle(vector<Vector3<float>>, float*, TGAImage&, TGAImage&,
vector<Vector2<float>>, float)` in binary32. -/
def F32.drawTriangleTextured {Ch : Type} (conv : Channel Ch) (triangle : Triangle (Vector3 ℚ))
    (zBuffer : List ℚ) (image : TGAImage Ch) (texture : TGAImage Ch)
    (uv : Triangle (Vector2 ℚ)) (lightIntensity : ℚ) : Option (Raster Ch) :=
  F32.rasterizeTexturedTriangle conv triangle zBuffer image texture uv lightIntensity

/-- A black `4 x 4` image with byte channels. -/
def blankImage4 : TGAImage ℕ := ⟨4, 4, fun _ _ => ⟨0, 0, 0, 0⟩⟩

/-- A depth buffer of `4 x 4` entries, all `-5`. -/
def depthBuffer4 : List ℚ := List.replicate 16 (-5)

/-- The spatial triangle `(0,2048,0), (2,2048,0), (0,2050,0)`, which contains the pixel
`(1, 2048)`. -/
def farRowTriangle : Triangle (Vector3 ℚ) := ⟨⟨0, 2048, 0⟩, ⟨2, 2048, 0⟩, ⟨0, 2050, 0⟩⟩

/-- The spatial triangle `(2,2048,0), (4,2048,0), (2,2050,0)`, which contains the pixel
`(3, 2048)`. -/
def farRowTriangle2 : Triangle (Vector3 ℚ) := ⟨⟨2, 2048, 0⟩, ⟨4, 2048, 0⟩, ⟨2, 2050, 0⟩⟩

/-- A depth buffer for an image of `8192 x 2049` pixels: all entries `5`, except the entry
`16777216`, which is `-5`. -/
def wideDepthBuffer : List ℚ := (List.replicate 16785408 5).set 16777216 (-5)

/-- A depth buffer for an image of `8192 x 2049` pixels, all entries `-5`. -/
def wideDepthBuffer2 : List ℚ := List.replicate 16785408 (-5)

/-- A black image of `8192 x 2049` pixels with byte channels. -/
def wideImage : TGAImage ℕ := ⟨8192, 2049, fun _ _ => ⟨0, 0, 0, 0⟩⟩

/-- The triangle `(0,2048), (1,2048), (0,2049)` at constant depth `1/2`. -/
def farRowLow : Triangle (Vector3 ℚ) := ⟨⟨0, 2048, 1 / 2⟩, ⟨1, 2048, 1 / 2⟩, ⟨0, 2049, 1 / 2⟩⟩

/-- The triangle `(0,2048), (1,2048), (0,2049)` at constant depth `3/4`. -/
def farRowHigh : Triangle (Vector3 ℚ) := ⟨⟨0, 2048, 3 / 4⟩, ⟨1, 2048, 3 / 4⟩, ⟨0, 2049, 3 / 4⟩⟩

/-- A black image of `4096 x 4100` pixels with byte channels. -/
def tallImage : TGAImage ℕ := ⟨4096, 4100, fun _ _ => ⟨0, 0, 0, 0⟩⟩

/-- A depth buffer for an image of `4096 x 4100` pixels, all entries `-5`. -/
def tallDepthBuffer : List ℚ := List.replicate 16793600 (-5)

/-- The spatial triangle `(4095,4099,0), (4094,4099,0), (4095,4098,0)` in the last rows and
columns of a `4096 x 4100` image. -/
def cornerTriangle : Triangle (Vector3 ℚ) :=
  ⟨⟨4095, 4099, 0⟩, ⟨4094, 4099, 0⟩, ⟨4095, 4098, 0⟩⟩

instance (w : Vector3 ℚ) : Decidable (nonNegative w) := by
  unfold nonNegative; infer_instance

/-- The integer triangle `(0,0), (6549,5845), (4469,4238)`. -/
def wideTriangle : Triangle Point := ⟨⟨0, 0⟩, ⟨6549, 5845⟩, ⟨4469, 4238⟩⟩

/-- The triangle with the `float` vertices `(2.7f, 1.6f), (1.3f, 6.4f), (3.7f, 5.4f)`. -/
def skewTriangle : Triangle (Vector3 ℚ) :=
  ⟨⟨round32 (27 / 10), round32 (8 / 5), 0⟩, ⟨round32 (13 / 10), round32 (32 / 5), 0⟩,
    ⟨round32 (37 / 10), round32 (27 / 5), 0⟩⟩

/-- The integer triangle `(0,0), (8193,8192), (8192,8191)`, of doubled area one. -/
def sliverTriangle : Triangle Point := ⟨⟨0, 0⟩, ⟨8193, 8192⟩, ⟨8192, 8191⟩⟩

/-- The integer triangle `(13,0), (16,7), (14,15)`. -/
def gridTriangle : Triangle (Vector3 ℚ) := ⟨⟨13, 0, 0⟩, ⟨16, 7, 0⟩, ⟨14, 15, 0⟩⟩

/-- The integer query point `(17, 7)`. -/
def gridQuery : Vector3 ℚ := ⟨17, 7, 0⟩

/-- The triangle with the `float` vertices `(0.8f, 15.0f), (1.2f, 1.4f), (8.4f, 3.8f)`. -/
def decimalTriangle : Triangle (Vector3 ℚ) :=
  ⟨⟨round32 (4 / 5), 15, 0⟩, ⟨round32 (6 / 5), round32 (7 / 5), 0⟩,
    ⟨round32 (42 / 5), round32 (19 / 5), 0⟩⟩

/-- The spatial triangle `(0,0,0), (4,0,0), (0,4,0)`. -/
def rightTriangle3D : Triangle (Vector3 ℚ) := ⟨⟨0, 0, 0⟩, ⟨4, 0, 0⟩, ⟨0, 4, 0⟩⟩

/-- The integer triangle `(0,0), (0,2), (3,0)`. -/
def sixthTriangle : Triangle (Vector3 ℚ) := ⟨⟨0, 0, 0⟩, ⟨0, 2, 0⟩, ⟨3, 0, 0⟩⟩

/-- The exchange of the first two entries of a vertex vector. -/
def swapFirstTwo : Equiv.Perm (Fin 3) := Equiv.swap 0 1

/-- The integer points `(0,0), (16777217,3), (50331651,9)`, on the line
`3 x = 16777217 y`. -/
def longTriangle : Triangle Point := ⟨⟨0, 0⟩, ⟨16777217, 3⟩, ⟨50331651, 9⟩⟩

/-- The integer triangle `(0,0), (0,1), (22,22)`. -/
def steepTriangle : Triangle Point := ⟨⟨0, 0⟩, ⟨0, 1⟩, ⟨22, 22⟩⟩

/-- Modelled from the spec: the channel type of the colour `TGAColor`, whose header
`vendor/tga/tgaimage.h` is absent.  The spec describes a colour as "an RGB(A) tuple with
components scalable by a lighting intensity factor" and asks for channels "scaled by exactly
0.5": a channel holds a number, and `channel *= lightIntensity` stores the product as it is
(both conversions are the identity). -/
def exactChannel : Channel ℚ := ⟨fun c => c, fun q => q⟩

/-- A `2 x 2` texture with number channels, every texel `(200, 100, 50, 255)`. -/
def plainTexture : TGAImage ℚ := ⟨2, 2, fun _ _ => ⟨200, 100, 50, 255⟩⟩

/-- A black `2 x 2` image with number channels. -/
def plainImage : TGAImage ℚ := ⟨2, 2, fun _ _ => ⟨0, 0, 0, 0⟩⟩

/-! ## Theorems -/

theorem floatToInt_intCast (n : ℤ) : floatToInt (n : ℚ) = n := by
  unfold floatToInt
  split <;> simp

theorem floatToInt_index (x y width : ℤ) :
    floatToInt ((screenPoint x y).x + (screenPoint x y).y * (width : ℚ)) = x + y * width := by
  have h : (screenPoint x y).x + (screenPoint x y).y * (width : ℚ)
      = ((x + y * width : ℤ) : ℚ) := by
    simp [screenPoint]
  rw [h, floatToInt_intCast]

theorem not_negative_iff (w : Vector3 ℚ) :
    ¬ (w.x < 0 ∨ w.y < 0 ∨ w.z < 0) ↔ nonNegative w := by
  simp [nonNegative, not_or, not_lt]

theorem shouldRender3D_rejected (triangle : Triangle (Vector3 ℚ)) (point : Vector3 ℚ)
    (zBuffer : List ℚ) (width : ℤ)
    (h : ¬ nonNegative (computeBarycentricVector3D triangle point)) :
    shouldRender3D triangle point zBuffer width
      = some ⟨false, computeBarycentricVector3D triangle point, zBuffer⟩ := by
  rw [← not_negative_iff, not_not] at h
  unfold shouldRender3D
  simp only [h, if_true]

theorem shouldRender3D_tested (triangle : Triangle (Vector3 ℚ)) (point : Vector3 ℚ)
    (zBuffer : List ℚ) (width : ℤ) (stored : ℚ)
    (h : nonNegative (computeBarycentricVector3D triangle point))
    (hidx : 0 ≤ floatToInt (point.x + point.y * (width : ℚ)))
    (hstored : zBuffer[(floatToInt (point.x + point.y * (width : ℚ))).toNat]? = some stored) :
    shouldRender3D triangle point zBuffer width
      = if stored < interpolateZ triangle (computeBarycentricVector3D triangle point) then
          some ⟨true, computeBarycentricVector3D triangle point,
            zBuffer.set (floatToInt (point.x + point.y * (width : ℚ))).toNat
              (interpolateZ triangle (computeBarycentricVector3D triangle point))⟩
        else some ⟨false, computeBarycentricVector3D triangle point, zBuffer⟩ := by
  rw [← not_negative_iff] at h
  unfold shouldRender3D
  simp only [h, if_false, hidx, if_true, hstored]

theorem crossResult3D_z (t : Triangle (Vector3 ℚ)) (p : Vector3 ℚ) :
    (crossResult3D t p).z
      = (t.v2.x - t.v0.x) * (t.v1.y - t.v0.y) - (t.v1.x - t.v0.x) * (t.v2.y - t.v0.y) := by
  simp [crossResult3D, Vector3.CrossProduct, Vector3.sub]

theorem crossResult3D_x (t : Triangle (Vector3 ℚ)) (p : Vector3 ℚ) :
    (crossResult3D t p).x
      = (t.v1.x - t.v0.x) * (t.v0.y - p.y) - (t.v0.x - p.x) * (t.v1.y - t.v0.y) := by
  simp [crossResult3D, Vector3.CrossProduct, Vector3.sub]

theorem crossResult3D_y (t : Triangle (Vector3 ℚ)) (p : Vector3 ℚ) :
    (crossResult3D t p).y
      = (t.v0.x - p.x) * (t.v2.y - t.v0.y) - (t.v2.x - t.v0.x) * (t.v0.y - p.y) := by
  simp [crossResult3D, Vector3.CrossProduct, Vector3.sub]

theorem crossResult2D_z (t : Triangle Point) (p : Point) :
    (crossResult2D t p).z
      = ((t.v1.x : ℚ) - t.v0.x) * ((t.v2.y : ℚ) - t.v0.y)
        - ((t.v2.x : ℚ) - t.v0.x) * ((t.v1.y : ℚ) - t.v0.y) := by
  simp [crossResult2D, Vector3.CrossProduct, Vector2.sub]

theorem crossResult2D_x (t : Triangle Point) (p : Point) :
    (crossResult2D t p).x
      = ((t.v2.x : ℚ) - t.v0.x) * ((t.v0.y : ℚ) - p.y)
        - ((t.v0.x : ℚ) - p.x) * ((t.v2.y : ℚ) - t.v0.y) := by
  simp [crossResult2D, Vector3.CrossProduct, Vector2.sub]

theorem crossResult2D_y (t : Triangle Point) (p : Point) :
    (crossResult2D t p).y
      = ((t.v0.x : ℚ) - p.x) * ((t.v1.y : ℚ) - t.v0.y)
        - ((t.v1.x : ℚ) - t.v0.x) * ((t.v0.y : ℚ) - p.y) := by
  simp [crossResult2D, Vector3.CrossProduct, Vector2.sub]

theorem computeBarycentricVector3D_accepted (t : Triangle (Vector3 ℚ)) (p : Vector3 ℚ)
    (h : |(crossResult3D t p).z| > 1 / 100) :
    computeBarycentricVector3D t p
      = ⟨1 - ((crossResult3D t p).x + (crossResult3D t p).y) / (crossResult3D t p).z,
         (crossResult3D t p).y / (crossResult3D t p).z,
         (crossResult3D t p).x / (crossResult3D t p).z⟩ := by
  unfold computeBarycentricVector3D
  simp only [h, if_true]

theorem computeBarycentricVector3D_rejected (t : Triangle (Vector3 ℚ)) (p : Vector3 ℚ)
    (h : ¬ |(crossResult3D t p).z| > 1 / 100) :
    computeBarycentricVector3D t p = INVALID_VECTOR := by
  unfold computeBarycentricVector3D
  simp only [h, if_false]

theorem computeBarycentricVector2D_accepted (t : Triangle Point) (p : Point)
    (h : ¬ |(crossResult2D t p).z| < 1) :
    computeBarycentricVector2D t p
      = ⟨1 - ((crossResult2D t p).x + (crossResult2D t p).y) / (crossResult2D t p).z,
         (crossResult2D t p).y / (crossResult2D t p).z,
         (crossResult2D t p).x / (crossResult2D t p).z⟩ := by
  unfold computeBarycentricVector2D
  simp only [h, if_false]

theorem computeBarycentricVector2D_rejected (t : Triangle Point) (p : Point)
    (h : |(crossResult2D t p).z| < 1) :
    computeBarycentricVector2D t p = INVALID_VECTOR := by
  unfold computeBarycentricVector2D
  simp only [h, if_true]

theorem hasNegative_INVALID_VECTOR : hasNegative INVALID_VECTOR := by
  left
  norm_num [INVALID_VECTOR]

theorem crossResult3D_z_ne_zero (t : Triangle (Vector3 ℚ)) (p : Vector3 ℚ)
    (h : |(crossResult3D t p).z| > 1 / 100) : (crossResult3D t p).z ≠ 0 := by
  intro h0
  rw [h0] at h
  norm_num at h

theorem crossResult2D_z_ne_zero (t : Triangle Point) (p : Point)
    (h : ¬ |(crossResult2D t p).z| < 1) : (crossResult2D t p).z ≠ 0 := by
  intro h0
  rw [h0] at h
  norm_num at h

/-- For an accepted triangle the 3D weights have sum one and reproduce the query point from
the vertices in the order `v0, v1, v2`. -/
theorem computeBarycentricVector3D_affine (t : Triangle (Vector3 ℚ)) (p : Vector3 ℚ)
    (h : |(crossResult3D t p).z| > 1 / 100) :
    (computeBarycentricVector3D t p).x + (computeBarycentricVector3D t p).y
      + (computeBarycentricVector3D t p).z = 1 ∧
    p.x = (computeBarycentricVector3D t p).x * t.v0.x
      + (computeBarycentricVector3D t p).y * t.v1.x
      + (computeBarycentricVector3D t p).z * t.v2.x ∧
    p.y = (computeBarycentricVector3D t p).x * t.v0.y
      + (computeBarycentricVector3D t p).y * t.v1.y
      + (computeBarycentricVector3D t p).z * t.v2.y := by
  have hz := crossResult3D_z_ne_zero t p h
  rw [computeBarycentricVector3D_accepted t p h]
  refine ⟨?_, ?_, ?_⟩
  · field_simp
    ring
  · field_simp
    rw [crossResult3D_x, crossResult3D_y, crossResult3D_z]
    ring
  · field_simp
    rw [crossResult3D_x, crossResult3D_y, crossResult3D_z]
    ring

/-- For an accepted triangle the 2D weights have sum one and reproduce the query point from
the vertices taken in the order `v0, v2, v1`. -/
theorem computeBarycentricVector2D_affine (t : Triangle Point) (p : Point)
    (h : ¬ |(crossResult2D t p).z| < 1) :
    (computeBarycentricVector2D t p).x + (computeBarycentricVector2D t p).y
      + (computeBarycentricVector2D t p).z = 1 ∧
    (p.x : ℚ) = (computeBarycentricVector2D t p).x * t.v0.x
      + (computeBarycentricVector2D t p).z * t.v1.x
      + (computeBarycentricVector2D t p).y * t.v2.x ∧
    (p.y : ℚ) = (computeBarycentricVector2D t p).x * t.v0.y
      + (computeBarycentricVector2D t p).z * t.v1.y
      + (computeBarycentricVector2D t p).y * t.v2.y := by
  have hz := crossResult2D_z_ne_zero t p h
  rw [computeBarycentricVector2D_accepted t p h]
  refine ⟨?_, ?_, ?_⟩
  · field_simp
    ring
  · field_simp
    rw [crossResult2D_x, crossResult2D_y, crossResult2D_z]
    ring
  · field_simp
    rw [crossResult2D_x, crossResult2D_y, crossResult2D_z]
    ring

/-- The weights of a combination with sum one are what the accepted 3D solver returns. -/
theorem computeBarycentricVector3D_unique (t : Triangle (Vector3 ℚ)) (p : Vector3 ℚ)
    (h : |(crossResult3D t p).z| > 1 / 100) (a b c : ℚ) (hsum : a + b + c = 1)
    (hx : p.x = a * t.v0.x + b * t.v1.x + c * t.v2.x)
    (hy : p.y = a * t.v0.y + b * t.v1.y + c * t.v2.y) :
    computeBarycentricVector3D t p = ⟨a, b, c⟩ := by
  have hz := crossResult3D_z_ne_zero t p h
  have ha : a = 1 - b - c := by linarith
  have hRy : (crossResult3D t p).y = b * (crossResult3D t p).z := by
    rw [crossResult3D_y, crossResult3D_z, hx, hy, ha]
    ring
  have hRx : (crossResult3D t p).x = c * (crossResult3D t p).z := by
    rw [crossResult3D_x, crossResult3D_z, hx, hy, ha]
    ring
  rw [computeBarycentricVector3D_accepted t p h, hRx, hRy]
  congr 1
  · field_simp
    rw [ha]
    ring
  · field_simp
  · field_simp

/-- The weights of a combination with sum one are what the accepted 2D solver returns, with
the weights of `v1` and `v2` exchanged. -/
theorem computeBarycentricVector2D_unique (t : Triangle Point) (p : Point)
    (h : ¬ |(crossResult2D t p).z| < 1) (a b c : ℚ) (hsum : a + b + c = 1)
    (hx : (p.x : ℚ) = a * t.v0.x + b * t.v1.x + c * t.v2.x)
    (hy : (p.y : ℚ) = a * t.v0.y + b * t.v1.y + c * t.v2.y) :
    computeBarycentricVector2D t p = ⟨a, c, b⟩ := by
  have hz := crossResult2D_z_ne_zero t p h
  have ha : a = 1 - b - c := by linarith
  have hRy : (crossResult2D t p).y = c * (crossResult2D t p).z := by
    rw [crossResult2D_y, crossResult2D_z, hx, hy, ha]
    ring
  have hRx : (crossResult2D t p).x = b * (crossResult2D t p).z := by
    rw [crossResult2D_x, crossResult2D_z, hx, hy, ha]
    ring
  rw [computeBarycentricVector2D_accepted t p h, hRx, hRy]
  congr 1
  · field_simp
    rw [ha]
    ring
  · field_simp
  · field_simp

theorem collinear_iff_cross (A B C : Vector2 ℚ) :
    collinear A B C ↔ (B.x - A.x) * (C.y - A.y) - (C.x - A.x) * (B.y - A.y) = 0 := by
  constructor
  · rintro ⟨a, b, c, hab, hA, hB, hC⟩
    have h1 : a * (B.x - A.x) + b * (B.y - A.y) = 0 := by linarith
    have h2 : a * (C.x - A.x) + b * (C.y - A.y) = 0 := by linarith
    rcases hab with ha | hb
    · have h3 : a * ((B.x - A.x) * (C.y - A.y) - (C.x - A.x) * (B.y - A.y)) = 0 := by
        linear_combination (C.y - A.y) * h1 - (B.y - A.y) * h2
      rcases mul_eq_zero.mp h3 with h | h
      · exact absurd h ha
      · exact h
    · have h3 : b * ((B.x - A.x) * (C.y - A.y) - (C.x - A.x) * (B.y - A.y)) = 0 := by
        linear_combination (B.x - A.x) * h2 - (C.x - A.x) * h1
      rcases mul_eq_zero.mp h3 with h | h
      · exact absurd h hb
      · exact h
  · intro h
    by_cases hB : B.y - A.y ≠ 0 ∨ B.x - A.x ≠ 0
    · refine ⟨B.y - A.y, -(B.x - A.x), -((B.y - A.y) * A.x + -(B.x - A.x) * A.y), ?_, ?_, ?_, ?_⟩
      · rcases hB with h1 | h1
        · exact Or.inl h1
        · exact Or.inr (neg_ne_zero.mpr h1)
      · ring
      · ring
      · linear_combination -h
    · rw [not_or, not_not, not_not] at hB
      by_cases hC : C.y - A.y ≠ 0 ∨ C.x - A.x ≠ 0
      · refine ⟨C.y - A.y, -(C.x - A.x), -((C.y - A.y) * A.x + -(C.x - A.x) * A.y),
          ?_, ?_, ?_, ?_⟩
        · rcases hC with h1 | h1
          · exact Or.inl h1
          · exact Or.inr (neg_ne_zero.mpr h1)
        · ring
        · linear_combination h
        · ring
      · rw [not_or, not_not, not_not] at hC
        refine ⟨1, 0, -A.x, Or.inl one_ne_zero, ?_, ?_, ?_⟩
        · ring
        · linear_combination hB.2
        · linear_combination hC.2

theorem crossResult2D_z_eq_zero_iff (t : Triangle Point) (p : Point) :
    (crossResult2D t p).z = 0 ↔ collinear t.v0.toFloat t.v1.toFloat t.v2.toFloat := by
  rw [collinear_iff_cross, crossResult2D_z]
  simp [Point.toFloat]

theorem crossResult3D_z_eq_zero_iff (t : Triangle (Vector3 ℚ)) (p : Vector3 ℚ) :
    (crossResult3D t p).z = 0 ↔ collinear t.v0.xy t.v1.xy t.v2.xy := by
  rw [collinear_iff_cross, crossResult3D_z]
  simp only [Vector3.xy]
  constructor <;> intro h <;> linear_combination -h

/-- The `z` component of the 2D cross product is an integer. -/
theorem crossResult2D_z_int (t : Triangle Point) (p : Point) :
    (crossResult2D t p).z
      = (((t.v1.x - t.v0.x) * (t.v2.y - t.v0.y)
          - (t.v2.x - t.v0.x) * (t.v1.y - t.v0.y) : ℤ) : ℚ) := by
  rw [crossResult2D_z]
  push_cast
  ring

/-- The 2D threshold rejects no integer triangle with non-zero cross product. -/
theorem crossResult2D_z_abs_ge_one (t : Triangle Point) (p : Point)
    (h : (crossResult2D t p).z ≠ 0) : ¬ |(crossResult2D t p).z| < 1 := by
  rw [crossResult2D_z_int] at h ⊢
  have hn : ((t.v1.x - t.v0.x) * (t.v2.y - t.v0.y)
          - (t.v2.x - t.v0.x) * (t.v1.y - t.v0.y) : ℤ) ≠ 0 := by
    intro h0
    apply h
    rw [h0]
    simp
  have h1 : (1 : ℤ) ≤ |(t.v1.x - t.v0.x) * (t.v2.y - t.v0.y)
          - (t.v2.x - t.v0.x) * (t.v1.y - t.v0.y)| := Int.one_le_abs hn
  rw [not_lt, ← Int.cast_abs]
  exact_mod_cast h1

theorem shouldRender2D_eq (t : Triangle Point) (p : Point) :
    shouldRender2D t p = !decide (hasNegative (computeBarycentricVector2D t p)) := by
  unfold shouldRender2D hasNegative
  by_cases h : (computeBarycentricVector2D t p).x < 0 ∨ (computeBarycentricVector2D t p).y < 0
      ∨ (computeBarycentricVector2D t p).z < 0
  · simp [h]
  · simp only [h, if_false]
    simp

theorem not_hasNegative_iff (w : Vector3 ℚ) : ¬ hasNegative w ↔ nonNegative w :=
  not_negative_iff w

/-- Non-negative 3D weights put the query point in the closed triangle. -/
theorem inClosedTriangle_of_nonNegative3D (t : Triangle (Vector3 ℚ)) (p : Vector3 ℚ)
    (h : nonNegative (computeBarycentricVector3D t p)) :
    inClosedTriangle t.v0.xy t.v1.xy t.v2.xy p.xy := by
  by_cases hacc : |(crossResult3D t p).z| > 1 / 100
  · obtain ⟨h1, h2, h3⟩ := computeBarycentricVector3D_affine t p hacc
    exact ⟨_, _, _, h.1, h.2.1, h.2.2, h1, h2, h3⟩
  · rw [computeBarycentricVector3D_rejected t p hacc] at h
    exact absurd hasNegative_INVALID_VECTOR ((not_hasNegative_iff _).mpr h)

/-- Non-negative 2D weights put the query point in the closed triangle. -/
theorem inClosedTriangle_of_nonNegative2D (t : Triangle Point) (p : Point)
    (h : nonNegative (computeBarycentricVector2D t p)) :
    inClosedTriangle t.v0.toFloat t.v1.toFloat t.v2.toFloat p.toFloat := by
  by_cases hrej : |(crossResult2D t p).z| < 1
  · rw [computeBarycentricVector2D_rejected t p hrej] at h
    exact absurd hasNegative_INVALID_VECTOR ((not_hasNegative_iff _).mpr h)
  · obtain ⟨h1, h2, h3⟩ := computeBarycentricVector2D_affine t p hrej
    refine ⟨(computeBarycentricVector2D t p).x, (computeBarycentricVector2D t p).z,
      (computeBarycentricVector2D t p).y, h.1, h.2.2, h.2.1, ?_, h2, h3⟩
    linarith

theorem mem_loopRange (lo hi : ℚ) (k : ℤ) :
    k ∈ loopRange lo hi ↔ floatToInt lo ≤ k ∧ (k : ℚ) ≤ hi := by
  unfold loopRange
  rw [List.mem_map]
  constructor
  · rintro ⟨i, hi2, rfl⟩
    rw [List.mem_range] at hi2
    refine ⟨by omega, ?_⟩
    have h1 : floatToInt lo + (i : ℤ) ≤ ⌊hi⌋ := by omega
    exact Int.le_floor.mp h1
  · rintro ⟨h1, h2⟩
    have h3 : k ≤ ⌊hi⌋ := Int.le_floor.mpr h2
    refine ⟨(k - floatToInt lo).toNat, ?_, ?_⟩
    · rw [List.mem_range]
      omega
    · omega

theorem floatToInt_max_zero (n : ℤ) : floatToInt (max 0 (n : ℚ)) = max 0 n := by
  have h : max 0 (n : ℚ) = ((max 0 n : ℤ) : ℚ) := by push_cast; rfl
  rw [h, floatToInt_intCast]

/-- Every column scanned for a triangle lies on the screen. -/
theorem loopRange_box_x (t : Triangle (Vector3 ℚ)) (w h x : ℤ)
    (hx : x ∈ loopRange (BoundingBox3d.new t ⟨((w - 1 : ℤ) : ℚ), ((h - 1 : ℤ) : ℚ)⟩).minPoint.x
      (BoundingBox3d.new t ⟨((w - 1 : ℤ) : ℚ), ((h - 1 : ℤ) : ℚ)⟩).maxPoint.x) :
    0 ≤ x ∧ x ≤ w - 1 := by
  rw [mem_loopRange] at hx
  obtain ⟨h1, h2⟩ := hx
  simp only [BoundingBox3d.new] at h1 h2
  rw [floatToInt_max_zero] at h1
  constructor
  · exact le_trans (le_max_left _ _) h1
  · have h3 := le_trans h2 (min_le_left _ _)
    exact_mod_cast h3

/-- Every row scanned for a triangle lies on the screen. -/
theorem loopRange_box_y (t : Triangle (Vector3 ℚ)) (w h y : ℤ)
    (hy : y ∈ loopRange (BoundingBox3d.new t ⟨((w - 1 : ℤ) : ℚ), ((h - 1 : ℤ) : ℚ)⟩).minPoint.y
      (BoundingBox3d.new t ⟨((w - 1 : ℤ) : ℚ), ((h - 1 : ℤ) : ℚ)⟩).maxPoint.y) :
    0 ≤ y ∧ y ≤ h - 1 := by
  rw [mem_loopRange] at hy
  obtain ⟨h1, h2⟩ := hy
  simp only [BoundingBox3d.new] at h1 h2
  rw [floatToInt_max_zero] at h1
  constructor
  · exact le_trans (le_max_left _ _) h1
  · have h3 := le_trans h2 (min_le_left _ _)
    exact_mod_cast h3

/-- The flat index of an on-screen pixel lies inside a buffer of `width * height` entries. -/
theorem index_in_range (x y w h : ℤ) (len : ℕ) (hx0 : 0 ≤ x) (hx1 : x ≤ w - 1)
    (hy0 : 0 ≤ y) (hy1 : y ≤ h - 1) (hlen : w * h ≤ (len : ℤ)) :
    0 ≤ x + y * w ∧ (x + y * w).toNat < len := by
  have hw : 0 < w := by omega
  have h1 : 0 ≤ y * w := mul_nonneg hy0 (le_of_lt hw)
  have h2 : y * w ≤ (h - 1) * w := mul_le_mul_of_nonneg_right hy1 (le_of_lt hw)
  have h3 : (h - 1) * w = w * h - w := by ring
  constructor
  · omega
  · omega

/-- A fold in `Option` that keeps an invariant returns a state satisfying it. -/
theorem foldlM_invariant {σ ε : Type} (f : σ → ε → Option σ) (Inv : σ → Prop) (l : List ε)
    (hstep : ∀ s e, e ∈ l → Inv s → ∃ s2, f s e = some s2 ∧ Inv s2)
    (s : σ) (hs : Inv s) : ∃ s2, l.foldlM f s = some s2 ∧ Inv s2 := by
  induction l generalizing s with
  | nil => exact ⟨s, rfl, hs⟩
  | cons e l ih =>
    obtain ⟨s1, h1, hi1⟩ := hstep s e (List.mem_cons_self _ _) hs
    obtain ⟨s2, h2, hi2⟩ := ih (fun s e2 he => hstep s e2 (List.mem_cons_of_mem _ he)) s1 hi1
    refine ⟨s2, ?_, hi2⟩
    rw [List.foldlM_cons, h1]
    exact h2

theorem bufferLe_refl (zb : List ℚ) : bufferLe zb zb := by
  refine ⟨rfl, ?_⟩
  intro i a b ha hb
  rw [ha] at hb
  exact le_of_eq (Option.some.inj hb)

theorem bufferLe_trans {a b c : List ℚ} (hab : bufferLe a b) (hbc : bufferLe b c) :
    bufferLe a c := by
  refine ⟨hbc.1.trans hab.1, ?_⟩
  intro i x z hx hz
  have hi : i < a.length := by
    by_contra hc
    rw [List.getElem?_eq_none (not_lt.mp hc)] at hx
    exact Option.noConfusion hx
  have hib : i < b.length := by rw [hab.1]; exact hi
  exact le_trans (hab.2 i x b[i] hx (List.getElem?_eq_getElem hib))
    (hbc.2 i b[i] z (List.getElem?_eq_getElem hib) hz)

theorem bufferLe_set (zb : List ℚ) (i : ℕ) (stored z : ℚ) (hst : zb[i]? = some stored)
    (hlt : stored < z) : bufferLe zb (zb.set i z) := by
  refine ⟨List.length_set _ _ _, ?_⟩
  intro j a b ha hb
  rw [List.getElem?_set] at hb
  by_cases hij : i = j
  · subst hij
    rw [hst] at ha
    have ha2 : stored = a := Option.some.inj ha
    rw [if_pos rfl] at hb
    split at hb
    · have hb2 : z = b := Option.some.inj hb
      rw [← ha2, ← hb2]
      exact le_of_lt hlt
    · exact Option.noConfusion hb
  · rw [if_neg hij, ha] at hb
    exact le_of_eq (Option.some.inj hb)

/-- A depth test whose index lies in the buffer returns, and never lowers an entry. -/
theorem shouldRender3D_bufferLe (triangle : Triangle (Vector3 ℚ)) (x y width : ℤ)
    (zBuffer : List ℚ) (hidx : 0 ≤ x + y * width)
    (hlen : (x + y * width).toNat < zBuffer.length) :
    ∃ r : DepthTest, shouldRender3D triangle (screenPoint x y) zBuffer width = some r ∧
      bufferLe zBuffer r.zBuffer := by
  obtain ⟨stored, hstored⟩ : ∃ s, zBuffer[(x + y * width).toNat]? = some s :=
    ⟨_, List.getElem?_eq_getElem hlen⟩
  by_cases hw : nonNegative (computeBarycentricVector3D triangle (screenPoint x y))
  · have hidx2 : 0 ≤ floatToInt ((screenPoint x y).x + (screenPoint x y).y * (width : ℚ)) := by
      rw [floatToInt_index]; exact hidx
    have hst2 : zBuffer[(floatToInt ((screenPoint x y).x
        + (screenPoint x y).y * (width : ℚ))).toNat]? = some stored := by
      rw [floatToInt_index]; exact hstored
    rw [shouldRender3D_tested triangle (screenPoint x y) zBuffer width stored hw hidx2 hst2]
    split
    · rename_i hlt
      exact ⟨_, rfl, bufferLe_set zBuffer _ stored _ hst2 hlt⟩
    · exact ⟨_, rfl, bufferLe_refl zBuffer⟩
  · rw [shouldRender3D_rejected triangle (screenPoint x y) zBuffer width hw]
    exact ⟨_, rfl, bufferLe_refl zBuffer⟩

theorem rasterizePixel_invariant {Ch : Type} (triangle : Triangle (Vector3 ℚ))
    (color : TGAColor Ch) (zBuffer : List ℚ) (w h : ℤ) (state : Raster Ch) (x y : ℤ)
    (hlen : w * h ≤ (zBuffer.length : ℤ))
    (hx : 0 ≤ x ∧ x ≤ w - 1) (hy : 0 ≤ y ∧ y ≤ h - 1)
    (hinv : passInvariant zBuffer w h state) :
    ∃ s2, rasterizePixel triangle color state x y = some s2 ∧ passInvariant zBuffer w h s2 := by
  obtain ⟨hle, hw, hh⟩ := hinv
  have hlen2 : w * h ≤ (state.1.length : ℤ) := by rw [hle.1]; exact hlen
  obtain ⟨hi0, hi1⟩ := index_in_range x y w h state.1.length hx.1 hx.2 hy.1 hy.2 hlen2
  obtain ⟨r, hr, hrle⟩ := shouldRender3D_bufferLe triangle x y w state.1 hi0 hi1
  unfold rasterizePixel
  simp only [hw, hr]
  split
  · exact ⟨_, rfl, bufferLe_trans hle hrle, hw, hh⟩
  · exact ⟨_, rfl, bufferLe_trans hle hrle, hw, hh⟩

theorem rasterizeTexturedPixel_invariant {Ch : Type} (conv : Channel Ch)
    (triangle : Triangle (Vector3 ℚ)) (texture : TGAImage Ch) (uv : Triangle (Vector2 ℚ))
    (lightIntensity : ℚ) (zBuffer : List ℚ) (w h : ℤ) (state : Raster Ch) (x y : ℤ)
    (hlen : w * h ≤ (zBuffer.length : ℤ))
    (hx : 0 ≤ x ∧ x ≤ w - 1) (hy : 0 ≤ y ∧ y ≤ h - 1)
    (hinv : passInvariant zBuffer w h state) :
    ∃ s2, rasterizeTexturedPixel conv triangle texture uv lightIntensity state x y = some s2 ∧
      passInvariant zBuffer w h s2 := by
  obtain ⟨hle, hw, hh⟩ := hinv
  have hlen2 : w * h ≤ (state.1.length : ℤ) := by rw [hle.1]; exact hlen
  obtain ⟨hi0, hi1⟩ := index_in_range x y w h state.1.length hx.1 hx.2 hy.1 hy.2 hlen2
  obtain ⟨r, hr, hrle⟩ := shouldRender3D_bufferLe triangle x y w state.1 hi0 hi1
  unfold rasterizeTexturedPixel
  simp only [hw, hr]
  split
  · exact ⟨_, rfl, bufferLe_trans hle hrle, hw, hh⟩
  · exact ⟨_, rfl, bufferLe_trans hle hrle, hw, hh⟩

/-- A scan of the clamped bounding box of a triangle keeps every invariant that the loop body
keeps at on-screen pixels. -/
theorem scanBox_invariant {Ch : Type} (triangle : Triangle (Vector3 ℚ)) (w h : ℤ)
    (body : Raster Ch → ℤ → ℤ → Option (Raster Ch)) (Inv : Raster Ch → Prop)
    (hbody : ∀ s x y, 0 ≤ x ∧ x ≤ w - 1 → 0 ≤ y ∧ y ≤ h - 1 → Inv s →
      ∃ s2, body s x y = some s2 ∧ Inv s2)
    (state : Raster Ch) (hs : Inv state) :
    ∃ out, scanBox (BoundingBox3d.new triangle ⟨((w - 1 : ℤ) : ℚ), ((h - 1 : ℤ) : ℚ)⟩)
      body state = some out ∧ Inv out := by
  unfold scanBox
  apply foldlM_invariant _ Inv _ _ state hs
  intro s x hx hinv
  apply foldlM_invariant _ Inv _ _ s hinv
  intro s2 y hy hinv2
  exact hbody s2 x y (loopRange_box_x triangle w h x hx) (loopRange_box_y triangle w h y hy)
    hinv2

/-- A combination with non-negative weights of sum one lies between the least and the
greatest of the combined values. -/
theorem combination_bounds (a b c p q r : ℚ) (ha : 0 ≤ a) (hb : 0 ≤ b) (hc : 0 ≤ c)
    (hsum : a + b + c = 1) :
    min (min p q) r ≤ a * p + b * q + c * r ∧ a * p + b * q + c * r ≤ max (max p q) r := by
  have hp1 : min (min p q) r ≤ p := le_trans (min_le_left _ _) (min_le_left _ _)
  have hq1 : min (min p q) r ≤ q := le_trans (min_le_left _ _) (min_le_right _ _)
  have hr1 : min (min p q) r ≤ r := min_le_right _ _
  have hp2 : p ≤ max (max p q) r := le_trans (le_max_left _ _) (le_max_left _ _)
  have hq2 : q ≤ max (max p q) r := le_trans (le_max_right _ _) (le_max_left _ _)
  have hr2 : r ≤ max (max p q) r := le_max_right _ _
  constructor
  · have h1 := mul_le_mul_of_nonneg_left hp1 ha
    have h2 := mul_le_mul_of_nonneg_left hq1 hb
    have h3 := mul_le_mul_of_nonneg_left hr1 hc
    have h4 : a * min (min p q) r + b * min (min p q) r + c * min (min p q) r
        = min (min p q) r := by
      rw [← add_mul, ← add_mul, hsum, one_mul]
    linarith
  · have h1 := mul_le_mul_of_nonneg_left hp2 ha
    have h2 := mul_le_mul_of_nonneg_left hq2 hb
    have h3 := mul_le_mul_of_nonneg_left hr2 hc
    have h4 : a * max (max p q) r + b * max (max p q) r + c * max (max p q) r
        = max (max p q) r := by
      rw [← add_mul, ← add_mul, hsum, one_mul]
    linarith

/-- Claim C19: after `sortPoints` the three points are a rearrangement of the three inputs and
are ordered from lower to upper by their `y` coordinate. -/
theorem sortPoints_sorted_perm (point1 point2 point3 : Point) :
    List.Perm [(sortPoints point1 point2 point3).1, (sortPoints point1 point2 point3).2.1,
      (sortPoints point1 point2 point3).2.2] [point1, point2, point3] ∧
    (sortPoints point1 point2 point3).1.y ≤ (sortPoints point1 point2 point3).2.1.y ∧
    (sortPoints point1 point2 point3).2.1.y ≤ (sortPoints point1 point2 point3).2.2.y := by
  unfold sortPoints
  by_cases h12 : point1.y > point2.y
  · by_cases h13 : point2.y > point3.y
    · simp only [h12, h13, if_true]
      refine ⟨?_, by omega, by omega⟩
      exact (List.Perm.swap _ _ _).trans ((List.Perm.cons _ (List.Perm.swap _ _ _)).trans
        (List.Perm.swap _ _ _))
    · by_cases h1 : point1.y > point3.y
      · simp only [h12, h13, h1, if_true, if_false]
        refine ⟨?_, by omega, by omega⟩
        exact ((List.Perm.cons _ (List.Perm.swap _ _ _)).trans (List.Perm.swap _ _ _))
      · simp only [h12, h13, h1, if_true, if_false]
        refine ⟨?_, by omega, by omega⟩
        exact List.Perm.swap _ _ _
  · by_cases h13 : point1.y > point3.y
    · by_cases h23 : point2.y > point1.y
      · simp only [h12, h13, h23, if_true, if_false]
        refine ⟨?_, by omega, by omega⟩
        exact (List.Perm.swap _ _ _).trans (List.Perm.cons _ (List.Perm.swap _ _ _))
      · simp only [h12, h13, h23, if_true, if_false]
        refine ⟨?_, by omega, by omega⟩
        exact (List.Perm.swap _ _ _).trans ((List.Perm.cons _ (List.Perm.swap _ _ _)).trans
          (List.Perm.swap _ _ _))
    · by_cases h23 : point2.y > point3.y
      · simp only [h12, h13, h23, if_true, if_false]
        refine ⟨?_, by omega, by omega⟩
        exact List.Perm.cons _ (List.Perm.swap _ _ _)
      · simp only [h12, h13, h23, if_true, if_false]
        exact ⟨List.Perm.refl _, by omega, by omega⟩

theorem mem_closedLoop (lo hi k : ℤ) : k ∈ closedLoop lo hi ↔ lo ≤ k ∧ k ≤ hi := by
  unfold closedLoop
  rw [List.mem_map]
  constructor
  · rintro ⟨i, hi2, rfl⟩
    rw [List.mem_range] at hi2
    omega
  · rintro ⟨h1, h2⟩
    refine ⟨(k - lo).toNat, ?_, ?_⟩
    · rw [List.mem_range]
      omega
    · omega

theorem mem_openLoop (lo hi k : ℤ) : k ∈ openLoop lo hi ↔ lo ≤ k ∧ k < hi := by
  unfold openLoop
  rw [List.mem_map]
  constructor
  · rintro ⟨i, hi2, rfl⟩
    rw [List.mem_range] at hi2
    omega
  · rintro ⟨h1, h2⟩
    refine ⟨(k - lo).toNat, ?_, ?_⟩
    · rw [List.mem_range]
      omega
    · omega

/-- The record after a guarded fill of one column: the accepted rows are appended in order. -/
theorem foldl_column_written {Ch : Type} (ys : List ℤ) (accept : ℤ → Bool) (x : ℤ)
    (color : TGAColor Ch) (canvas : Canvas Ch) :
    (ys.foldl (fun cv2 y => if accept y then cv2.set x y color else cv2) canvas).written
      = canvas.written ++ (ys.filter accept).map (fun y => (x, y)) := by
  induction ys generalizing canvas with
  | nil => simp
  | cons y ys ih =>
    rw [List.foldl_cons, ih]
    by_cases hy : accept y = true
    · simp [hy, Canvas.set]
    · simp [hy]

/-- The record after the two nested guarded loops of a box scan. -/
theorem foldl_box_written {Ch : Type} (xs ys : List ℤ) (accept : ℤ → ℤ → Bool)
    (color : TGAColor Ch) (canvas : Canvas Ch) :
    (xs.foldl (fun cv x =>
        ys.foldl (fun cv2 y => if accept x y then cv2.set x y color else cv2) cv)
      canvas).written
      = canvas.written
        ++ xs.flatMap (fun x => (ys.filter (accept x)).map (fun y => (x, y))) := by
  induction xs generalizing canvas with
  | nil => simp
  | cons x xs ih =>
    rw [List.foldl_cons, ih, foldl_column_written ys (accept x) x color canvas]
    simp [List.flatMap_cons]

/-- The coordinates recorded by `drawTriangle4`: the pixels of the half-open box scan that
the 2D containment test accepts, appended to what was recorded before. -/
theorem drawTriangle4_written {Ch : Type} (point1 point2 point3 : Point) (canvas : Canvas Ch)
    (color : TGAColor Ch) :
    (drawTriangle4 point1 point2 point3 canvas color).written
      = canvas.written ++
        (openLoop
          (BoundingBox2d.new ⟨point1, point2, point3⟩
            ⟨canvas.image.get_width - 1, canvas.image.get_height - 1⟩).minPoint.x
          (BoundingBox2d.new ⟨point1, point2, point3⟩
            ⟨canvas.image.get_width - 1, canvas.image.get_height - 1⟩).maxPoint.x).flatMap
        (fun x =>
          ((openLoop
            (BoundingBox2d.new ⟨point1, point2, point3⟩
              ⟨canvas.image.get_width - 1, canvas.image.get_height - 1⟩).minPoint.y
            (BoundingBox2d.new ⟨point1, point2, point3⟩
              ⟨canvas.image.get_width - 1, canvas.image.get_height - 1⟩).maxPoint.y).filter
            (fun y => shouldRender2D ⟨point1, point2, point3⟩ ⟨x, y⟩)).map
            (fun y => (x, y))) := by
  unfold drawTriangle4
  exact foldl_box_written _ _ (fun x y => shouldRender2D ⟨point1, point2, point3⟩ ⟨x, y⟩)
    color canvas

/-- A pixel is recorded by `drawTriangle4` on a fresh record exactly when it lies in the
half-open box scan and the 2D containment test accepts it. -/
theorem mem_drawTriangle4_written {Ch : Type} (point1 point2 point3 : Point)
    (canvas : Canvas Ch) (color : TGAColor Ch) (hfresh : canvas.written = []) (x y : ℤ) :
    (x, y) ∈ (drawTriangle4 point1 point2 point3 canvas color).written ↔
      ((BoundingBox2d.new ⟨point1, point2, point3⟩
          ⟨canvas.image.get_width - 1, canvas.image.get_height - 1⟩).minPoint.x ≤ x ∧
        x < (BoundingBox2d.new ⟨point1, point2, point3⟩
          ⟨canvas.image.get_width - 1, canvas.image.get_height - 1⟩).maxPoint.x) ∧
      ((BoundingBox2d.new ⟨point1, point2, point3⟩
          ⟨canvas.image.get_width - 1, canvas.image.get_height - 1⟩).minPoint.y ≤ y ∧
        y < (BoundingBox2d.new ⟨point1, point2, point3⟩
          ⟨canvas.image.get_width - 1, canvas.image.get_height - 1⟩).maxPoint.y) ∧
      shouldRender2D ⟨point1, point2, point3⟩ ⟨x, y⟩ = true := by
  rw [drawTriangle4_written, hfresh, List.nil_append, List.mem_flatMap]
  constructor
  · rintro ⟨x2, hx2, hmem⟩
    rw [List.mem_map] at hmem
    obtain ⟨y2, hy2, heq⟩ := hmem
    rw [List.mem_filter] at hy2
    obtain ⟨rfl, rfl⟩ := Prod.mk.inj heq
    exact ⟨(mem_openLoop _ _ _).mp hx2, (mem_openLoop _ _ _).mp hy2.1, hy2.2⟩
  · rintro ⟨hx, hy, hacc⟩
    refine ⟨x, (mem_openLoop _ _ _).mpr hx, ?_⟩
    rw [List.mem_map]
    exact ⟨y, List.mem_filter.mpr ⟨(mem_openLoop _ _ _).mpr hy, hacc⟩, rfl⟩

/-- A fold whose body leaves the state as it is returns the initial state. -/
theorem foldl_unchanged {σ ε : Type} (f : σ → ε → σ) (hf : ∀ s e, f s e = s) (l : List ε)
    (s : σ) : l.foldl f s = s := by
  induction l generalizing s with
  | nil => rfl
  | cons e l ih => rw [List.foldl_cons, hf, ih]

/-- A scan whose body leaves the state as it is at every pixel returns the initial state. -/
theorem scanBox_unchanged {Ch : Type} (boundingBox : BoundingBox3d)
    (body : Raster Ch → ℤ → ℤ → Option (Raster Ch))
    (hbody : ∀ s x y, body s x y = some s) (state : Raster Ch) :
    scanBox boundingBox body state = some state := by
  unfold scanBox
  obtain ⟨out, hout, hinv⟩ := foldlM_invariant
    (fun st x =>
      (loopRange boundingBox.minPoint.y boundingBox.maxPoint.y).foldlM
        (fun st2 y => body st2 x y) st)
    (fun s => s = state) (loopRange boundingBox.minPoint.x boundingBox.maxPoint.x)
    (by
      intro s x _ hs
      obtain ⟨s2, h2, hi2⟩ := foldlM_invariant (fun st2 y => body st2 x y) (fun t => t = state)
        (loopRange boundingBox.minPoint.y boundingBox.maxPoint.y)
        (fun t y _ ht => ⟨t, hbody t x y, ht⟩) s hs
      exact ⟨s2, h2, hi2⟩)
    state rfl
  rw [hout, hinv]

/-- Claim C12, evaluation at the failing input: on a `5 x 5` image the box of the triangle
`(0,0), (4,0), (0,4)` is `(0,0)..(4,4)`, the pixel `(4,0)` lies within the inclusive bounds
and the 2D containment test accepts it, yet `drawTriangle` does not pass it to `image.set`:
both loops stop before `maxPoint`. -/
theorem drawTriangle_skips_maxPoint :
    BoundingBox2d.new rightTriangle
        ⟨(blankCanvas 5 5).image.get_width - 1, (blankCanvas 5 5).image.get_height - 1⟩
      = ⟨⟨0, 0⟩, ⟨4, 4⟩⟩ ∧
    shouldRender2D rightTriangle ⟨4, 0⟩ = true ∧
    (4, 0) ∉ (drawTriangle rightTriangle.v0 rightTriangle.v1 rightTriangle.v2 (blankCanvas 5 5)
      red).written ∧
    (drawTriangle rightTriangle.v0 rightTriangle.v1 rightTriangle.v2 (blankCanvas 5 5)
      red).written
      = [(0, 0), (0, 1), (0, 2), (0, 3), (1, 0), (1, 1), (1, 2), (1, 3), (2, 0), (2, 1),
          (2, 2), (3, 0), (3, 1)] := by
  decide!

/-- Claim C18, evaluation at the failing input: for the triangle `A = (0,0)`, `B = (4,0)`,
`C = (0,4)` and `P = (3,1)` the 2D solver returns `(0, 1/4, 3/4)`.  The weights have sum one,
but `w1 = 1/4` is the weight of `C` and `w2 = 3/4` the weight of `B`: the point is
`w0*A + w2*B + w1*C`, not `w0*A + w1*B + w2*C`. -/
theorem computeBarycentricVector2D_swaps_weights :
    ¬ |(crossResult2D rightTriangle ⟨3, 1⟩).z| < 1 ∧
    computeBarycentricVector2D rightTriangle ⟨3, 1⟩ = ⟨0, 1 / 4, 3 / 4⟩ ∧
    (computeBarycentricVector2D rightTriangle ⟨3, 1⟩).x
      + (computeBarycentricVector2D rightTriangle ⟨3, 1⟩).y
      + (computeBarycentricVector2D rightTriangle ⟨3, 1⟩).z = 1 ∧
    (3 : ℚ) ≠ (computeBarycentricVector2D rightTriangle ⟨3, 1⟩).x * (rightTriangle.v0.x : ℚ)
      + (computeBarycentricVector2D rightTriangle ⟨3, 1⟩).y * (rightTriangle.v1.x : ℚ)
      + (computeBarycentricVector2D rightTriangle ⟨3, 1⟩).z * (rightTriangle.v2.x : ℚ) ∧
    (3 : ℚ) = (computeBarycentricVector2D rightTriangle ⟨3, 1⟩).x * (rightTriangle.v0.x : ℚ)
      + (computeBarycentricVector2D rightTriangle ⟨3, 1⟩).z * (rightTriangle.v1.x : ℚ)
      + (computeBarycentricVector2D rightTriangle ⟨3, 1⟩).y * (rightTriangle.v2.x : ℚ) ∧
    computeBarycentricVector3D ⟨⟨0, 0, 0⟩, ⟨4, 0, 0⟩, ⟨0, 4, 0⟩⟩ ⟨3, 1, 0⟩
      = ⟨0, 3 / 4, 1 / 4⟩ := by
  decide!

/-- Claim C20, evaluation at the failing input: the triangle `(0,0), (4,0), (0,4)` is not
degenerate, `sortPoints` leaves `point1 = (0,0)`, `point2 = (4,0)`, the first loop runs for
`y = 0`, and there `segmentHeight = point2.y - point1.y` is zero: the division for `beta`
has a zero divisor and `drawTriangle3` has no defined result. -/
theorem drawTriangle3_zero_segmentHeight :
    ¬ collinear rightTriangle.v0.toFloat rightTriangle.v1.toFloat rightTriangle.v2.toFloat ∧
    sortPoints rightTriangle.v0 rightTriangle.v1 rightTriangle.v2
      = (⟨0, 0⟩, ⟨4, 0⟩, ⟨0, 4⟩) ∧
    (0 : ℤ) ∈ closedLoop (sortPoints rightTriangle.v0 rightTriangle.v1 rightTriangle.v2).1.y
      (sortPoints rightTriangle.v0 rightTriangle.v1 rightTriangle.v2).2.1.y ∧
    (sortPoints rightTriangle.v0 rightTriangle.v1 rightTriangle.v2).2.1.y
      - (sortPoints rightTriangle.v0 rightTriangle.v1 rightTriangle.v2).1.y = 0 ∧
    (lowerRow (⟨0, 0⟩ : Point) ⟨4, 0⟩ ⟨0, 4⟩ red (blankCanvas 5 5) 0).map Canvas.written
      = none ∧
    (drawTriangle3 rightTriangle.v0 rightTriangle.v1 rightTriangle.v2 (blankCanvas 5 5)
      red).map Canvas.written = none := by
  refine ⟨?_, by decide!, by decide!, by decide!, by decide!, by decide!⟩
  rw [collinear_iff_cross]
  decide!

/-- The 2D containment test accepts exactly the points of the closed triangle, provided the
degeneracy guard lets the triangle pass. -/
theorem shouldRender2D_iff (t : Triangle Point) (p : Point) :
    shouldRender2D t p = true ↔
      ¬ |(crossResult2D t p).z| < 1 ∧
        inClosedTriangle t.v0.toFloat t.v1.toFloat t.v2.toFloat p.toFloat := by
  rw [shouldRender2D_eq]
  constructor
  · intro h
    have hnn : nonNegative (computeBarycentricVector2D t p) := by
      rw [← not_hasNegative_iff]
      simpa using h
    refine ⟨?_, inClosedTriangle_of_nonNegative2D t p hnn⟩
    intro hrej
    rw [computeBarycentricVector2D_rejected t p hrej] at hnn
    exact absurd hasNegative_INVALID_VECTOR ((not_hasNegative_iff _).mpr hnn)
  · rintro ⟨hacc, a, b, c, ha, hb, hc, hsum, hx, hy⟩
    have hw := computeBarycentricVector2D_unique t p hacc a b c hsum hx hy
    have hnn : ¬ hasNegative (computeBarycentricVector2D t p) := by
      rw [hw, not_hasNegative_iff]
      exact ⟨ha, hc, hb⟩
    simp [hnn]

/-- The 3D solver returns a negative component exactly when the guard rejects the triangle or
the point lies outside the closed triangle. -/
theorem hasNegative3D_iff (t : Triangle (Vector3 ℚ)) (p : Vector3 ℚ) :
    hasNegative (computeBarycentricVector3D t p) ↔
      ¬ (|(crossResult3D t p).z| > 1 / 100 ∧
        inClosedTriangle t.v0.xy t.v1.xy t.v2.xy p.xy) := by
  constructor
  · rintro hneg ⟨hacc, a, b, c, ha, hb, hc, hsum, hx, hy⟩
    have hw := computeBarycentricVector3D_unique t p hacc a b c hsum hx hy
    rw [hw] at hneg
    exact ((not_hasNegative_iff _).mpr ⟨ha, hb, hc⟩) hneg
  · intro h
    by_contra hneg
    have hnn := (not_hasNegative_iff _).mp hneg
    apply h
    refine ⟨?_, inClosedTriangle_of_nonNegative3D t p hnn⟩
    by_contra hrej
    rw [computeBarycentricVector3D_rejected t p hrej] at hnn
    exact absurd hasNegative_INVALID_VECTOR ((not_hasNegative_iff _).mpr hnn)

theorem inClosedTriangle_swap01 (A B C P : Vector2 ℚ) :
    inClosedTriangle B A C P ↔ inClosedTriangle A B C P := by
  constructor
  · rintro ⟨a, b, c, ha, hb, hc, hsum, hx, hy⟩
    exact ⟨b, a, c, hb, ha, hc, by linarith, by linarith, by linarith⟩
  · rintro ⟨a, b, c, ha, hb, hc, hsum, hx, hy⟩
    exact ⟨b, a, c, hb, ha, hc, by linarith, by linarith, by linarith⟩

theorem inClosedTriangle_swap12 (A B C P : Vector2 ℚ) :
    inClosedTriangle A C B P ↔ inClosedTriangle A B C P := by
  constructor
  · rintro ⟨a, b, c, ha, hb, hc, hsum, hx, hy⟩
    exact ⟨a, c, b, ha, hc, hb, by linarith, by linarith, by linarith⟩
  · rintro ⟨a, b, c, ha, hb, hc, hsum, hx, hy⟩
    exact ⟨a, c, b, ha, hc, hb, by linarith, by linarith, by linarith⟩

/-- What the 2D containment test decides, as a predicate of the three vertices. -/
theorem shouldRender2D_swap01 (A B C p : Point) :
    shouldRender2D ⟨B, A, C⟩ p = shouldRender2D ⟨A, B, C⟩ p := by
  rw [Bool.eq_iff_iff, shouldRender2D_iff, shouldRender2D_iff, crossResult2D_z, crossResult2D_z,
    inClosedTriangle_swap01]
  have h : ((A.x : ℚ) - B.x) * ((C.y : ℚ) - B.y) - ((C.x : ℚ) - B.x) * ((A.y : ℚ) - B.y)
      = -(((B.x : ℚ) - A.x) * ((C.y : ℚ) - A.y) - ((C.x : ℚ) - A.x) * ((B.y : ℚ) - A.y)) := by
    ring
  simp only [h, abs_neg]

theorem shouldRender2D_swap12 (A B C p : Point) :
    shouldRender2D ⟨A, C, B⟩ p = shouldRender2D ⟨A, B, C⟩ p := by
  rw [Bool.eq_iff_iff, shouldRender2D_iff, shouldRender2D_iff, crossResult2D_z, crossResult2D_z,
    inClosedTriangle_swap12]
  have h : ((C.x : ℚ) - A.x) * ((B.y : ℚ) - A.y) - ((B.x : ℚ) - A.x) * ((C.y : ℚ) - A.y)
      = -(((B.x : ℚ) - A.x) * ((C.y : ℚ) - A.y) - ((C.x : ℚ) - A.x) * ((B.y : ℚ) - A.y)) := by
    ring
  simp only [h, abs_neg]

theorem hasNegative3D_swap01 (A B C p : Vector3 ℚ) :
    hasNegative (computeBarycentricVector3D ⟨B, A, C⟩ p)
      ↔ hasNegative (computeBarycentricVector3D ⟨A, B, C⟩ p) := by
  rw [hasNegative3D_iff, hasNegative3D_iff, crossResult3D_z, crossResult3D_z,
    inClosedTriangle_swap01]
  have h : (C.x - B.x) * (A.y - B.y) - (A.x - B.x) * (C.y - B.y)
      = -((C.x - A.x) * (B.y - A.y) - (B.x - A.x) * (C.y - A.y)) := by
    ring
  simp only [h, abs_neg]

theorem hasNegative3D_swap12 (A B C p : Vector3 ℚ) :
    hasNegative (computeBarycentricVector3D ⟨A, C, B⟩ p)
      ↔ hasNegative (computeBarycentricVector3D ⟨A, B, C⟩ p) := by
  rw [hasNegative3D_iff, hasNegative3D_iff, crossResult3D_z, crossResult3D_z,
    inClosedTriangle_swap12]
  have h : (B.x - A.x) * (C.y - A.y) - (C.x - A.x) * (B.y - A.y)
      = -((C.x - A.x) * (B.y - A.y) - (B.x - A.x) * (C.y - A.y)) := by
    ring
  simp only [h, abs_neg]

/-- A property of vertex triples that survives the exchange of the first two and of the last
two vertices survives every rearrangement of the three vertices. -/
theorem permute_invariant {V R : Type} (f : Triangle V → R)
    (h01 : ∀ A B C, f ⟨B, A, C⟩ = f ⟨A, B, C⟩) (h12 : ∀ A B C, f ⟨A, C, B⟩ = f ⟨A, B, C⟩)
    (t : Triangle V) (σ : Equiv.Perm (Fin 3)) : f (t.permute σ) = f t := by
  have hinj := σ.injective
  have hne01 : σ 0 ≠ σ 1 := fun h => absurd (hinj h) (by decide)
  have hne02 : σ 0 ≠ σ 2 := fun h => absurd (hinj h) (by decide)
  have hne12 : σ 1 ≠ σ 2 := fun h => absurd (hinj h) (by decide)
  unfold Triangle.permute
  generalize σ 0 = i at hne01 hne02
  generalize σ 1 = j at hne01 hne12
  generalize σ 2 = k at hne02 hne12
  obtain ⟨A, B, C⟩ := t
  fin_cases i <;> fin_cases j <;> fin_cases k <;>
    first
    | exact absurd rfl hne01
    | exact absurd rfl hne02
    | exact absurd rfl hne12
    | rfl
    | exact h01 A B C
    | exact h12 A B C
    | exact (h12 B A C).trans (h01 A B C)
    | exact (h01 A C B).trans (h12 A B C)
    | exact (h01 B C A).trans ((h12 B A C).trans (h01 A B C))

/-- The weights handed back through `resultingBarycentric` are those of the 3D solver, and a
visible result comes with non-negative weights of an accepted triangle. -/
theorem shouldRender3D_visible (triangle : Triangle (Vector3 ℚ)) (point : Vector3 ℚ)
    (zBuffer : List ℚ) (width : ℤ) (test : DepthTest)
    (h : shouldRender3D triangle point zBuffer width = some test) :
    test.barycentric = computeBarycentricVector3D triangle point ∧
    (test.visible = true → nonNegative (computeBarycentricVector3D triangle point)) := by
  unfold shouldRender3D at h
  by_cases hneg : (computeBarycentricVector3D triangle point).x < 0 ∨
      (computeBarycentricVector3D triangle point).y < 0 ∨
      (computeBarycentricVector3D triangle point).z < 0
  · simp only [hneg, if_true] at h
    have ht := Option.some.inj h
    subst ht
    exact ⟨rfl, fun hv => absurd hv (by simp)⟩
  · simp only [hneg, if_false] at h
    have hnn := (not_negative_iff _).mp hneg
    split at h
    · split at h
      · exact Option.noConfusion h
      · split at h
        · have ht := Option.some.inj h
          subst ht
          exact ⟨rfl, fun _ => hnn⟩
        · have ht := Option.some.inj h
          subst ht
          exact ⟨rfl, fun _ => hnn⟩
    · exact Option.noConfusion h

/-- Non-negative weights returned by the 3D solver have sum one. -/
theorem nonNegative_sum_one (triangle : Triangle (Vector3 ℚ)) (point : Vector3 ℚ)
    (hnn : nonNegative (computeBarycentricVector3D triangle point)) :
    (computeBarycentricVector3D triangle point).x + (computeBarycentricVector3D triangle point).y
      + (computeBarycentricVector3D triangle point).z = 1 := by
  by_cases hacc : |(crossResult3D triangle point).z| > 1 / 100
  · exact (computeBarycentricVector3D_affine triangle point hacc).1
  · rw [computeBarycentricVector3D_rejected triangle point hacc] at hnn
    exact absurd hasNegative_INVALID_VECTOR ((not_hasNegative_iff _).mpr hnn)

/-- Truncation of a product `c * extent` with `0 <= c <= 1` and a positive extent. -/
theorem floatToInt_scaled (c : ℚ) (extent : ℤ) (hc0 : 0 ≤ c) (hc1 : c ≤ 1)
    (hext : 0 < extent) :
    0 ≤ floatToInt (c * (extent : ℚ)) ∧ floatToInt (c * (extent : ℚ)) ≤ extent ∧
    (c < 1 → floatToInt (c * (extent : ℚ)) < extent) := by
  have hpos : (0 : ℚ) < (extent : ℚ) := by exact_mod_cast hext
  have h0 : 0 ≤ c * (extent : ℚ) := mul_nonneg hc0 (le_of_lt hpos)
  have h1 : c * (extent : ℚ) ≤ (extent : ℚ) := by
    have := mul_le_mul_of_nonneg_right hc1 (le_of_lt hpos)
    rwa [one_mul] at this
  unfold floatToInt
  rw [if_pos h0]
  refine ⟨Int.floor_nonneg.mpr h0, ?_, ?_⟩
  · exact Int.cast_le.mp (le_trans (Int.floor_le _) h1)
  · intro hlt
    have h2 : c * (extent : ℚ) < (extent : ℚ) := by
      have := mul_lt_mul_of_pos_right hlt hpos
      rwa [one_mul] at this
    exact Int.floor_lt.mpr h2

theorem floatToInt_le_of_le (d : ℚ) (m : ℤ) (h : d ≤ (m : ℚ)) : floatToInt d ≤ m := by
  unfold floatToInt
  split
  · exact Int.cast_le.mp (le_trans (Int.floor_le d) h)
  · exact Int.ceil_le.mpr h

theorem le_floatToInt_of_le (d : ℚ) (m : ℤ) (h : (m : ℚ) ≤ d) : m ≤ floatToInt d := by
  unfold floatToInt
  split
  · exact Int.le_floor.mpr h
  · exact Int.cast_le.mp (le_trans h (Int.le_ceil d))

/-- The record after an unguarded fill of one row. -/
theorem foldl_row_written {Ch : Type} (xs : List ℤ) (y : ℤ) (color : TGAColor Ch)
    (canvas : Canvas Ch) :
    (xs.foldl (fun cv x => cv.set x y color) canvas).written
      = canvas.written ++ xs.map (fun x => (x, y)) := by
  induction xs generalizing canvas with
  | nil => simp
  | cons x xs ih =>
    rw [List.foldl_cons, ih]
    simp [Canvas.set]

/-- A filled span keeps what was recorded and records every column between its two ends. -/
theorem fillSpan_covers {Ch : Type} (canvas : Canvas Ch) (segmentA segmentB : Point) (y : ℤ)
    (color : TGAColor Ch) :
    (∀ q ∈ canvas.written, q ∈ (fillSpan canvas segmentA segmentB y color).written) ∧
    ∀ x : ℤ, (segmentA.x ≤ x ∧ x ≤ segmentB.x) ∨ (segmentB.x ≤ x ∧ x ≤ segmentA.x) →
      (x, y) ∈ (fillSpan canvas segmentA segmentB y color).written := by
  unfold fillSpan
  simp only [foldl_row_written]
  constructor
  · intro q hq
    exact List.mem_append_left _ hq
  · intro x hx
    apply List.mem_append_right
    rw [List.mem_map]
    refine ⟨x, ?_, rfl⟩
    rw [mem_closedLoop]
    by_cases hgt : segmentA.x > segmentB.x
    · simp only [hgt, if_true]
      omega
    · simp only [hgt, if_false]
      omega

/-- A point that is a weighted mean of two edge positions lies between them. -/
theorem between_edges (D l m eA eB x : ℚ) (hl : 0 ≤ l) (hm : 0 ≤ m) (hsum : l + m = D)
    (hD : 0 < D) (h : D * x = l * eA + m * eB) :
    (eA ≤ x ∧ x ≤ eB) ∨ (eB ≤ x ∧ x ≤ eA) := by
  rcases le_total eA eB with hle | hle
  · left
    constructor
    · have h1 : D * eA ≤ D * x := by
        rw [h, ← hsum, add_mul]
        have := mul_le_mul_of_nonneg_left hle hm
        linarith
      exact le_of_mul_le_mul_left h1 hD
    · have h1 : D * x ≤ D * eB := by
        rw [h, ← hsum, add_mul]
        have := mul_le_mul_of_nonneg_left hle hl
        linarith
      exact le_of_mul_le_mul_left h1 hD
  · right
    constructor
    · have h1 : D * eB ≤ D * x := by
        rw [h, ← hsum, add_mul]
        have := mul_le_mul_of_nonneg_left hle hl
        linarith
      exact le_of_mul_le_mul_left h1 hD
    · have h1 : D * x ≤ D * eA := by
        rw [h, ← hsum, add_mul]
        have := mul_le_mul_of_nonneg_left hle hm
        linarith
      exact le_of_mul_le_mul_left h1 hD

/-- A fold over rows whose every step returns, keeps the record and covers its row returns
a record that contains the initial one and covers every row of the list. -/
theorem foldlM_rows_cover {Ch : Type} (f : Canvas Ch → ℤ → Option (Canvas Ch))
    (Cov : ℤ → ℤ → Prop) (ys : List ℤ)
    (hf : ∀ cv y, y ∈ ys → ∃ cv2, f cv y = some cv2 ∧
      (∀ q ∈ cv.written, q ∈ cv2.written) ∧ ∀ x, Cov x y → (x, y) ∈ cv2.written)
    (canvas : Canvas Ch) :
    ∃ out, ys.foldlM f canvas = some out ∧
      (∀ q ∈ canvas.written, q ∈ out.written) ∧
      ∀ y ∈ ys, ∀ x, Cov x y → (x, y) ∈ out.written := by
  induction ys generalizing canvas with
  | nil => exact ⟨canvas, rfl, fun q hq => hq, fun y hy => absurd hy (List.not_mem_nil y)⟩
  | cons y0 ys ih =>
    obtain ⟨cv1, h1, hkeep1, hcov1⟩ := hf canvas y0 (List.mem_cons_self _ _)
    obtain ⟨out, h2, hkeep2, hcov2⟩ :=
      ih (fun cv y hy => hf cv y (List.mem_cons_of_mem _ hy)) cv1
    refine ⟨out, ?_, fun q hq => hkeep2 q (hkeep1 q hq), ?_⟩
    · rw [List.foldlM_cons, h1]
      exact h2
    · intro y hy x hx
      rcases List.mem_cons.mp hy with rfl | hy2
      · exact hkeep2 _ (hcov1 x hx)
      · exact hcov2 y hy2 x hx

/-- A point of the closed triangle lies, on its row, between the edge from the lowest to the
highest vertex and the edge from the lowest to the middle vertex. -/
theorem lower_between (x1 y1 x2 y2 x3 y3 x y a b c : ℚ) (h12 : y1 < y2) (h23 : y2 < y3)
    (hb : 0 ≤ b) (hc : 0 ≤ c) (hsum : a + b + c = 1)
    (hx : x = a * x1 + b * x2 + c * x3) (hy : y = a * y1 + b * y2 + c * y3) :
    (x1 + (x3 - x1) * ((y - y1) / (y3 - y1)) ≤ x ∧
        x ≤ x1 + (x2 - x1) * ((y - y1) / (y2 - y1))) ∨
      (x1 + (x2 - x1) * ((y - y1) / (y2 - y1)) ≤ x ∧
        x ≤ x1 + (x3 - x1) * ((y - y1) / (y3 - y1))) := by
  have hh : 0 < y2 - y1 := by linarith
  have hH : 0 < y3 - y1 := by linarith
  have hD : y - y1 = b * (y2 - y1) + c * (y3 - y1) := by
    rw [hy]
    linear_combination y1 * hsum
  have hbh : 0 ≤ b * (y2 - y1) := mul_nonneg hb (le_of_lt hh)
  have hcH : 0 ≤ c * (y3 - y1) := mul_nonneg hc (le_of_lt hH)
  rcases eq_or_lt_of_le (show 0 ≤ y - y1 by rw [hD]; linarith) with h0 | hpos
  · have hb0 : b = 0 := by
      have : b * (y2 - y1) = 0 := by linarith
      rcases mul_eq_zero.mp this with h | h
      · exact h
      · linarith
    have hc0 : c = 0 := by
      have : c * (y3 - y1) = 0 := by linarith
      rcases mul_eq_zero.mp this with h | h
      · exact h
      · linarith
    have hx1 : x = x1 := by
      rw [hx, hb0, hc0]
      have : a = 1 := by linarith
      rw [this]
      ring
    left
    rw [← h0, hx1]
    simp
  · apply between_edges (y - y1) (c * (y3 - y1)) (b * (y2 - y1)) _ _ x hcH hbh
      (by rw [hD]; ring) hpos
    have e1 : c * (y3 - y1) * (x1 + (x3 - x1) * ((y - y1) / (y3 - y1)))
        = c * (y3 - y1) * x1 + c * (x3 - x1) * (y - y1) := by
      field_simp
      ring
    have e2 : b * (y2 - y1) * (x1 + (x2 - x1) * ((y - y1) / (y2 - y1)))
        = b * (y2 - y1) * x1 + b * (x2 - x1) * (y - y1) := by
      field_simp
      ring
    rw [e1, e2]
    linear_combination (y - y1) * hx + x1 * (y - y1) * hsum + x1 * hD

/-- A point of the closed triangle lies, on its row, between the edge from the lowest to the
highest vertex and the edge from the middle to the highest vertex. -/
theorem upper_between (x1 y1 x2 y2 x3 y3 x y a b c : ℚ) (h12 : y1 < y2) (h23 : y2 < y3)
    (ha : 0 ≤ a) (hb : 0 ≤ b) (hsum : a + b + c = 1)
    (hx : x = a * x1 + b * x2 + c * x3) (hy : y = a * y1 + b * y2 + c * y3) :
    (x1 + (x3 - x1) * ((y - y1) / (y3 - y1)) ≤ x ∧
        x ≤ x2 + (x3 - x2) * ((y - y2) / (y3 - y2))) ∨
      (x2 + (x3 - x2) * ((y - y2) / (y3 - y2)) ≤ x ∧
        x ≤ x1 + (x3 - x1) * ((y - y1) / (y3 - y1))) := by
  have hh : 0 < y3 - y2 := by linarith
  have hH : 0 < y3 - y1 := by linarith
  have hD : y3 - y = a * (y3 - y1) + b * (y3 - y2) := by
    rw [hy]
    linear_combination (-y3) * hsum
  have haH : 0 ≤ a * (y3 - y1) := mul_nonneg ha (le_of_lt hH)
  have hbh : 0 ≤ b * (y3 - y2) := mul_nonneg hb (le_of_lt hh)
  rcases eq_or_lt_of_le (show 0 ≤ y3 - y by rw [hD]; linarith) with h0 | hpos
  · have ha0 : a = 0 := by
      have : a * (y3 - y1) = 0 := by linarith
      rcases mul_eq_zero.mp this with h | h
      · exact h
      · linarith
    have hb0 : b = 0 := by
      have : b * (y3 - y2) = 0 := by linarith
      rcases mul_eq_zero.mp this with h | h
      · exact h
      · linarith
    have hx3 : x = x3 := by
      rw [hx, ha0, hb0]
      have : c = 1 := by linarith
      rw [this]
      ring
    have hy3 : y = y3 := by linarith
    left
    rw [hy3, hx3]
    have h1 : (y3 - y1) / (y3 - y1) = 1 := div_self (ne_of_gt hH)
    have h2 : (y3 - y2) / (y3 - y2) = 1 := div_self (ne_of_gt hh)
    rw [h1, h2]
    constructor <;> linarith
  · apply between_edges (y3 - y) (a * (y3 - y1)) (b * (y3 - y2)) _ _ x haH hbh
      (by rw [hD]) hpos
    have e1 : a * (y3 - y1) * (x1 + (x3 - x1) * ((y - y1) / (y3 - y1)))
        = a * (y3 - y1) * x1 + a * (x3 - x1) * (y - y1) := by
      field_simp
      ring
    have e2 : b * (y3 - y2) * (x2 + (x3 - x2) * ((y - y2) / (y3 - y2)))
        = b * (y3 - y2) * x2 + b * (x3 - x2) * (y - y2) := by
      field_simp
      ring
    rw [e1, e2]
    have ha2 : a = 1 - b - c := by linarith
    subst hx hy ha2
    ring

/-- Whatever does not depend on the order of three points has the same value on the sorted
points, and the sorted points are ordered by their `y` coordinate. -/
theorem sortPoints_symmetric {R : Type} (f : Point → Point → Point → R)
    (h01 : ∀ A B C, f B A C = f A B C) (h12 : ∀ A B C, f A C B = f A B C)
    (point1 point2 point3 : Point) :
    f (sortPoints point1 point2 point3).1 (sortPoints point1 point2 point3).2.1
        (sortPoints point1 point2 point3).2.2 = f point1 point2 point3 ∧
    (sortPoints point1 point2 point3).1.y ≤ (sortPoints point1 point2 point3).2.1.y ∧
    (sortPoints point1 point2 point3).2.1.y ≤ (sortPoints point1 point2 point3).2.2.y := by
  unfold sortPoints
  by_cases c12 : point1.y > point2.y
  · by_cases c23 : point2.y > point3.y
    · simp only [c12, c23, if_true]
      exact ⟨(h01 _ _ _).trans ((h12 _ _ _).trans (h01 _ _ _)), by omega, by omega⟩
    · by_cases c13 : point1.y > point3.y
      · simp only [c12, c23, c13, if_true, if_false]
        exact ⟨(h12 _ _ _).trans (h01 _ _ _), by omega, by omega⟩
      · simp only [c12, c23, c13, if_true, if_false]
        exact ⟨h01 _ _ _, by omega, by omega⟩
  · by_cases c13 : point1.y > point3.y
    · by_cases c21 : point2.y > point1.y
      · simp only [c12, c13, c21, if_true, if_false]
        exact ⟨(h01 _ _ _).trans (h12 _ _ _), by omega, by omega⟩
      · simp only [c12, c13, c21, if_true, if_false]
        exact ⟨(h01 _ _ _).trans ((h12 _ _ _).trans (h01 _ _ _)), by omega, by omega⟩
    · by_cases c23 : point2.y > point3.y
      · simp only [c12, c13, c23, if_true, if_false]
        exact ⟨h12 _ _ _, by omega, by omega⟩
      · simp only [c12, c13, c23, if_true, if_false]
        exact ⟨trivial, by omega, by omega⟩

/-- The row of a point of the closed triangle lies between the rows of the lowest and the
highest vertex. -/
theorem closed_triangle_rows (y1 y2 y3 y a b c : ℚ) (h12 : y1 ≤ y2) (h23 : y2 ≤ y3)
    (ha : 0 ≤ a) (hb : 0 ≤ b) (hc : 0 ≤ c) (hsum : a + b + c = 1)
    (hy : y = a * y1 + b * y2 + c * y3) : y1 ≤ y ∧ y ≤ y3 := by
  have h1 : 0 ≤ b * (y2 - y1) := mul_nonneg hb (by linarith)
  have h2 : 0 ≤ c * (y3 - y1) := mul_nonneg hc (by linarith)
  have h3 : 0 ≤ a * (y3 - y1) := mul_nonneg ha (by linarith)
  have h4 : 0 ≤ b * (y3 - y2) := mul_nonneg hb (by linarith)
  have e1 : y - y1 = b * (y2 - y1) + c * (y3 - y1) := by
    rw [hy]
    linear_combination y1 * hsum
  have e2 : y3 - y = a * (y3 - y1) + b * (y3 - y2) := by
    rw [hy]
    linear_combination (-y3) * hsum
  constructor <;> linarith

/-- The depth test of the unit triangle at its first vertex against a buffer of `-5`. -/
theorem unitTriangle_origin_test :
    shouldRender3D unitTriangle (screenPoint 0 0)
        (([-5, -5, -5, -5], blankImage) : Raster ℕ).1
        (([-5, -5, -5, -5], blankImage) : Raster ℕ).2.get_width
      = some ⟨true, ⟨1, 0, 0⟩, [0, -5, -5, -5]⟩ := by
  decide!

theorem log2Fuel_spec (fuel : ℕ) : ∀ n : ℕ, n ≠ 0 → n ≤ fuel →
    2 ^ log2Fuel fuel n ≤ n ∧ n < 2 ^ (log2Fuel fuel n + 1) := by
  induction fuel with
  | zero => intro n hn hf; omega
  | succ fuel ih =>
    intro n hn hf
    unfold log2Fuel
    by_cases h2 : n < 2
    · rw [if_pos h2]
      have : n = 1 := by omega
      subst this
      simp
    · rw [if_neg h2]
      have hdiv := Nat.div_add_mod n 2
      have hmod := Nat.mod_lt n (show 2 > 0 by norm_num)
      obtain ⟨h1, h3⟩ := ih (n / 2) (by omega) (by omega)
      rw [pow_succ, pow_succ]
      rw [pow_succ] at h3
      constructor <;> omega

theorem natLog2_spec (n : ℕ) (hn : n ≠ 0) :
    2 ^ natLog2 n ≤ n ∧ n < 2 ^ (natLog2 n + 1) :=
  log2Fuel_spec n n hn le_rfl

theorem quotient_binade (n d ln ld : ℕ) (hd : 0 < d) (hn1 : 2 ^ ln ≤ n) (hn2 : n < 2 ^ (ln + 1))
    (hd1 : 2 ^ ld ≤ d) (hd2 : d < 2 ^ (ld + 1)) :
    (2 : ℚ) ^ ((ln : ℤ) - (ld : ℤ) - 1) ≤ (n : ℚ) / (d : ℚ) ∧
      (n : ℚ) / (d : ℚ) < (2 : ℚ) ^ ((ln : ℤ) - (ld : ℤ) + 1) := by
  have hdpos : (0 : ℚ) < (d : ℚ) := by exact_mod_cast hd
  have hn1q : (2 : ℚ) ^ ln ≤ (n : ℚ) := by exact_mod_cast hn1
  have hn2q : (n : ℚ) < (2 : ℚ) ^ (ln + 1) := by exact_mod_cast hn2
  have hd1q : (2 : ℚ) ^ ld ≤ (d : ℚ) := by exact_mod_cast hd1
  have hd2q : (d : ℚ) < (2 : ℚ) ^ (ld + 1) := by exact_mod_cast hd2
  constructor
  · rw [show ((ln : ℤ) - (ld : ℤ) - 1) = ((ln : ℕ) : ℤ) - ((ld + 1 : ℕ) : ℤ) by push_cast; ring]
    rw [zpow_sub₀ (by norm_num : (2 : ℚ) ≠ 0), zpow_natCast, zpow_natCast]
    rw [div_le_div_iff₀ (by positivity) hdpos]
    calc (2 : ℚ) ^ ln * (d : ℚ)
        ≤ (n : ℚ) * (d : ℚ) := mul_le_mul_of_nonneg_right hn1q hdpos.le
      _ ≤ (n : ℚ) * 2 ^ (ld + 1) := by
          apply mul_le_mul_of_nonneg_left hd2q.le; positivity
  · rw [show ((ln : ℤ) - (ld : ℤ) + 1) = ((ln + 1 : ℕ) : ℤ) - ((ld : ℕ) : ℤ) by push_cast; ring]
    rw [zpow_sub₀ (by norm_num : (2 : ℚ) ≠ 0), zpow_natCast, zpow_natCast]
    rw [div_lt_div_iff₀ hdpos (by positivity)]
    calc (n : ℚ) * 2 ^ ld
        ≤ (n : ℚ) * (d : ℚ) := by
          apply mul_le_mul_of_nonneg_left hd1q; positivity
      _ < 2 ^ (ln + 1) * (d : ℚ) := mul_lt_mul_of_pos_right hn2q hdpos

theorem binade_spec (a : ℚ) (ha : 0 < a) :
    (2 : ℚ) ^ binade a ≤ a ∧ a < (2 : ℚ) ^ (binade a + 1) := by
  have hnum : 0 < a.num := Rat.num_pos.mpr ha
  have hn0 : a.num.natAbs ≠ 0 := by
    intro h
    have := Int.natAbs_eq_zero.mp h
    omega
  obtain ⟨hn1, hn2⟩ := natLog2_spec a.num.natAbs hn0
  obtain ⟨hd1, hd2⟩ := natLog2_spec a.den a.den_nz
  have hnq : ((a.num.natAbs : ℕ) : ℚ) = (a.num : ℚ) := by
    have h : ((a.num.natAbs : ℕ) : ℤ) = a.num := Int.natAbs_of_nonneg hnum.le
    rw [← Int.cast_natCast, h]
  have haeq : (a.num.natAbs : ℚ) / (a.den : ℚ) = a := by
    rw [hnq]; exact Rat.num_div_den a
  obtain ⟨hlower, hupper⟩ := quotient_binade _ _ _ _ a.den_pos hn1 hn2 hd1 hd2
  rw [haeq] at hlower hupper
  have habs : |a| = a := abs_of_pos ha
  unfold binade
  simp only [habs]
  by_cases h : (2 : ℚ) ^ ((natLog2 a.num.natAbs : ℤ) - (natLog2 a.den : ℤ)) ≤ a
  · rw [if_pos h]
    exact ⟨h, hupper⟩
  · rw [if_neg h]
    refine ⟨hlower, ?_⟩
    rw [sub_add_cancel]
    exact lt_of_not_le h

theorem binade_mono (a b : ℚ) (ha : 0 < a) (hab : a ≤ b) : binade a ≤ binade b := by
  obtain ⟨h1, -⟩ := binade_spec a ha
  obtain ⟨-, h2⟩ := binade_spec b (lt_of_lt_of_le ha hab)
  have h3 : (2 : ℚ) ^ binade a < (2 : ℚ) ^ (binade b + 1) :=
    lt_of_le_of_lt (le_trans h1 hab) h2
  have := (zpow_lt_zpow_iff_right₀ (by norm_num : (1 : ℚ) < 2)).mp h3
  omega

theorem roundHalfEven_intCast (n : ℤ) : roundHalfEven (n : ℚ) = n := by
  unfold roundHalfEven
  simp

theorem roundHalfEven_floor_le (t : ℚ) : ⌊t⌋ ≤ roundHalfEven t := by
  unfold roundHalfEven
  split_ifs <;> omega

theorem roundHalfEven_le_floor (t : ℚ) : roundHalfEven t ≤ ⌊t⌋ + 1 := by
  unfold roundHalfEven
  split_ifs <;> omega

theorem roundHalfEven_error (t : ℚ) : |(roundHalfEven t : ℚ) - t| ≤ 1 / 2 := by
  have h1 := Int.floor_le t
  have h2 := Int.lt_floor_add_one t
  unfold roundHalfEven
  rw [abs_le]
  split_ifs with ha hb hc
  · constructor <;> linarith
  · push_cast; constructor <;> linarith
  · have : t - ⌊t⌋ = 1 / 2 := le_antisymm (not_lt.mp hb) (not_lt.mp ha)
    constructor <;> linarith
  · have : t - ⌊t⌋ = 1 / 2 := le_antisymm (not_lt.mp hb) (not_lt.mp ha)
    push_cast; constructor <;> linarith

theorem roundHalfEven_mono (t s : ℚ) (h : t ≤ s) : roundHalfEven t ≤ roundHalfEven s := by
  have hf : ⌊t⌋ ≤ ⌊s⌋ := Int.floor_le_floor h
  rcases lt_or_eq_of_le hf with hlt | heq
  · calc roundHalfEven t ≤ ⌊t⌋ + 1 := roundHalfEven_le_floor t
      _ ≤ ⌊s⌋ := hlt
      _ ≤ roundHalfEven s := roundHalfEven_floor_le s
  · unfold roundHalfEven
    rw [heq]
    have hts : t - ⌊s⌋ ≤ s - ⌊s⌋ := by linarith
    split_ifs <;> first | omega | (exfalso; linarith)

theorem ulp_pos (a : ℚ) : 0 < ulp a := by
  unfold ulp; positivity

theorem roundMagnitude_zero : roundMagnitude 0 = 0 := by
  unfold roundMagnitude
  rw [zero_div, show roundHalfEven 0 = 0 from roundHalfEven_intCast 0]
  simp

theorem roundMagnitude_le_of_le (a : ℚ) (n : ℤ) (h : a ≤ (n : ℚ) * ulp a) :
    roundMagnitude a ≤ (n : ℚ) * ulp a := by
  unfold roundMagnitude
  have h1 : a / ulp a ≤ (n : ℚ) := by
    rw [div_le_iff₀ (ulp_pos a)]; exact h
  have h2 := roundHalfEven_mono _ _ h1
  rw [roundHalfEven_intCast] at h2
  have h3 : (roundHalfEven (a / ulp a) : ℚ) ≤ (n : ℚ) := by exact_mod_cast h2
  exact mul_le_mul_of_nonneg_right h3 (ulp_pos a).le

theorem le_roundMagnitude_of_le (a : ℚ) (n : ℤ) (h : (n : ℚ) * ulp a ≤ a) :
    (n : ℚ) * ulp a ≤ roundMagnitude a := by
  unfold roundMagnitude
  have h1 : (n : ℚ) ≤ a / ulp a := by
    rw [le_div_iff₀ (ulp_pos a)]; exact h
  have h2 := roundHalfEven_mono _ _ h1
  rw [roundHalfEven_intCast] at h2
  have h3 : (n : ℚ) ≤ (roundHalfEven (a / ulp a) : ℚ) := by exact_mod_cast h2
  exact mul_le_mul_of_nonneg_right h3 (ulp_pos a).le

theorem roundMagnitude_nonneg (a : ℚ) (ha : 0 ≤ a) : 0 ≤ roundMagnitude a := by
  have := le_roundMagnitude_of_le a 0 (by simpa using ha)
  simpa using this

theorem two_zpow_mul_ulp (a : ℚ) (j : ℕ) :
    (((2 : ℤ) ^ j : ℤ) : ℚ) * ulp a = (2 : ℚ) ^ (max (binade a) (-126) - 23 + (j : ℤ)) := by
  unfold ulp
  rw [zpow_add₀ (by norm_num : (2 : ℚ) ≠ 0), zpow_natCast]
  push_cast
  ring

theorem roundMagnitude_le_top (a : ℚ) (ha : 0 < a) :
    roundMagnitude a ≤ (2 : ℚ) ^ (max (binade a) (-126) + 1) := by
  have h := roundMagnitude_le_of_le a ((2 : ℤ) ^ 24) (by
    rw [two_zpow_mul_ulp]
    obtain ⟨-, h2⟩ := binade_spec a ha
    refine le_trans h2.le ?_
    apply zpow_le_zpow_right₀ (by norm_num)
    have := le_max_left (binade a) (-126)
    push_cast
    omega)
  rw [two_zpow_mul_ulp] at h
  refine le_trans h (le_of_eq ?_)
  congr 1
  push_cast; ring

theorem le_roundMagnitude_bottom (a : ℚ) (ha : 0 < a) (hn : -126 ≤ binade a) :
    (2 : ℚ) ^ binade a ≤ roundMagnitude a := by
  have hmax : max (binade a) (-126) = binade a := max_eq_left hn
  have h := le_roundMagnitude_of_le a ((2 : ℤ) ^ 23) (by
    rw [two_zpow_mul_ulp, hmax]
    obtain ⟨h1, -⟩ := binade_spec a ha
    refine le_trans (le_of_eq ?_) h1
    congr 1
    push_cast; ring)
  rw [two_zpow_mul_ulp, hmax] at h
  refine le_trans (le_of_eq ?_) h
  congr 1
  push_cast; ring

theorem roundMagnitude_mono (a b : ℚ) (ha : 0 ≤ a) (hab : a ≤ b) :
    roundMagnitude a ≤ roundMagnitude b := by
  rcases eq_or_lt_of_le ha with h0 | hpos
  · rw [← h0, roundMagnitude_zero]
    exact roundMagnitude_nonneg b (le_trans ha hab)
  · have hb : 0 < b := lt_of_lt_of_le hpos hab
    have hbin := binade_mono a b hpos hab
    have hE : max (binade a) (-126) ≤ max (binade b) (-126) := max_le_max hbin le_rfl
    rcases eq_or_lt_of_le hE with heq | hlt
    · have hu : ulp a = ulp b := by unfold ulp; rw [heq]
      unfold roundMagnitude
      rw [hu]
      have h1 : a / ulp b ≤ b / ulp b := div_le_div_of_nonneg_right hab (ulp_pos b).le
      have h2 := roundHalfEven_mono _ _ h1
      have h3 : (roundHalfEven (a / ulp b) : ℚ) ≤ (roundHalfEven (b / ulp b) : ℚ) := by
        exact_mod_cast h2
      exact mul_le_mul_of_nonneg_right h3 (ulp_pos b).le
    · have hbn : -126 < binade b := by
        rcases le_total (binade b) (-126) with h | h
        · rw [max_eq_right h] at hlt
          have := le_max_right (binade a) (-126)
          omega
        · rcases eq_or_lt_of_le h with h' | h'
          · rw [← h', max_self] at hlt
            have := le_max_right (binade a) (-126)
            omega
          · exact h'
      have hmaxb : max (binade b) (-126) = binade b := max_eq_left hbn.le
      rw [hmaxb] at hlt
      calc roundMagnitude a ≤ (2 : ℚ) ^ (max (binade a) (-126) + 1) :=
            roundMagnitude_le_top a hpos
        _ ≤ (2 : ℚ) ^ binade b := by
            apply zpow_le_zpow_right₀ (by norm_num); omega
        _ ≤ roundMagnitude b := le_roundMagnitude_bottom b hb hbn.le

theorem roundMagnitude_exact (m : ℕ) (k : ℤ) (hm : m < 2 ^ 24) (hk : -149 ≤ k) :
    roundMagnitude ((m : ℚ) * (2 : ℚ) ^ k) = (m : ℚ) * (2 : ℚ) ^ k := by
  rcases Nat.eq_zero_or_pos m with h0 | hpos
  · subst h0; simp [roundMagnitude_zero]
  · have hmq : (0 : ℚ) < (m : ℚ) := by exact_mod_cast hpos
    have ha : (0 : ℚ) < (m : ℚ) * (2 : ℚ) ^ k := by positivity
    obtain ⟨h1, -⟩ := binade_spec _ ha
    have hlt : (2 : ℚ) ^ binade ((m : ℚ) * (2 : ℚ) ^ k) < (2 : ℚ) ^ (24 + k) := by
      refine lt_of_le_of_lt h1 ?_
      rw [zpow_add₀ (by norm_num : (2 : ℚ) ≠ 0)]
      apply mul_lt_mul_of_pos_right _ (by positivity)
      have : (m : ℚ) < ((2 ^ 24 : ℕ) : ℚ) := by exact_mod_cast hm
      refine lt_of_lt_of_le this (le_of_eq ?_)
      norm_num
    have hb := (zpow_lt_zpow_iff_right₀ (by norm_num : (1 : ℚ) < 2)).mp hlt
    have hE : max (binade ((m : ℚ) * (2 : ℚ) ^ k)) (-126) - 23 ≤ k := by
      rcases le_total (binade ((m : ℚ) * (2 : ℚ) ^ k)) (-126) with h | h
      · rw [max_eq_right h]; omega
      · rw [max_eq_left h]; omega
    obtain ⟨j, hj⟩ := Int.eq_ofNat_of_zero_le (sub_nonneg.mpr hE)
    have hu : (2 : ℚ) ^ k = (2 : ℚ) ^ j * ulp ((m : ℚ) * (2 : ℚ) ^ k) := by
      unfold ulp
      rw [← zpow_natCast, ← zpow_add₀ (by norm_num : (2 : ℚ) ≠ 0), ← hj]
      congr 1; ring
    unfold roundMagnitude
    have hq : (m : ℚ) * (2 : ℚ) ^ k / ulp ((m : ℚ) * (2 : ℚ) ^ k)
        = (((m * 2 ^ j : ℕ) : ℤ) : ℚ) := by
      rw [div_eq_iff (ulp_pos _).ne']
      nth_rewrite 1 [hu]
      push_cast; ring
    rw [hq, roundHalfEven_intCast]
    nth_rewrite 2 [hu]
    push_cast; ring

theorem round32_zero : round32 0 = 0 := by
  unfold round32; simp [roundMagnitude_zero]

theorem round32_neg (q : ℚ) : round32 (-q) = -round32 q := by
  unfold round32
  rcases lt_trichotomy q 0 with h | h | h
  · rw [if_pos (by linarith : (0 : ℚ) ≤ -q), if_neg (by linarith : ¬ (0 : ℚ) ≤ q)]; simp
  · subst h; simp [roundMagnitude_zero]
  · rw [if_neg (by linarith : ¬ (0 : ℚ) ≤ -q), if_pos h.le]; simp

theorem round32_mono (q r : ℚ) (h : q ≤ r) : round32 q ≤ round32 r := by
  unfold round32
  by_cases hq : 0 ≤ q
  · rw [if_pos hq, if_pos (le_trans hq h)]
    exact roundMagnitude_mono q r hq h
  · rw [if_neg hq]
    by_cases hr : 0 ≤ r
    · rw [if_pos hr]
      have h1 := roundMagnitude_nonneg (-q) (by linarith)
      have h2 := roundMagnitude_nonneg r hr
      linarith
    · rw [if_neg hr]
      have := roundMagnitude_mono (-r) (-q) (by linarith) (by linarith)
      linarith

theorem round32_exact (m k : ℤ) (hm : |m| < 2 ^ 24) (hk : -149 ≤ k) :
    round32 ((m : ℚ) * (2 : ℚ) ^ k) = (m : ℚ) * (2 : ℚ) ^ k := by
  have key : ∀ n : ℕ, n < 2 ^ 24 →
      round32 ((n : ℚ) * (2 : ℚ) ^ k) = (n : ℚ) * (2 : ℚ) ^ k := by
    intro n hn
    unfold round32
    rw [if_pos (by positivity)]
    exact roundMagnitude_exact n k hn hk
  rcases le_total 0 m with h | h
  · obtain ⟨n, rfl⟩ := Int.eq_ofNat_of_zero_le h
    have hn : n < 2 ^ 24 := by
      rw [abs_of_nonneg h] at hm
      exact_mod_cast hm
    simpa using key n hn
  · obtain ⟨n, hn⟩ := Int.eq_ofNat_of_zero_le (neg_nonneg.mpr h)
    have hm2 : m = -(n : ℤ) := by omega
    have hn2 : n < 2 ^ 24 := by
      rw [abs_of_nonpos h, hn] at hm
      exact_mod_cast hm
    rw [hm2]
    push_cast
    rw [neg_mul, round32_neg, key n hn2]

theorem round32_intCast (n : ℤ) (h : |n| ≤ 2 ^ 24) : round32 (n : ℚ) = n := by
  rcases lt_or_eq_of_le h with hlt | heq
  · have := round32_exact n 0 hlt (by norm_num)
    simpa using this
  · have h2 : n = 2 ^ 24 ∨ n = -2 ^ 24 := by
      rcases abs_cases n with ⟨h1, _⟩ | ⟨h1, _⟩ <;> [left; right] <;> omega
    rcases h2 with rfl | rfl
    · have := round32_exact (2 ^ 23) 1 (by norm_num) (by norm_num)
      norm_num at this ⊢
      exact this
    · have := round32_exact (-2 ^ 23) 1 (by norm_num) (by norm_num)
      norm_num at this ⊢
      exact this

theorem round32_error (q : ℚ) (k : ℤ) (hk : -125 ≤ k) (hq : |q| ≤ (2 : ℚ) ^ k) :
    |round32 q - q| ≤ (2 : ℚ) ^ (k - 25) := by
  have key : ∀ a : ℚ, 0 ≤ a → a ≤ (2 : ℚ) ^ k →
      |roundMagnitude a - a| ≤ (2 : ℚ) ^ (k - 25) := by
    intro a ha hak
    rcases eq_or_lt_of_le hak with heq | hlt
    · have := roundMagnitude_exact 1 k (by norm_num) (by omega)
      rw [heq]
      simp only [Nat.cast_one, one_mul] at this
      rw [this]; simp; positivity
    · rcases eq_or_lt_of_le ha with h0 | hpos
      · rw [← h0, roundMagnitude_zero]; simp; positivity
      · obtain ⟨h1, -⟩ := binade_spec a hpos
        have hb := (zpow_lt_zpow_iff_right₀ (by norm_num : (1 : ℚ) < 2)).mp
          (lt_of_le_of_lt h1 hlt)
        have hE : max (binade a) (-126) - 23 ≤ k - 24 := by
          rcases le_total (binade a) (-126) with h | h
          · rw [max_eq_right h]; omega
          · rw [max_eq_left h]; omega
        have hu : ulp a ≤ (2 : ℚ) ^ (k - 24) := by
          unfold ulp
          exact zpow_le_zpow_right₀ (by norm_num) hE
        have herr := roundHalfEven_error (a / ulp a)
        have : roundMagnitude a - a = ((roundHalfEven (a / ulp a) : ℚ) - a / ulp a) * ulp a := by
          unfold roundMagnitude
          field_simp [(ulp_pos a).ne']
        rw [this, abs_mul, abs_of_pos (ulp_pos a)]
        calc |(roundHalfEven (a / ulp a) : ℚ) - a / ulp a| * ulp a
            ≤ 1 / 2 * (2 : ℚ) ^ (k - 24) :=
              mul_le_mul herr hu (ulp_pos a).le (by norm_num)
          _ = (2 : ℚ) ^ (k - 25) := by
              rw [show k - 24 = (k - 25) + 1 by ring, zpow_add₀ (by norm_num : (2 : ℚ) ≠ 0)]
              ring
  unfold round32
  by_cases h : 0 ≤ q
  · rw [if_pos h]
    exact key q h (by rwa [abs_of_nonneg h] at hq)
  · rw [if_neg h]
    have hneg : q < 0 := lt_of_not_le h
    have := key (-q) (by linarith) (by rwa [abs_of_neg hneg] at hq)
    rw [show -roundMagnitude (-q) - q = -(roundMagnitude (-q) - -q) by ring, abs_neg]
    exact this

theorem ofInt32_exact (n : ℤ) (h : |n| ≤ 2 ^ 24) : F32.ofInt n = (n : ℚ) :=
  round32_intCast n h

theorem sub32_intCast (a b : ℤ) (h : |a - b| ≤ 2 ^ 24) :
    F32.sub (a : ℚ) (b : ℚ) = ((a - b : ℤ) : ℚ) := by
  unfold F32.sub
  rw [← Int.cast_sub]
  exact round32_intCast _ h

theorem add32_intCast (a b : ℤ) (h : |a + b| ≤ 2 ^ 24) :
    F32.add (a : ℚ) (b : ℚ) = ((a + b : ℤ) : ℚ) := by
  unfold F32.add
  rw [← Int.cast_add]
  exact round32_intCast _ h

theorem mul32_intCast (a b : ℤ) (h : |a * b| ≤ 2 ^ 24) :
    F32.mul (a : ℚ) (b : ℚ) = ((a * b : ℤ) : ℚ) := by
  unfold F32.mul
  rw [← Int.cast_mul]
  exact round32_intCast _ h

theorem abs_sub_le_of_bounds (a b B : ℤ) (ha : |a| ≤ B) (hb : |b| ≤ B) : |a - b| ≤ 2 * B := by
  rw [abs_le] at *
  constructor <;> omega

theorem abs_mul_le_of_bounds (u v U V : ℤ) (hu : |u| ≤ U) (hv : |v| ≤ V) : |u * v| ≤ U * V := by
  rw [abs_mul]
  exact mul_le_mul hu hv (abs_nonneg v) (le_trans (abs_nonneg u) hu)

/-- The binary32 cross product of two vectors of small integers is the exact one. -/
theorem crossProduct32_intCast (x0 x1 x2 y0 y1 y2 : ℤ)
    (hx0 : |x0| ≤ 2048) (hx1 : |x1| ≤ 2048) (hx2 : |x2| ≤ 2048)
    (hy0 : |y0| ≤ 2048) (hy1 : |y1| ≤ 2048) (hy2 : |y2| ≤ 2048) :
    F32.CrossProduct ⟨(x0 : ℚ), (x1 : ℚ), (x2 : ℚ)⟩ ⟨(y0 : ℚ), (y1 : ℚ), (y2 : ℚ)⟩
      = ⟨((x1 * y2 - x2 * y1 : ℤ) : ℚ), ((x2 * y0 - x0 * y2 : ℤ) : ℚ),
          ((x0 * y1 - x1 * y0 : ℤ) : ℚ)⟩ := by
  have m12 := abs_mul_le_of_bounds x1 y2 _ _ hx1 hy2
  have m21 := abs_mul_le_of_bounds x2 y1 _ _ hx2 hy1
  have m20 := abs_mul_le_of_bounds x2 y0 _ _ hx2 hy0
  have m02 := abs_mul_le_of_bounds x0 y2 _ _ hx0 hy2
  have m01 := abs_mul_le_of_bounds x0 y1 _ _ hx0 hy1
  have m10 := abs_mul_le_of_bounds x1 y0 _ _ hx1 hy0
  unfold F32.CrossProduct
  simp only
  rw [mul32_intCast x1 y2 (by omega), mul32_intCast x2 y1 (by omega),
    mul32_intCast x2 y0 (by omega), mul32_intCast x0 y2 (by omega),
    mul32_intCast x0 y1 (by omega), mul32_intCast x1 y0 (by omega)]
  rw [sub32_intCast _ _ (by rw [abs_le] at *; constructor <;> omega),
    sub32_intCast _ _ (by rw [abs_le] at *; constructor <;> omega),
    sub32_intCast _ _ (by rw [abs_le] at *; constructor <;> omega)]

theorem round32_one : round32 1 = 1 := by decide!

theorem round32_gap : round32 (1 / 8388608) = 1 / 8388608 := by decide!

theorem round32_below_one : round32 (1 - 1 / 8388608) = 1 - 1 / 8388608 := by decide!

theorem round32_above_one : round32 (1 + 1 / 8388608) = 1 + 1 / 8388608 := by decide!

/-- A positive quotient of integers with a divisor of magnitude at most `2^23` is at least
`2^-23`. -/
theorem int_div_pos_ge (n d : ℤ) (hd : |d| ≤ 2 ^ 23) (h : 0 < (n : ℚ) / (d : ℚ)) :
    (1 : ℚ) / 8388608 ≤ (n : ℚ) / (d : ℚ) := by
  have hd0 : (d : ℚ) ≠ 0 := by
    intro h0; rw [h0, div_zero] at h; exact lt_irrefl _ h
  have hn0 : n ≠ 0 := by
    intro h0; rw [h0, Int.cast_zero, zero_div] at h; exact lt_irrefl _ h
  have hn1 : (1 : ℚ) ≤ |(n : ℚ)| := by
    have := Int.one_le_abs hn0
    exact_mod_cast this
  have hdpos : (0 : ℚ) < |(d : ℚ)| := abs_pos.mpr hd0
  have hdle : |(d : ℚ)| ≤ 8388608 := by
    have : ((|d| : ℤ) : ℚ) ≤ ((2 ^ 23 : ℤ) : ℚ) := by exact_mod_cast hd
    rw [Int.cast_abs] at this
    norm_num at this
    exact this
  rw [← abs_of_pos h, abs_div, div_le_div_iff₀ (by norm_num) hdpos]
  nlinarith

theorem int_div_gt_gap (n d c : ℤ) (hd0 : d ≠ 0) (hd : |d| ≤ 2 ^ 23)
    (h : (c : ℚ) < (n : ℚ) / (d : ℚ)) :
    (c : ℚ) + 1 / 8388608 ≤ (n : ℚ) / (d : ℚ) := by
  have hdq : (d : ℚ) ≠ 0 := by exact_mod_cast hd0
  have e : ((n - c * d : ℤ) : ℚ) / (d : ℚ) = (n : ℚ) / (d : ℚ) - (c : ℚ) := by
    push_cast; field_simp; ring
  have := int_div_pos_ge (n - c * d) d hd (by rw [e]; linarith)
  rw [e] at this
  linarith

theorem int_div_lt_gap (n d c : ℤ) (hd0 : d ≠ 0) (hd : |d| ≤ 2 ^ 23)
    (h : (n : ℚ) / (d : ℚ) < (c : ℚ)) :
    (n : ℚ) / (d : ℚ) ≤ (c : ℚ) - 1 / 8388608 := by
  have hdq : (d : ℚ) ≠ 0 := by exact_mod_cast hd0
  have e : ((c * d - n : ℤ) : ℚ) / (d : ℚ) = (c : ℚ) - (n : ℚ) / (d : ℚ) := by
    push_cast; field_simp
  have := int_div_pos_ge (c * d - n) d hd (by rw [e]; linarith)
  rw [e] at this
  linarith

/-- The sign of a rounded quotient of integers with a divisor of magnitude at most `2^23` is
the sign of the quotient. -/
theorem div32_neg_iff (n d : ℤ) (hd0 : d ≠ 0) (hd : |d| ≤ 2 ^ 23) :
    F32.div (n : ℚ) (d : ℚ) < 0 ↔ (n : ℚ) / (d : ℚ) < 0 := by
  unfold F32.div
  constructor
  · intro h
    by_contra hc
    have := round32_mono 0 _ (not_lt.mp hc)
    rw [round32_zero] at this
    linarith
  · intro h
    have h1 := int_div_lt_gap n d 0 hd0 hd (by simpa using h)
    have h2 := round32_mono _ _ h1
    have h3 : round32 ((0 : ℤ) - 1 / 8388608) = -(1 / 8388608) := by
      rw [show (((0 : ℤ) : ℚ) - 1 / 8388608) = -(1 / 8388608) by norm_num, round32_neg,
        round32_gap]
    rw [h3] at h2
    linarith

/-- The sign of `1.0f - n/d` computed in binary32 is the sign of the exact `1 - n/d`. -/
theorem one_sub_div32_neg_iff (n d : ℤ) (hd0 : d ≠ 0) (hd : |d| ≤ 2 ^ 23) :
    F32.sub 1 (F32.div (n : ℚ) (d : ℚ)) < 0 ↔ 1 - (n : ℚ) / (d : ℚ) < 0 := by
  unfold F32.sub F32.div
  constructor
  · intro h
    by_contra hc
    have h1 : (n : ℚ) / (d : ℚ) ≤ 1 := by linarith
    have h2 := round32_mono _ _ h1
    rw [round32_one] at h2
    have h3 := round32_mono 0 (1 - round32 ((n : ℚ) / (d : ℚ))) (by linarith)
    rw [round32_zero] at h3
    linarith
  · intro h
    have h1 := int_div_gt_gap n d 1 hd0 hd (by push_cast; linarith)
    have h2 := round32_mono _ _ h1
    rw [show (((1 : ℤ) : ℚ) + 1 / 8388608) = 1 + 1 / 8388608 by norm_num,
      round32_above_one] at h2
    have h3 := round32_mono (1 - round32 ((n : ℚ) / (d : ℚ))) (-(1 / 8388608)) (by linarith)
    rw [round32_neg, round32_gap] at h3
    linarith

/-- A rounded quotient of integers strictly between `0` and `1`, with a divisor of magnitude
at most `2^23`, stays strictly between `0` and `1`. -/
theorem div32_unit_interval (n d : ℤ) (hd0 : d ≠ 0) (hd : |d| ≤ 2 ^ 23)
    (h0 : 0 < (n : ℚ) / (d : ℚ)) (h1 : (n : ℚ) / (d : ℚ) < 1) :
    1 / 8388608 ≤ F32.div (n : ℚ) (d : ℚ) ∧ F32.div (n : ℚ) (d : ℚ) ≤ 1 - 1 / 8388608 := by
  unfold F32.div
  constructor
  · have := round32_mono _ _ (int_div_pos_ge n d hd h0)
    rwa [round32_gap] at this
  · have := round32_mono _ _ (int_div_lt_gap n d 1 hd0 hd (by push_cast; exact h1))
    rw [show (((1 : ℤ) : ℚ) - 1 / 8388608) = 1 - 1 / 8388608 by norm_num,
      round32_below_one] at this
    exact this

theorem one_sub32_unit_interval (r : ℚ) (h0 : 1 / 8388608 ≤ r) (h1 : r ≤ 1 - 1 / 8388608) :
    1 / 8388608 ≤ F32.sub 1 r ∧ F32.sub 1 r ≤ 1 - 1 / 8388608 := by
  unfold F32.sub
  constructor
  · have := round32_mono (1 / 8388608) (1 - r) (by linarith)
    rwa [round32_gap] at this
  · have := round32_mono (1 - r) (1 - 1 / 8388608) (by linarith)
    rwa [round32_below_one] at this

theorem abs_le_grid_diff (a b : ℤ) (ha : |a| ≤ 1024) (hb : |b| ≤ 1024) : |a - b| ≤ 2048 := by
  have := abs_sub_le_of_bounds a b 1024 ha hb
  omega

theorem cross_component_bound (x1 y2 x2 y1 : ℤ) (h1 : |x1| ≤ 2048) (h2 : |y2| ≤ 2048)
    (h3 : |x2| ≤ 2048) (h4 : |y1| ≤ 2048) : |x1 * y2 - x2 * y1| ≤ 2 ^ 23 := by
  have m1 := abs_mul_le_of_bounds x1 y2 _ _ h1 h2
  have m2 := abs_mul_le_of_bounds x2 y1 _ _ h3 h4
  rw [abs_le] at *
  constructor <;> omega

/-- On vertices and a query point with integer coordinates of magnitude at most `1024` the
binary32 cross product of the 3D solver is the exact one, with integer components of
magnitude at most `2^23`. -/
theorem crossResult3D32_onGrid (t : Triangle (Vector3 ℚ)) (p : Vector3 ℚ)
    (h0 : onGrid 1024 t.v0) (h1 : onGrid 1024 t.v1) (h2 : onGrid 1024 t.v2)
    (hp : onGrid 1024 p) :
    F32.crossResult3D t p = crossResult3D t p ∧
    ∃ X Y Z : ℤ, crossResult3D t p = ⟨(X : ℚ), (Y : ℚ), (Z : ℚ)⟩ ∧
      |X| ≤ 2 ^ 23 ∧ |Y| ≤ 2 ^ 23 ∧ |Z| ≤ 2 ^ 23 := by
  obtain ⟨ax, ay, hax, hay, bax, bay⟩ := h0
  obtain ⟨bx, by_, hbx, hby, bbx, bby⟩ := h1
  obtain ⟨cx, cy, hcx, hcy, bcx, bcy⟩ := h2
  obtain ⟨px, py, hpx, hpy, bpx, bpy⟩ := hp
  have dcax := abs_le_grid_diff cx ax bcx bax
  have dbax := abs_le_grid_diff bx ax bbx bax
  have dapx := abs_le_grid_diff ax px bax bpx
  have dcay := abs_le_grid_diff cy ay bcy bay
  have dbay := abs_le_grid_diff by_ ay bby bay
  have dapy := abs_le_grid_diff ay py bay bpy
  have hexact : crossResult3D t p
      = ⟨(((bx - ax) * (ay - py) - (ax - px) * (by_ - ay) : ℤ) : ℚ),
         (((ax - px) * (cy - ay) - (cx - ax) * (ay - py) : ℤ) : ℚ),
         (((cx - ax) * (by_ - ay) - (bx - ax) * (cy - ay) : ℤ) : ℚ)⟩ := by
    simp only [crossResult3D, Vector3.CrossProduct, Vector3.sub, hax, hay, hbx, hby, hcx, hcy,
      hpx, hpy]
    push_cast
    rfl
  have hfloat : F32.crossResult3D t p
      = ⟨(((bx - ax) * (ay - py) - (ax - px) * (by_ - ay) : ℤ) : ℚ),
         (((ax - px) * (cy - ay) - (cx - ax) * (ay - py) : ℤ) : ℚ),
         (((cx - ax) * (by_ - ay) - (bx - ax) * (cy - ay) : ℤ) : ℚ)⟩ := by
    simp only [F32.crossResult3D, F32.vsub, hax, hay, hbx, hby, hcx, hcy, hpx, hpy]
    rw [sub32_intCast cx ax (by omega), sub32_intCast bx ax (by omega),
      sub32_intCast ax px (by omega), sub32_intCast cy ay (by omega),
      sub32_intCast by_ ay (by omega), sub32_intCast ay py (by omega)]
    exact crossProduct32_intCast _ _ _ _ _ _ dcax dbax dapx dcay dbay dapy
  refine ⟨by rw [hfloat, hexact], _, _, _, hexact, ?_, ?_, ?_⟩
  · exact cross_component_bound _ _ _ _ dbax dapy dapx dbay
  · exact cross_component_bound _ _ _ _ dapx dcay dcax dapy
  · exact cross_component_bound _ _ _ _ dcax dbay dbax dcay

/-- On points with coordinates of magnitude at most `1024` the binary32 cross product of the
2D solver is the exact one, with integer components of magnitude at most `2^23`. -/
theorem crossResult2D32_withinBound (t : Triangle Point) (p : Point)
    (h0 : withinBound 1024 t.v0) (h1 : withinBound 1024 t.v1) (h2 : withinBound 1024 t.v2)
    (hp : withinBound 1024 p) :
    F32.crossResult2D t p = crossResult2D t p ∧
    ∃ X Y Z : ℤ, crossResult2D t p = ⟨(X : ℚ), (Y : ℚ), (Z : ℚ)⟩ ∧
      |X| ≤ 2 ^ 23 ∧ |Y| ≤ 2 ^ 23 ∧ |Z| ≤ 2 ^ 23 := by
  obtain ⟨bax, bay⟩ := h0
  obtain ⟨bbx, bby⟩ := h1
  obtain ⟨bcx, bcy⟩ := h2
  obtain ⟨bpx, bpy⟩ := hp
  have dbax := abs_le_grid_diff _ _ bbx bax
  have dcax := abs_le_grid_diff _ _ bcx bax
  have dapx := abs_le_grid_diff _ _ bax bpx
  have dbay := abs_le_grid_diff _ _ bby bay
  have dcay := abs_le_grid_diff _ _ bcy bay
  have dapy := abs_le_grid_diff _ _ bay bpy
  have hexact : crossResult2D t p
      = ⟨(((t.v2.x - t.v0.x) * (t.v0.y - p.y) - (t.v0.x - p.x) * (t.v2.y - t.v0.y) : ℤ) : ℚ),
         (((t.v0.x - p.x) * (t.v1.y - t.v0.y) - (t.v1.x - t.v0.x) * (t.v0.y - p.y) : ℤ) : ℚ),
         (((t.v1.x - t.v0.x) * (t.v2.y - t.v0.y) - (t.v2.x - t.v0.x) * (t.v1.y - t.v0.y) : ℤ)
            : ℚ)⟩ := by
    simp only [crossResult2D, Vector3.CrossProduct, Vector2.sub]
    push_cast
    rfl
  have hfloat : F32.crossResult2D t p
      = ⟨(((t.v2.x - t.v0.x) * (t.v0.y - p.y) - (t.v0.x - p.x) * (t.v2.y - t.v0.y) : ℤ) : ℚ),
         (((t.v0.x - p.x) * (t.v1.y - t.v0.y) - (t.v1.x - t.v0.x) * (t.v0.y - p.y) : ℤ) : ℚ),
         (((t.v1.x - t.v0.x) * (t.v2.y - t.v0.y) - (t.v2.x - t.v0.x) * (t.v1.y - t.v0.y) : ℤ)
            : ℚ)⟩ := by
    simp only [F32.crossResult2D, Vector2.sub]
    rw [ofInt32_exact _ (by omega : |t.v1.x - t.v0.x| ≤ 2 ^ 24),
      ofInt32_exact _ (by omega : |t.v2.x - t.v0.x| ≤ 2 ^ 24),
      ofInt32_exact _ (by omega : |t.v0.x - p.x| ≤ 2 ^ 24),
      ofInt32_exact _ (by omega : |t.v1.y - t.v0.y| ≤ 2 ^ 24),
      ofInt32_exact _ (by omega : |t.v2.y - t.v0.y| ≤ 2 ^ 24),
      ofInt32_exact _ (by omega : |t.v0.y - p.y| ≤ 2 ^ 24)]
    exact crossProduct32_intCast _ _ _ _ _ _ dbax dcax dapx dbay dcay dapy
  refine ⟨by rw [hfloat, hexact], _, _, _, hexact, ?_, ?_, ?_⟩
  · exact cross_component_bound _ _ _ _ dcax dapy dapx dcay
  · exact cross_component_bound _ _ _ _ dapx dbay dbax dapy
  · exact cross_component_bound _ _ _ _ dbax dcay dcax dbay

theorem abs_intCast_gt_areaThreshold (Z : ℤ) : |(Z : ℚ)| > F32.areaThreshold ↔ Z ≠ 0 := by
  constructor
  · intro h hz
    rw [hz] at h
    norm_num [F32.areaThreshold] at h
  · intro hz
    have : (1 : ℚ) ≤ |(Z : ℚ)| := by
      have := Int.one_le_abs hz
      exact_mod_cast this
    have h2 : F32.areaThreshold < 1 := by norm_num [F32.areaThreshold]
    exact lt_of_lt_of_le h2 this

theorem abs_intCast_gt_hundredth (Z : ℤ) : |(Z : ℚ)| > 1 / 100 ↔ Z ≠ 0 := by
  constructor
  · intro h hz
    rw [hz] at h
    norm_num at h
  · intro hz
    have : (1 : ℚ) ≤ |(Z : ℚ)| := by
      have := Int.one_le_abs hz
      exact_mod_cast this
    linarith

/-- Rounded weights computed from an integer cross product have a negative component exactly
when the exact weights have one. -/
theorem weights32_hasNegative_iff (X Y Z : ℤ) (hZ : Z ≠ 0) (bX : |X| ≤ 2 ^ 23)
    (bY : |Y| ≤ 2 ^ 23) (bZ : |Z| ≤ 2 ^ 23) :
    hasNegative ⟨F32.sub 1 (F32.div (F32.add (X : ℚ) (Y : ℚ)) (Z : ℚ)),
        F32.div (Y : ℚ) (Z : ℚ), F32.div (X : ℚ) (Z : ℚ)⟩ ↔
      hasNegative ⟨1 - ((X : ℚ) + (Y : ℚ)) / (Z : ℚ), (Y : ℚ) / (Z : ℚ),
        (X : ℚ) / (Z : ℚ)⟩ := by
  have hXY : |X + Y| ≤ 2 ^ 24 := by
    rw [abs_le] at *
    constructor <;> omega
  rw [add32_intCast X Y hXY]
  unfold hasNegative
  simp only
  rw [one_sub_div32_neg_iff (X + Y) Z hZ bZ, div32_neg_iff Y Z hZ bZ, div32_neg_iff X Z hZ bZ]
  push_cast
  rfl

/-- On the grid of integers of magnitude at most `1024` the binary32 3D solver accepts a
triangle exactly when the exact solver does. -/
theorem accepted3D32_iff_onGrid (t : Triangle (Vector3 ℚ)) (p : Vector3 ℚ)
    (h0 : onGrid 1024 t.v0) (h1 : onGrid 1024 t.v1) (h2 : onGrid 1024 t.v2)
    (hp : onGrid 1024 p) :
    |(F32.crossResult3D t p).z| > F32.areaThreshold ↔ |(crossResult3D t p).z| > 1 / 100 := by
  obtain ⟨heq, X, Y, Z, hR, -, -, -⟩ := crossResult3D32_onGrid t p h0 h1 h2 hp
  rw [heq, hR]
  simp only
  rw [abs_intCast_gt_areaThreshold, abs_intCast_gt_hundredth]

/-- On the grid the binary32 3D solver returns the sentinel exactly as the exact solver. -/
theorem computeBarycentricVector3D32_rejected_onGrid (t : Triangle (Vector3 ℚ))
    (p : Vector3 ℚ) (h0 : onGrid 1024 t.v0) (h1 : onGrid 1024 t.v1) (h2 : onGrid 1024 t.v2)
    (hp : onGrid 1024 p) (h : ¬ |(crossResult3D t p).z| > 1 / 100) :
    F32.computeBarycentricVector3D t p = INVALID_VECTOR := by
  have := (accepted3D32_iff_onGrid t p h0 h1 h2 hp).not.mpr h
  unfold F32.computeBarycentricVector3D
  simp only [this, if_false]

/-- On the grid the weights of the binary32 3D solver are the roundings of the exact
weights: `w1` and `w2` are rounded once, `w0` is `1.0f` minus the rounded `w1 + w2`. -/
theorem computeBarycentricVector3D32_onGrid (t : Triangle (Vector3 ℚ)) (p : Vector3 ℚ)
    (h0 : onGrid 1024 t.v0) (h1 : onGrid 1024 t.v1) (h2 : onGrid 1024 t.v2)
    (hp : onGrid 1024 p) (h : |(crossResult3D t p).z| > 1 / 100) :
    F32.computeBarycentricVector3D t p
      = ⟨round32 (1 - round32 ((computeBarycentricVector3D t p).y
            + (computeBarycentricVector3D t p).z)),
          round32 (computeBarycentricVector3D t p).y,
          round32 (computeBarycentricVector3D t p).z⟩ := by
  have hacc := (accepted3D32_iff_onGrid t p h0 h1 h2 hp).mpr h
  have hz := crossResult3D_z_ne_zero t p h
  obtain ⟨heq, X, Y, Z, hR, bX, bY, bZ⟩ := crossResult3D32_onGrid t p h0 h1 h2 hp
  have hXY : |X + Y| ≤ 2 ^ 24 := by
    rw [abs_le] at *
    constructor <;> omega
  have hZq : (Z : ℚ) ≠ 0 := by
    have := hz
    rw [hR] at this
    exact this
  rw [computeBarycentricVector3D_accepted t p h]
  unfold F32.computeBarycentricVector3D
  simp only [hacc, if_true]
  rw [heq, hR]
  simp only
  rw [add32_intCast X Y hXY]
  unfold F32.sub F32.div
  have e : ((X + Y : ℤ) : ℚ) / (Z : ℚ) = (Y : ℚ) / (Z : ℚ) + (X : ℚ) / (Z : ℚ) := by
    push_cast
    field_simp
    ring
  rw [e]

/-- On the grid the binary32 3D weights have a negative component exactly when the exact
weights have one. -/
theorem hasNegative3D32_iff_onGrid (t : Triangle (Vector3 ℚ)) (p : Vector3 ℚ)
    (h0 : onGrid 1024 t.v0) (h1 : onGrid 1024 t.v1) (h2 : onGrid 1024 t.v2)
    (hp : onGrid 1024 p) :
    hasNegative (F32.computeBarycentricVector3D t p) ↔
      hasNegative (computeBarycentricVector3D t p) := by
  by_cases h : |(crossResult3D t p).z| > 1 / 100
  · have hacc := (accepted3D32_iff_onGrid t p h0 h1 h2 hp).mpr h
    obtain ⟨heq, X, Y, Z, hR, bX, bY, bZ⟩ := crossResult3D32_onGrid t p h0 h1 h2 hp
    have hZ : Z ≠ 0 := by
      have := crossResult3D_z_ne_zero t p h
      rw [hR] at this
      simp only at this
      exact_mod_cast this
    rw [computeBarycentricVector3D_accepted t p h]
    unfold F32.computeBarycentricVector3D
    simp only [hacc, if_true]
    rw [heq, hR]
    exact weights32_hasNegative_iff X Y Z hZ bX bY bZ
  · rw [computeBarycentricVector3D32_rejected_onGrid t p h0 h1 h2 hp h,
      computeBarycentricVector3D_rejected t p h]

/-- On points with coordinates of magnitude at most `1024` the binary32 2D solver has a
negative component exactly when the exact 2D solver has one. -/
theorem hasNegative2D32_iff_withinBound (t : Triangle Point) (p : Point)
    (h0 : withinBound 1024 t.v0) (h1 : withinBound 1024 t.v1) (h2 : withinBound 1024 t.v2)
    (hp : withinBound 1024 p) :
    hasNegative (F32.computeBarycentricVector2D t p) ↔
      hasNegative (computeBarycentricVector2D t p) := by
  obtain ⟨heq, X, Y, Z, hR, bX, bY, bZ⟩ := crossResult2D32_withinBound t p h0 h1 h2 hp
  by_cases h : |(crossResult2D t p).z| < 1
  · have h32 : |(F32.crossResult2D t p).z| < 1 := by rw [heq]; exact h
    rw [computeBarycentricVector2D_rejected t p h]
    unfold F32.computeBarycentricVector2D
    simp only [h32, if_true]
  · have h32 : ¬ |(F32.crossResult2D t p).z| < 1 := by rw [heq]; exact h
    have hZ : Z ≠ 0 := by
      have := crossResult2D_z_ne_zero t p h
      rw [hR] at this
      simp only at this
      exact_mod_cast this
    rw [computeBarycentricVector2D_accepted t p h]
    unfold F32.computeBarycentricVector2D
    simp only [h32, if_false]
    rw [heq, hR]
    exact weights32_hasNegative_iff X Y Z hZ bX bY bZ

/-- On points with coordinates of magnitude at most `1024` the binary32 2D `shouldRender`
returns what the exact one returns. -/
theorem shouldRender2D32_eq_withinBound (t : Triangle Point) (p : Point)
    (h0 : withinBound 1024 t.v0) (h1 : withinBound 1024 t.v1) (h2 : withinBound 1024 t.v2)
    (hp : withinBound 1024 p) :
    F32.shouldRender2D t p = shouldRender2D t p := by
  have h := hasNegative2D32_iff_withinBound t p h0 h1 h2 hp
  unfold hasNegative at h
  unfold F32.shouldRender2D shouldRender2D
  simp only
  by_cases hn : (computeBarycentricVector2D t p).x < 0 ∨ (computeBarycentricVector2D t p).y < 0
      ∨ (computeBarycentricVector2D t p).z < 0
  · rw [if_pos hn, if_pos (h.mpr hn)]
  · rw [if_neg hn, if_neg (fun hc => hn (h.mp hc))]

theorem shouldRender3D32_rejected (triangle : Triangle (Vector3 ℚ)) (point : Vector3 ℚ)
    (zBuffer : List ℚ) (width : ℤ)
    (h : ¬ nonNegative (F32.computeBarycentricVector3D triangle point)) :
    F32.shouldRender3D triangle point zBuffer width
      = some ⟨false, F32.computeBarycentricVector3D triangle point, zBuffer⟩ := by
  rw [← not_negative_iff, not_not] at h
  unfold F32.shouldRender3D
  simp only [h, if_true]

theorem shouldRender3D32_tested (triangle : Triangle (Vector3 ℚ)) (point : Vector3 ℚ)
    (zBuffer : List ℚ) (width : ℤ) (stored : ℚ)
    (h : nonNegative (F32.computeBarycentricVector3D triangle point))
    (hidx : 0 ≤ F32.zBufferIndex point width)
    (hstored : zBuffer[(F32.zBufferIndex point width).toNat]? = some stored) :
    F32.shouldRender3D triangle point zBuffer width
      = if stored < F32.interpolateZ triangle (F32.computeBarycentricVector3D triangle point)
        then
          some ⟨true, F32.computeBarycentricVector3D triangle point,
            zBuffer.set (F32.zBufferIndex point width).toNat
              (F32.interpolateZ triangle (F32.computeBarycentricVector3D triangle point))⟩
        else some ⟨false, F32.computeBarycentricVector3D triangle point, zBuffer⟩ := by
  rw [← not_negative_iff] at h
  unfold F32.shouldRender3D
  simp only [h, if_false, hidx, if_true, hstored]

theorem shouldRender3D32_outside (triangle : Triangle (Vector3 ℚ)) (point : Vector3 ℚ)
    (zBuffer : List ℚ) (width : ℤ)
    (h : nonNegative (F32.computeBarycentricVector3D triangle point))
    (hidx : 0 ≤ F32.zBufferIndex point width)
    (hlen : zBuffer.length ≤ (F32.zBufferIndex point width).toNat) :
    F32.shouldRender3D triangle point zBuffer width = none := by
  rw [← not_negative_iff] at h
  unfold F32.shouldRender3D
  simp only [h, if_false, hidx, if_true, List.getElem?_eq_none hlen]

theorem shouldRender2D32_eq (t : Triangle Point) (p : Point) :
    F32.shouldRender2D t p = !decide (hasNegative (F32.computeBarycentricVector2D t p)) := by
  unfold F32.shouldRender2D hasNegative
  by_cases h : (F32.computeBarycentricVector2D t p).x < 0
      ∨ (F32.computeBarycentricVector2D t p).y < 0
      ∨ (F32.computeBarycentricVector2D t p).z < 0
  · simp [h]
  · simp only [h, if_false]
    simp

/-- Claim C5, counterexample: (1) the point `(2921, 2607)` lies strictly outside the integer
triangle `(0,0), (6549,5845), (4469,4238)`, yet the binary32 2D solver returns the weights
`(4647097/8388608, 0, 3741511/8388608)`, none of them negative, and the 2D `shouldRender`
returns `true`; (2) the pixel `(2, 4)` lies strictly outside the triangle with the `float`
vertices `(2.7f, 1.6f), (1.3f, 6.4f), (3.7f, 5.4f)`, yet the binary32 3D solver returns the
weights `(1/2, 1/2, 0)`, none of them negative. -/
theorem outside_point_accepted :
    (strictlyOutside wideTriangle.v0.toFloat wideTriangle.v1.toFloat wideTriangle.v2.toFloat
        (Point.toFloat ⟨2921, 2607⟩) ∧
      F32.computeBarycentricVector2D wideTriangle ⟨2921, 2607⟩
        = ⟨4647097 / 8388608, 0, 3741511 / 8388608⟩ ∧
      ¬ hasNegative (F32.computeBarycentricVector2D wideTriangle ⟨2921, 2607⟩) ∧
      F32.shouldRender2D wideTriangle ⟨2921, 2607⟩ = true) ∧
    (strictlyOutside skewTriangle.v0.xy skewTriangle.v1.xy skewTriangle.v2.xy
        (F32.screenPoint 2 4).xy ∧
      F32.computeBarycentricVector3D skewTriangle (F32.screenPoint 2 4) = ⟨1 / 2, 1 / 2, 0⟩ ∧
      ¬ hasNegative (F32.computeBarycentricVector3D skewTriangle (F32.screenPoint 2 4))) := by
  refine ⟨⟨?_, by decide!, by decide!, by decide!⟩, ?_, by decide!, by decide!⟩
  · intro hin
    have h := (shouldRender2D_iff wideTriangle ⟨2921, 2607⟩).mpr ⟨by decide!, hin⟩
    exact absurd h (by decide!)
  · intro hin
    have hneg : hasNegative (computeBarycentricVector3D skewTriangle (F32.screenPoint 2 4)) := by
      decide!
    exact (hasNegative3D_iff skewTriangle (F32.screenPoint 2 4)).mp hneg ⟨by decide!, hin⟩

/-- Claim C5, amended: for a triangle and a query point with integer coordinates of magnitude
at most `1024`, if the point lies strictly outside the triangle then the binary32 2D solver
and the binary32 3D solver each return a vector with a negative component, and both
`shouldRender` variants return `false` (the 3D one leaving the depth buffer as it is). -/
theorem strictlyOutside_hasNegative32 (triangle2 : Triangle Point) (point2 : Point)
    (triangle3 : Triangle (Vector3 ℚ)) (point3 : Vector3 ℚ) (zBuffer : List ℚ) (width : ℤ)
    (h0 : withinBound 1024 triangle2.v0) (h1 : withinBound 1024 triangle2.v1)
    (h2 : withinBound 1024 triangle2.v2) (hp : withinBound 1024 point2)
    (g0 : onGrid 1024 triangle3.v0) (g1 : onGrid 1024 triangle3.v1)
    (g2 : onGrid 1024 triangle3.v2) (gp : onGrid 1024 point3) :
    (strictlyOutside triangle2.v0.toFloat triangle2.v1.toFloat triangle2.v2.toFloat
        point2.toFloat →
      hasNegative (F32.computeBarycentricVector2D triangle2 point2) ∧
      F32.shouldRender2D triangle2 point2 = false) ∧
    (strictlyOutside triangle3.v0.xy triangle3.v1.xy triangle3.v2.xy point3.xy →
      hasNegative (F32.computeBarycentricVector3D triangle3 point3) ∧
      F32.shouldRender3D triangle3 point3 zBuffer width
        = some ⟨false, F32.computeBarycentricVector3D triangle3 point3, zBuffer⟩) := by
  constructor
  · intro hout
    have hneg : hasNegative (F32.computeBarycentricVector2D triangle2 point2) := by
      rw [hasNegative2D32_iff_withinBound triangle2 point2 h0 h1 h2 hp]
      by_contra hc
      exact hout (inClosedTriangle_of_nonNegative2D triangle2 point2
        ((not_hasNegative_iff _).mp hc))
    refine ⟨hneg, ?_⟩
    rw [shouldRender2D32_eq]
    simp [hneg]
  · intro hout
    have hneg : hasNegative (F32.computeBarycentricVector3D triangle3 point3) := by
      rw [hasNegative3D32_iff_onGrid triangle3 point3 g0 g1 g2 gp]
      by_contra hc
      exact hout (inClosedTriangle_of_nonNegative3D triangle3 point3
        ((not_hasNegative_iff _).mp hc))
    refine ⟨hneg, ?_⟩
    apply shouldRender3D32_rejected
    rw [← not_hasNegative_iff, not_not]
    exact hneg

theorem strictlyOutside_hasNegative32_witness :
    (withinBound 1024 rightTriangle.v0 ∧ withinBound 1024 rightTriangle.v1 ∧
      withinBound 1024 rightTriangle.v2 ∧ withinBound 1024 (⟨5, 5⟩ : Point)) ∧
    (strictlyOutside rightTriangle.v0.toFloat rightTriangle.v1.toFloat rightTriangle.v2.toFloat
        (Point.toFloat ⟨5, 5⟩) ∧
      hasNegative (F32.computeBarycentricVector2D rightTriangle ⟨5, 5⟩) ∧
      F32.shouldRender2D rightTriangle ⟨5, 5⟩ = false) ∧
    (strictlyOutside unitTriangle.v0.xy unitTriangle.v1.xy unitTriangle.v2.xy
        (Vector3.xy ⟨1, 1, 0⟩) ∧
      hasNegative (F32.computeBarycentricVector3D unitTriangle ⟨1, 1, 0⟩) ∧
      F32.shouldRender3D unitTriangle ⟨1, 1, 0⟩ [-5, -5, -5, -5] 2
        = some ⟨false, F32.computeBarycentricVector3D unitTriangle ⟨1, 1, 0⟩,
            [-5, -5, -5, -5]⟩) :=
  have b0 : withinBound 1024 rightTriangle.v0 := by
    norm_num [withinBound, rightTriangle]
  have b1 : withinBound 1024 rightTriangle.v1 := by
    norm_num [withinBound, rightTriangle]
  have b2 : withinBound 1024 rightTriangle.v2 := by
    norm_num [withinBound, rightTriangle]
  have bp : withinBound 1024 (⟨5, 5⟩ : Point) := by
    norm_num [withinBound]
  have g0 : onGrid 1024 unitTriangle.v0 := ⟨0, 0, by norm_num [unitTriangle]⟩
  have g1 : onGrid 1024 unitTriangle.v1 := ⟨1, 0, by norm_num [unitTriangle]⟩
  have g2 : onGrid 1024 unitTriangle.v2 := ⟨0, 1, by norm_num [unitTriangle]⟩
  have gp : onGrid 1024 (⟨1, 1, 0⟩ : Vector3 ℚ) := ⟨1, 1, by norm_num⟩
  have h2 : strictlyOutside rightTriangle.v0.toFloat rightTriangle.v1.toFloat
      rightTriangle.v2.toFloat (Point.toFloat ⟨5, 5⟩) := by
    rintro ⟨a, b, c, ha, hb, hc, hs, hx, hy⟩
    simp [rightTriangle, Point.toFloat] at hx hy
    linarith
  have h3 : strictlyOutside unitTriangle.v0.xy unitTriangle.v1.xy unitTriangle.v2.xy
      (Vector3.xy ⟨1, 1, 0⟩) := by
    rintro ⟨a, b, c, ha, hb, hc, hs, hx, hy⟩
    simp [unitTriangle, Vector3.xy] at hx hy
    linarith
  ⟨⟨b0, b1, b2, bp⟩,
   ⟨h2, (strictlyOutside_hasNegative32 rightTriangle ⟨5, 5⟩ unitTriangle ⟨1, 1, 0⟩
      [-5, -5, -5, -5] 2 b0 b1 b2 bp g0 g1 g2 gp).1 h2⟩,
   ⟨h3, (strictlyOutside_hasNegative32 rightTriangle ⟨5, 5⟩ unitTriangle ⟨1, 1, 0⟩
      [-5, -5, -5, -5] 2 b0 b1 b2 bp g0 g1 g2 gp).2 h3⟩⟩

/-- Claim C7, counterexample: the integer triangle `(0,0), (8193,8192), (8192,8191)` is not
collinear (its exact `R.z` is `-1`) and its vertex `(0,0)` lies in the closed triangle, yet
the binary32 `R.z` is `0`, the threshold `|R.z| < 1` rejects the triangle, the 2D solver
returns the sentinel and the 2D `shouldRender` returns `false`. -/
theorem sliverTriangle_rejected :
    ¬ collinear sliverTriangle.v0.toFloat sliverTriangle.v1.toFloat sliverTriangle.v2.toFloat ∧
    inClosedTriangle sliverTriangle.v0.toFloat sliverTriangle.v1.toFloat
      sliverTriangle.v2.toFloat (Point.toFloat ⟨0, 0⟩) ∧
    (F32.crossResult2D sliverTriangle ⟨0, 0⟩).z = 0 ∧
    F32.computeBarycentricVector2D sliverTriangle ⟨0, 0⟩ = INVALID_VECTOR ∧
    F32.shouldRender2D sliverTriangle ⟨0, 0⟩ = false := by
  refine ⟨?_, ⟨1, 0, 0, ?_⟩, by decide!, by decide!, by decide!⟩
  · rw [collinear_iff_cross]
    norm_num [sliverTriangle, Point.toFloat]
  · norm_num [sliverTriangle, Point.toFloat]

/-- Claim C7, amended: for integer vertices of magnitude at most `1024` that are not collinear
and an integer query point of magnitude at most `1024`, the binary32 2D `shouldRender` returns
`true` exactly when the point lies in the closed triangle, and the threshold `|R.z| < 1` does
not reject the triangle. -/
theorem shouldRender2D32_iff_inClosedTriangle (triangle : Triangle Point) (point : Point)
    (h0 : withinBound 1024 triangle.v0) (h1 : withinBound 1024 triangle.v1)
    (h2 : withinBound 1024 triangle.v2) (hp : withinBound 1024 point)
    (hnc : ¬ collinear triangle.v0.toFloat triangle.v1.toFloat triangle.v2.toFloat) :
    (F32.shouldRender2D triangle point = true ↔
      inClosedTriangle triangle.v0.toFloat triangle.v1.toFloat triangle.v2.toFloat
        point.toFloat) ∧
    ¬ |(F32.crossResult2D triangle point).z| < 1 := by
  have hz : (crossResult2D triangle point).z ≠ 0 := fun h0 =>
    hnc ((crossResult2D_z_eq_zero_iff triangle point).mp h0)
  have hacc := crossResult2D_z_abs_ge_one triangle point hz
  obtain ⟨heq, -⟩ := crossResult2D32_withinBound triangle point h0 h1 h2 hp
  refine ⟨?_, by rw [heq]; exact hacc⟩
  rw [shouldRender2D32_eq_withinBound triangle point h0 h1 h2 hp, shouldRender2D_iff]
  constructor
  · intro h; exact h.2
  · intro h; exact ⟨hacc, h⟩

theorem shouldRender2D32_iff_inClosedTriangle_witness :
    (withinBound 1024 rightTriangle.v0 ∧ withinBound 1024 rightTriangle.v1 ∧
      withinBound 1024 rightTriangle.v2 ∧ withinBound 1024 (⟨3, 1⟩ : Point)) ∧
    ¬ collinear rightTriangle.v0.toFloat rightTriangle.v1.toFloat rightTriangle.v2.toFloat ∧
    (F32.shouldRender2D rightTriangle ⟨3, 1⟩ = true ↔
      inClosedTriangle rightTriangle.v0.toFloat rightTriangle.v1.toFloat
        rightTriangle.v2.toFloat (Point.toFloat ⟨3, 1⟩)) ∧
    ¬ |(F32.crossResult2D rightTriangle ⟨3, 1⟩).z| < 1 :=
  have b0 : withinBound 1024 rightTriangle.v0 := by
    norm_num [withinBound, rightTriangle]
  have b1 : withinBound 1024 rightTriangle.v1 := by
    norm_num [withinBound, rightTriangle]
  have b2 : withinBound 1024 rightTriangle.v2 := by
    norm_num [withinBound, rightTriangle]
  have bp : withinBound 1024 (⟨3, 1⟩ : Point) := by
    norm_num [withinBound]
  have hnc : ¬ collinear rightTriangle.v0.toFloat rightTriangle.v1.toFloat
      rightTriangle.v2.toFloat := by
    rw [collinear_iff_cross]
    norm_num [rightTriangle, Point.toFloat]
  ⟨⟨b0, b1, b2, bp⟩, hnc,
    shouldRender2D32_iff_inClosedTriangle rightTriangle ⟨3, 1⟩ b0 b1 b2 bp hnc⟩

theorem onGrid_unitTriangle :
    onGrid 1024 unitTriangle.v0 ∧ onGrid 1024 unitTriangle.v1 ∧ onGrid 1024 unitTriangle.v2 :=
  ⟨⟨0, 0, by norm_num [unitTriangle]⟩, ⟨1, 0, by norm_num [unitTriangle]⟩,
    ⟨0, 1, by norm_num [unitTriangle]⟩⟩

/-- Claim C3, counterexample: (1) the 3D solver accepts the integer triangle
`(13,0), (16,7), (14,15)` at the query point `(17,7)`, and the three binary32 weights it
returns have the sum `67108865/67108864`, not `1`, and the combination
`w0*A.x + w1*B.x + w2*C.x` of the vertices is `570425355/33554432`, not `P.x = 17`; (2) the
solver accepts `slopedTriangle`, whose vertices are `float` values that are no integers, at
the query point `(0,0)` and returns the weights `(1/2, 1/2, 0)`, for which
`w0*A.x + w1*B.x + w2*C.x` is `997753/8192`, far from `P.x = 0`. -/
theorem weights32_sum_not_one :
    (|(F32.crossResult3D gridTriangle gridQuery).z| > F32.areaThreshold ∧
      (F32.computeBarycentricVector3D gridTriangle gridQuery).x
        + (F32.computeBarycentricVector3D gridTriangle gridQuery).y
        + (F32.computeBarycentricVector3D gridTriangle gridQuery).z = 67108865 / 67108864 ∧
      (67108865 : ℚ) / 67108864 ≠ 1 ∧
      (F32.computeBarycentricVector3D gridTriangle gridQuery).x * gridTriangle.v0.x
        + (F32.computeBarycentricVector3D gridTriangle gridQuery).y * gridTriangle.v1.x
        + (F32.computeBarycentricVector3D gridTriangle gridQuery).z * gridTriangle.v2.x
        = 570425355 / 33554432 ∧
      gridQuery.x ≠ 570425355 / 33554432) ∧
    (|(F32.crossResult3D slopedTriangle (F32.screenPoint 0 0)).z| > F32.areaThreshold ∧
      F32.computeBarycentricVector3D slopedTriangle (F32.screenPoint 0 0) = ⟨1 / 2, 1 / 2, 0⟩ ∧
      (F32.computeBarycentricVector3D slopedTriangle (F32.screenPoint 0 0)).x
          * slopedTriangle.v0.x
        + (F32.computeBarycentricVector3D slopedTriangle (F32.screenPoint 0 0)).y
          * slopedTriangle.v1.x
        + (F32.computeBarycentricVector3D slopedTriangle (F32.screenPoint 0 0)).z
          * slopedTriangle.v2.x = 997753 / 8192 ∧
      (F32.screenPoint 0 0).x = 0) := by
  decide!

/-- Claim C3, amended: for vertices and a query point whose `x, y` coordinates are integers
of magnitude at most `1024` and a triangle accepted by the 3D solver (`|R.z| > 1e-2`), the
returned weights are the binary32 roundings of the exact weights `(a, b, c)`, the numbers of
sum one that reproduce the `x` and `y` of the point from the vertices in the order `A, B, C`:
`w1` is the rounded `b`, `w2` the rounded `c`, and `w0` is `1.0f` minus the rounded `b + c`;
the query at vertex `A` gives `(1, 0, 0)`. -/
theorem computeBarycentricVector3D32_rounds (triangle : Triangle (Vector3 ℚ))
    (point : Vector3 ℚ)
    (h0 : onGrid 1024 triangle.v0) (h1 : onGrid 1024 triangle.v1)
    (h2 : onGrid 1024 triangle.v2) (hp : onGrid 1024 point)
    (hacc : |(F32.crossResult3D triangle point).z| > F32.areaThreshold) :
    (∃ a b c : ℚ, a + b + c = 1 ∧
      point.x = a * triangle.v0.x + b * triangle.v1.x + c * triangle.v2.x ∧
      point.y = a * triangle.v0.y + b * triangle.v1.y + c * triangle.v2.y ∧
      F32.computeBarycentricVector3D triangle point
        = ⟨round32 (1 - round32 (b + c)), round32 b, round32 c⟩) ∧
    F32.computeBarycentricVector3D triangle triangle.v0 = ⟨1, 0, 0⟩ := by
  have hex := (accepted3D32_iff_onGrid triangle point h0 h1 h2 hp).mp hacc
  have hex0 : |(crossResult3D triangle triangle.v0).z| > 1 / 100 := by
    rw [crossResult3D_z] at hex ⊢
    exact hex
  constructor
  · obtain ⟨hs, hx, hy⟩ := computeBarycentricVector3D_affine triangle point hex
    exact ⟨_, _, _, hs, hx, hy,
      computeBarycentricVector3D32_onGrid triangle point h0 h1 h2 hp hex⟩
  · rw [computeBarycentricVector3D32_onGrid triangle triangle.v0 h0 h1 h2 h0 hex0,
      computeBarycentricVector3D_unique triangle triangle.v0 hex0 1 0 0 (by norm_num) (by ring)
        (by ring)]
    simp only [add_zero, round32_zero, sub_zero, round32_one]

theorem computeBarycentricVector3D32_rounds_witness :
    |(F32.crossResult3D unitTriangle (F32.screenPoint 0 0)).z| > F32.areaThreshold ∧
    F32.computeBarycentricVector3D unitTriangle unitTriangle.v0 = ⟨1, 0, 0⟩ :=
  have hacc : |(F32.crossResult3D unitTriangle (F32.screenPoint 0 0)).z|
      > F32.areaThreshold := by decide!
  ⟨hacc, (computeBarycentricVector3D32_rounds unitTriangle (F32.screenPoint 0 0)
    onGrid_unitTriangle.1 onGrid_unitTriangle.2.1 onGrid_unitTriangle.2.2
    ⟨0, 0, by norm_num [F32.screenPoint, F32.ofInt, round32_zero]⟩ hacc).2⟩

/-- A rounded number of magnitude at most one is within `2^-25` of the number. -/
theorem round32_error_unit (q : ℚ) (h : |q| ≤ 1) : |round32 q - q| ≤ 1 / 33554432 := by
  have := round32_error q 0 (by norm_num) (by simpa using h)
  norm_num at this
  exact this

/-- Claim C4, counterexample: (1) the point `(1/64, 1/64)` lies strictly inside the triangle
`(0,0), (1/16,0), (0,1/16)`, whose `|R.z| = 1/256` is below the threshold, and the 3D solver
returns the sentinel `(-1, 1, 1)`; (2) the solver accepts the triangle
`(0.8f, 15.0f), (1.2f, 1.4f), (8.4f, 3.8f)`, the pixel `(3, 2)` lies strictly inside it, and
the first binary32 weight returned is negative; (3) the pixel `(1, 1)` lies strictly inside
the integer triangle `(0,0), (0,2), (3,0)`, with the exact weights `(1/6, 1/2, 1/3)`, and the
three binary32 weights returned have the sum `33554433/33554432`, not `1`. -/
theorem inside_weight_not_positive :
    (strictlyInside smallTriangle.v0.xy smallTriangle.v1.xy smallTriangle.v2.xy
        smallInner.xy ∧
      F32.computeBarycentricVector3D smallTriangle smallInner = ⟨-1, 1, 1⟩) ∧
    (|(F32.crossResult3D decimalTriangle (F32.screenPoint 3 2)).z| > F32.areaThreshold ∧
      strictlyInside decimalTriangle.v0.xy decimalTriangle.v1.xy decimalTriangle.v2.xy
        (F32.screenPoint 3 2).xy ∧
      (F32.computeBarycentricVector3D decimalTriangle (F32.screenPoint 3 2)).x < 0) ∧
    (strictlyInside sixthTriangle.v0.xy sixthTriangle.v1.xy sixthTriangle.v2.xy
        (F32.screenPoint 1 1).xy ∧
      (F32.computeBarycentricVector3D sixthTriangle (F32.screenPoint 1 1)).x
        + (F32.computeBarycentricVector3D sixthTriangle (F32.screenPoint 1 1)).y
        + (F32.computeBarycentricVector3D sixthTriangle (F32.screenPoint 1 1)).z
        = 33554433 / 33554432 ∧
      (33554433 : ℚ) / 33554432 ≠ 1) := by
  refine ⟨⟨⟨1 / 2, 1 / 4, 1 / 4, ?_⟩, by decide!⟩, ⟨by decide!, ?_, by decide!⟩,
    ⟨1 / 6, 1 / 2, 1 / 3, ?_⟩, by decide!, by decide!⟩
  · norm_num [smallTriangle, smallInner, Vector3.xy]
  · have hacc : |(crossResult3D decimalTriangle (F32.screenPoint 3 2)).z| > 1 / 100 := by
      decide!
    obtain ⟨hs, hx, hy⟩ :=
      computeBarycentricVector3D_affine decimalTriangle (F32.screenPoint 3 2) hacc
    exact ⟨_, _, _, by decide!, by decide!, by decide!, hs, hx, hy⟩
  · have e : F32.screenPoint 1 1 = ⟨1, 1, 0⟩ := by decide!
    rw [e]
    norm_num [sixthTriangle, Vector3.xy]

/-- Claim C4, amended: for vertices and a point whose `x, y` coordinates are integers of
magnitude at most `1024`, a triangle that is not degenerate (its vertices are not collinear
in the `x, y` plane) and the point strictly inside it, the three binary32 weights returned by
the 3D solver lie strictly between zero and one, and their sum differs from one by at most
`2^-23`. -/
theorem computeBarycentricVector3D32_inside (triangle : Triangle (Vector3 ℚ))
    (point : Vector3 ℚ)
    (h0 : onGrid 1024 triangle.v0) (h1 : onGrid 1024 triangle.v1)
    (h2 : onGrid 1024 triangle.v2) (hp : onGrid 1024 point)
    (hnc : ¬ collinear triangle.v0.xy triangle.v1.xy triangle.v2.xy)
    (hin : strictlyInside triangle.v0.xy triangle.v1.xy triangle.v2.xy point.xy) :
    (0 < (F32.computeBarycentricVector3D triangle point).x ∧
      (F32.computeBarycentricVector3D triangle point).x < 1) ∧
    (0 < (F32.computeBarycentricVector3D triangle point).y ∧
      (F32.computeBarycentricVector3D triangle point).y < 1) ∧
    (0 < (F32.computeBarycentricVector3D triangle point).z ∧
      (F32.computeBarycentricVector3D triangle point).z < 1) ∧
    |(F32.computeBarycentricVector3D triangle point).x
      + (F32.computeBarycentricVector3D triangle point).y
      + (F32.computeBarycentricVector3D triangle point).z - 1| ≤ 1 / 8388608 := by
  obtain ⟨-, X, Y, Z, hR, bX, bY, bZ⟩ := crossResult3D32_onGrid triangle point h0 h1 h2 hp
  have hex : |(crossResult3D triangle point).z| > 1 / 100 := by
    have hz : (crossResult3D triangle point).z ≠ 0 := fun hz0 =>
      hnc ((crossResult3D_z_eq_zero_iff triangle point).mp hz0)
    rw [hR] at hz ⊢
    have hZ : (Z : ℚ) ≠ 0 := hz
    exact (abs_intCast_gt_hundredth Z).mpr (by exact_mod_cast hZ)
  obtain ⟨a, b, c, ha, hb, hc, hsum, hx, hy⟩ := hin
  have hw := computeBarycentricVector3D_unique triangle point hex a b c hsum hx hy
  have hZq : (Z : ℚ) ≠ 0 := by
    have := crossResult3D_z_ne_zero triangle point hex
    rw [hR] at this
    exact this
  have hZ : Z ≠ 0 := by exact_mod_cast hZq
  have hacc2 := computeBarycentricVector3D_accepted triangle point hex
  rw [hw, hR] at hacc2
  simp only [Vector3.mk.injEq] at hacc2
  obtain ⟨-, hbq, hcq⟩ := hacc2
  have hbc : b + c = ((X + Y : ℤ) : ℚ) / (Z : ℚ) := by
    rw [hbq, hcq]
    push_cast
    field_simp
    ring
  have hb1 : b < 1 := by linarith
  have hc1 : c < 1 := by linarith
  have hbc0 : 0 < b + c := by linarith
  have hbc1 : b + c < 1 := by linarith
  have ib := div32_unit_interval Y Z hZ bZ (by rw [← hbq]; exact hb) (by rw [← hbq]; exact hb1)
  have ic := div32_unit_interval X Z hZ bZ (by rw [← hcq]; exact hc) (by rw [← hcq]; exact hc1)
  have is_ := div32_unit_interval (X + Y) Z hZ bZ (by rw [← hbc]; exact hbc0)
    (by rw [← hbc]; exact hbc1)
  unfold F32.div at ib ic is_
  rw [← hbq] at ib
  rw [← hcq] at ic
  rw [← hbc] at is_
  have i0 := one_sub32_unit_interval (round32 (b + c)) is_.1 is_.2
  unfold F32.sub at i0
  have eb := round32_error_unit b (by rw [abs_le]; constructor <;> linarith)
  have ec := round32_error_unit c (by rw [abs_le]; constructor <;> linarith)
  have es := round32_error_unit (b + c) (by rw [abs_le]; constructor <;> linarith)
  have e0 := round32_error_unit (1 - round32 (b + c))
    (by rw [abs_le]; constructor <;> linarith [is_.1, is_.2])
  rw [computeBarycentricVector3D32_onGrid triangle point h0 h1 h2 hp hex, hw]
  simp only
  rw [abs_le] at eb ec es e0 ⊢
  refine ⟨⟨?_, ?_⟩, ⟨?_, ?_⟩, ⟨?_, ?_⟩, ?_, ?_⟩ <;> linarith [i0.1, i0.2, ib.1, ib.2, ic.1, ic.2]

/-- The pixel `(1, 1)` inside the spatial triangle `(0,0), (4,0), (0,4)`: the instance of
the amended form of claim C4. -/
theorem computeBarycentricVector3D32_inside_witness :
    ¬ collinear rightTriangle3D.v0.xy rightTriangle3D.v1.xy rightTriangle3D.v2.xy ∧
    strictlyInside rightTriangle3D.v0.xy rightTriangle3D.v1.xy rightTriangle3D.v2.xy
      (F32.screenPoint 1 1).xy ∧
    (0 < (F32.computeBarycentricVector3D rightTriangle3D (F32.screenPoint 1 1)).x ∧
      (F32.computeBarycentricVector3D rightTriangle3D (F32.screenPoint 1 1)).x < 1) ∧
    (0 < (F32.computeBarycentricVector3D rightTriangle3D (F32.screenPoint 1 1)).y ∧
      (F32.computeBarycentricVector3D rightTriangle3D (F32.screenPoint 1 1)).y < 1) ∧
    (0 < (F32.computeBarycentricVector3D rightTriangle3D (F32.screenPoint 1 1)).z ∧
      (F32.computeBarycentricVector3D rightTriangle3D (F32.screenPoint 1 1)).z < 1) ∧
    |(F32.computeBarycentricVector3D rightTriangle3D (F32.screenPoint 1 1)).x
      + (F32.computeBarycentricVector3D rightTriangle3D (F32.screenPoint 1 1)).y
      + (F32.computeBarycentricVector3D rightTriangle3D (F32.screenPoint 1 1)).z - 1|
      ≤ 1 / 8388608 :=
  have hnc : ¬ collinear rightTriangle3D.v0.xy rightTriangle3D.v1.xy
      rightTriangle3D.v2.xy := by
    rw [collinear_iff_cross]
    norm_num [rightTriangle3D, Vector3.xy]
  have hin : strictlyInside rightTriangle3D.v0.xy rightTriangle3D.v1.xy rightTriangle3D.v2.xy
      (F32.screenPoint 1 1).xy :=
    ⟨1 / 2, 1 / 4, 1 / 4, by
      have e : F32.screenPoint 1 1 = ⟨1, 1, 0⟩ := by decide!
      rw [e]
      norm_num [rightTriangle3D, Vector3.xy]⟩
  ⟨hnc, hin, computeBarycentricVector3D32_inside rightTriangle3D (F32.screenPoint 1 1)
    ⟨0, 0, by norm_num [rightTriangle3D]⟩ ⟨4, 0, by norm_num [rightTriangle3D]⟩
    ⟨0, 4, by norm_num [rightTriangle3D]⟩
    ⟨1, 1, by
      have e : F32.screenPoint 1 1 = ⟨1, 1, 0⟩ := by decide!
      rw [e]
      norm_num⟩ hnc hin⟩

theorem sub32_self (v : ℚ) : F32.sub v v = 0 := by
  unfold F32.sub
  rw [sub_self, round32_zero]

theorem abs_sub_le_pow (a b : ℤ) (ha : |a| ≤ 2 ^ 23) (hb : |b| ≤ 2 ^ 23) :
    |a - b| ≤ 2 ^ 24 := by
  have := abs_sub_le_of_bounds a b _ ha hb
  omega

/-- For collinear vertices with integer coordinates of magnitude at most `2^23` the binary32
`R.z` of the 2D solver is zero: the coordinate differences are converted exactly, and the two
products are roundings of one number. -/
theorem crossResult2D32_z_collinear (t : Triangle Point) (p : Point)
    (h0 : withinBound (2 ^ 23) t.v0) (h1 : withinBound (2 ^ 23) t.v1)
    (h2 : withinBound (2 ^ 23) t.v2)
    (hcol : collinear t.v0.toFloat t.v1.toFloat t.v2.toFloat) :
    (F32.crossResult2D t p).z = 0 := by
  have hz := (crossResult2D_z_eq_zero_iff t p).mpr hcol
  rw [crossResult2D_z] at hz
  simp only [F32.crossResult2D, F32.CrossProduct, Vector2.sub]
  rw [ofInt32_exact _ (abs_sub_le_pow _ _ h1.1 h0.1),
    ofInt32_exact _ (abs_sub_le_pow _ _ h2.2 h0.2),
    ofInt32_exact _ (abs_sub_le_pow _ _ h2.1 h0.1),
    ofInt32_exact _ (abs_sub_le_pow _ _ h1.2 h0.2)]
  have e : F32.mul ((t.v1.x - t.v0.x : ℤ) : ℚ) ((t.v2.y - t.v0.y : ℤ) : ℚ)
      = F32.mul ((t.v2.x - t.v0.x : ℤ) : ℚ) ((t.v1.y - t.v0.y : ℤ) : ℚ) := by
    unfold F32.mul
    congr 1
    push_cast
    linarith
  rw [e, sub32_self]

/-- For collinear vertices whose `x, y` coordinates are integers of magnitude at most `2^23`
the binary32 `R.z` of the 3D solver is zero. -/
theorem crossResult3D32_z_collinear (t : Triangle (Vector3 ℚ)) (p : Vector3 ℚ)
    (h0 : onGrid (2 ^ 23) t.v0) (h1 : onGrid (2 ^ 23) t.v1) (h2 : onGrid (2 ^ 23) t.v2)
    (hcol : collinear t.v0.xy t.v1.xy t.v2.xy) :
    (F32.crossResult3D t p).z = 0 := by
  have hz := (crossResult3D_z_eq_zero_iff t p).mpr hcol
  rw [crossResult3D_z] at hz
  obtain ⟨ax, ay, hax, hay, bax, bay⟩ := h0
  obtain ⟨bx, by_, hbx, hby, bbx, bby⟩ := h1
  obtain ⟨cx, cy, hcx, hcy, bcx, bcy⟩ := h2
  rw [hax, hay, hbx, hby, hcx, hcy] at hz
  simp only [F32.crossResult3D, F32.CrossProduct, F32.vsub, hax, hay, hbx, hby, hcx, hcy]
  rw [sub32_intCast cx ax (abs_sub_le_pow _ _ bcx bax),
    sub32_intCast by_ ay (abs_sub_le_pow _ _ bby bay),
    sub32_intCast bx ax (abs_sub_le_pow _ _ bbx bax),
    sub32_intCast cy ay (abs_sub_le_pow _ _ bcy bay)]
  have e : F32.mul ((cx - ax : ℤ) : ℚ) ((by_ - ay : ℤ) : ℚ)
      = F32.mul ((bx - ax : ℤ) : ℚ) ((cy - ay : ℤ) : ℚ) := by
    unfold F32.mul
    congr 1
    push_cast
    linarith
  rw [e, sub32_self]

theorem computeBarycentricVector2D32_collinear (t : Triangle Point) (p : Point)
    (h0 : withinBound (2 ^ 23) t.v0) (h1 : withinBound (2 ^ 23) t.v1)
    (h2 : withinBound (2 ^ 23) t.v2)
    (hcol : collinear t.v0.toFloat t.v1.toFloat t.v2.toFloat) :
    F32.computeBarycentricVector2D t p = INVALID_VECTOR := by
  unfold F32.computeBarycentricVector2D
  simp only [crossResult2D32_z_collinear t p h0 h1 h2 hcol]
  norm_num

theorem computeBarycentricVector3D32_collinear (t : Triangle (Vector3 ℚ)) (p : Vector3 ℚ)
    (h0 : onGrid (2 ^ 23) t.v0) (h1 : onGrid (2 ^ 23) t.v1) (h2 : onGrid (2 ^ 23) t.v2)
    (hcol : collinear t.v0.xy t.v1.xy t.v2.xy) :
    F32.computeBarycentricVector3D t p = INVALID_VECTOR := by
  unfold F32.computeBarycentricVector3D
  simp only [crossResult3D32_z_collinear t p h0 h1 h2 hcol]
  norm_num [F32.areaThreshold]

theorem slopedTriangle_collinear :
    collinear slopedTriangle.v0.xy slopedTriangle.v1.xy slopedTriangle.v2.xy :=
  ⟨3, -2, 0, Or.inl (by norm_num), by norm_num [slopedTriangle, Vector3.xy]⟩

/-- Claim C6, counterexample: (1) the three vertices of `slopedTriangle` are `float` values on
the line `y = 1.5 x`, yet the binary32 `R.z` is `1/8`, the guard `|R.z| > 1e-2` lets the
triangle pass, and the 3D solver returns `(1/2, 1/2, 0)` at the query point `(0, 0)`, not the
sentinel; (2) the three integer vertices of `longTriangle` are collinear, yet the conversion
of `16777217` and `50331651` to `float` rounds, the binary32 `R.z` is `-16`, and the 2D solver
returns `(1, 0, 0)` at the query point `(0, 0)`, not the sentinel. -/
theorem slopedTriangle_not_rejected :
    (collinear slopedTriangle.v0.xy slopedTriangle.v1.xy slopedTriangle.v2.xy ∧
      (round32 slopedTriangle.v0.x = slopedTriangle.v0.x ∧
        round32 slopedTriangle.v0.y = slopedTriangle.v0.y ∧
        round32 slopedTriangle.v1.x = slopedTriangle.v1.x ∧
        round32 slopedTriangle.v1.y = slopedTriangle.v1.y ∧
        round32 slopedTriangle.v2.x = slopedTriangle.v2.x ∧
        round32 slopedTriangle.v2.y = slopedTriangle.v2.y) ∧
      (F32.crossResult3D slopedTriangle (F32.screenPoint 0 0)).z = 1 / 8 ∧
      F32.computeBarycentricVector3D slopedTriangle (F32.screenPoint 0 0)
        = ⟨1 / 2, 1 / 2, 0⟩ ∧
      F32.computeBarycentricVector3D slopedTriangle (F32.screenPoint 0 0) ≠ INVALID_VECTOR) ∧
    (collinear longTriangle.v0.toFloat longTriangle.v1.toFloat longTriangle.v2.toFloat ∧
      (F32.crossResult2D longTriangle ⟨0, 0⟩).z = -16 ∧
      F32.computeBarycentricVector2D longTriangle ⟨0, 0⟩ = ⟨1, 0, 0⟩ ∧
      F32.computeBarycentricVector2D longTriangle ⟨0, 0⟩ ≠ INVALID_VECTOR) :=
  ⟨⟨slopedTriangle_collinear, by decide!, by decide!, by decide!, by decide!⟩,
    ⟨3, -16777217, 0, Or.inl (by norm_num), by norm_num [longTriangle, Point.toFloat]⟩,
    by decide!, by decide!, by decide!⟩

/-- Claim C6, amended: for vertices that are collinear in the `x, y` plane and have integer
`x, y` coordinates of magnitude at most `2^23`, and for any query point, the binary32 2D
solver and the binary32 3D solver both return the sentinel `INVALID_VECTOR = (-1, 1, 1)`. -/
theorem collinear_returns_INVALID_VECTOR32 (triangle2 : Triangle Point) (point2 : Point)
    (triangle3 : Triangle (Vector3 ℚ)) (point3 : Vector3 ℚ)
    (h0 : withinBound (2 ^ 23) triangle2.v0) (h1 : withinBound (2 ^ 23) triangle2.v1)
    (h2 : withinBound (2 ^ 23) triangle2.v2)
    (g0 : onGrid (2 ^ 23) triangle3.v0) (g1 : onGrid (2 ^ 23) triangle3.v1)
    (g2 : onGrid (2 ^ 23) triangle3.v2) :
    (collinear triangle2.v0.toFloat triangle2.v1.toFloat triangle2.v2.toFloat →
      F32.computeBarycentricVector2D triangle2 point2 = INVALID_VECTOR) ∧
    (collinear triangle3.v0.xy triangle3.v1.xy triangle3.v2.xy →
      F32.computeBarycentricVector3D triangle3 point3 = INVALID_VECTOR) ∧
    INVALID_VECTOR = ⟨-1, 1, 1⟩ :=
  ⟨fun hcol => computeBarycentricVector2D32_collinear triangle2 point2 h0 h1 h2 hcol,
    fun hcol => computeBarycentricVector3D32_collinear triangle3 point3 g0 g1 g2 hcol, rfl⟩

theorem withinBound_flatTriangle2D :
    withinBound (2 ^ 23) flatTriangle2D.v0 ∧ withinBound (2 ^ 23) flatTriangle2D.v1 ∧
      withinBound (2 ^ 23) flatTriangle2D.v2 := by
  norm_num [withinBound, flatTriangle2D]

theorem onGrid_flatTriangle3D :
    onGrid (2 ^ 23) flatTriangle3D.v0 ∧ onGrid (2 ^ 23) flatTriangle3D.v1 ∧
      onGrid (2 ^ 23) flatTriangle3D.v2 :=
  ⟨⟨0, 0, by norm_num [flatTriangle3D]⟩, ⟨1, 1, by norm_num [flatTriangle3D]⟩,
    ⟨2, 2, by norm_num [flatTriangle3D]⟩⟩

theorem flatTriangle2D_collinear :
    collinear flatTriangle2D.v0.toFloat flatTriangle2D.v1.toFloat flatTriangle2D.v2.toFloat :=
  ⟨1, -1, 0, Or.inl one_ne_zero, by norm_num [flatTriangle2D, Point.toFloat]⟩

theorem flatTriangle3D_collinear :
    collinear flatTriangle3D.v0.xy flatTriangle3D.v1.xy flatTriangle3D.v2.xy :=
  ⟨1, -1, 0, Or.inl one_ne_zero, by norm_num [flatTriangle3D, Vector3.xy]⟩

theorem collinear_returns_INVALID_VECTOR32_witness :
    (withinBound (2 ^ 23) flatTriangle2D.v0 ∧ withinBound (2 ^ 23) flatTriangle2D.v1 ∧
      withinBound (2 ^ 23) flatTriangle2D.v2) ∧
    (onGrid (2 ^ 23) flatTriangle3D.v0 ∧ onGrid (2 ^ 23) flatTriangle3D.v1 ∧
      onGrid (2 ^ 23) flatTriangle3D.v2) ∧
    (collinear flatTriangle2D.v0.toFloat flatTriangle2D.v1.toFloat flatTriangle2D.v2.toFloat ∧
      F32.computeBarycentricVector2D flatTriangle2D ⟨1, 1⟩ = INVALID_VECTOR) ∧
    (collinear flatTriangle3D.v0.xy flatTriangle3D.v1.xy flatTriangle3D.v2.xy ∧
      F32.computeBarycentricVector3D flatTriangle3D (F32.screenPoint 1 1) = INVALID_VECTOR) :=
  ⟨withinBound_flatTriangle2D, onGrid_flatTriangle3D,
   ⟨flatTriangle2D_collinear,
    (collinear_returns_INVALID_VECTOR32 flatTriangle2D ⟨1, 1⟩ flatTriangle3D
      (F32.screenPoint 1 1) withinBound_flatTriangle2D.1 withinBound_flatTriangle2D.2.1
      withinBound_flatTriangle2D.2.2 onGrid_flatTriangle3D.1 onGrid_flatTriangle3D.2.1
      onGrid_flatTriangle3D.2.2).1 flatTriangle2D_collinear⟩,
   ⟨flatTriangle3D_collinear,
    (collinear_returns_INVALID_VECTOR32 flatTriangle2D ⟨1, 1⟩ flatTriangle3D
      (F32.screenPoint 1 1) withinBound_flatTriangle2D.1 withinBound_flatTriangle2D.2.1
      withinBound_flatTriangle2D.2.2 onGrid_flatTriangle3D.1 onGrid_flatTriangle3D.2.1
      onGrid_flatTriangle3D.2.2).2.1 flatTriangle3D_collinear⟩⟩

theorem vertex_withinBound (B : ℤ) (t : Triangle Point) (h0 : withinBound B t.v0)
    (h1 : withinBound B t.v1) (h2 : withinBound B t.v2) (i : Fin 3) :
    withinBound B (t.vertex i) := by
  fin_cases i
  · exact h0
  · exact h1
  · exact h2

theorem vertex_onGrid (B : ℤ) (t : Triangle (Vector3 ℚ)) (h0 : onGrid B t.v0)
    (h1 : onGrid B t.v1) (h2 : onGrid B t.v2) (i : Fin 3) : onGrid B (t.vertex i) := by
  fin_cases i
  · exact h0
  · exact h1
  · exact h2

/-- Claim C15, counterexample: (1) with the first two vertices of the integer triangle
`(0,0), (6549,5845), (4469,4238)` exchanged, the binary32 2D `shouldRender` at the point
`(2921, 2607)` returns `false`, whereas it returns `true` for the original order; (2) for the
triangle with the `float` vertices `(0.8f, 15.0f), (1.2f, 1.4f), (8.4f, 3.8f)` and the pixel
`(3, 2)` the result of the binary32 3D solver has a negative component, whereas with the
first two vertices exchanged it is `(3/4, 0, 1/4)` and has none. -/
theorem shouldRender2D32_order_dependent :
    (F32.shouldRender2D wideTriangle ⟨2921, 2607⟩ = true ∧
      F32.shouldRender2D (wideTriangle.permute swapFirstTwo) ⟨2921, 2607⟩ = false ∧
      wideTriangle.permute swapFirstTwo
        = ⟨wideTriangle.v1, wideTriangle.v0, wideTriangle.v2⟩) ∧
    (hasNegative (F32.computeBarycentricVector3D decimalTriangle (F32.screenPoint 3 2)) ∧
      F32.computeBarycentricVector3D (decimalTriangle.permute swapFirstTwo)
        (F32.screenPoint 3 2) = ⟨3 / 4, 0, 1 / 4⟩ ∧
      ¬ hasNegative (F32.computeBarycentricVector3D (decimalTriangle.permute swapFirstTwo)
        (F32.screenPoint 3 2)) ∧
      decimalTriangle.permute swapFirstTwo
        = ⟨decimalTriangle.v1, decimalTriangle.v0, decimalTriangle.v2⟩) := by
  have e : wideTriangle.permute swapFirstTwo
      = ⟨wideTriangle.v1, wideTriangle.v0, wideTriangle.v2⟩ := by
    unfold Triangle.permute swapFirstTwo
    simp [Triangle.vertex, Equiv.swap_apply_of_ne_of_ne]
  have e3 : decimalTriangle.permute swapFirstTwo
      = ⟨decimalTriangle.v1, decimalTriangle.v0, decimalTriangle.v2⟩ := by
    unfold Triangle.permute swapFirstTwo
    simp [Triangle.vertex, Equiv.swap_apply_of_ne_of_ne]
  refine ⟨⟨by decide!, ?_, e⟩, by decide!, ?_, ?_, e3⟩
  · rw [e]
    decide!
  · rw [e3]
    decide!
  · rw [e3]
    decide!

/-- Claim C15, amended: for a triangle and a query point with integer coordinates of
magnitude at most `1024` the containment test does not depend on the order of the vertices:
for every rearrangement of the three vertices the binary32 2D `shouldRender` returns the same
boolean, and the result of the binary32 3D solver has a negative component for the
rearranged triangle exactly when it has one for the original triangle. -/
theorem shouldRender32_permute (triangle2 : Triangle Point) (point2 : Point)
    (triangle3 : Triangle (Vector3 ℚ)) (point3 : Vector3 ℚ) (σ : Equiv.Perm (Fin 3))
    (h0 : withinBound 1024 triangle2.v0) (h1 : withinBound 1024 triangle2.v1)
    (h2 : withinBound 1024 triangle2.v2) (hp : withinBound 1024 point2)
    (g0 : onGrid 1024 triangle3.v0) (g1 : onGrid 1024 triangle3.v1)
    (g2 : onGrid 1024 triangle3.v2) (gp : onGrid 1024 point3) :
    F32.shouldRender2D (triangle2.permute σ) point2 = F32.shouldRender2D triangle2 point2 ∧
    (hasNegative (F32.computeBarycentricVector3D (triangle3.permute σ) point3) ↔
      hasNegative (F32.computeBarycentricVector3D triangle3 point3)) := by
  constructor
  · rw [shouldRender2D32_eq_withinBound triangle2 point2 h0 h1 h2 hp,
      shouldRender2D32_eq_withinBound (triangle2.permute σ) point2
        (vertex_withinBound _ triangle2 h0 h1 h2 (σ 0))
        (vertex_withinBound _ triangle2 h0 h1 h2 (σ 1))
        (vertex_withinBound _ triangle2 h0 h1 h2 (σ 2)) hp]
    exact permute_invariant (fun t => shouldRender2D t point2)
      (fun A B C => shouldRender2D_swap01 A B C point2)
      (fun A B C => shouldRender2D_swap12 A B C point2) triangle2 σ
  · rw [hasNegative3D32_iff_onGrid triangle3 point3 g0 g1 g2 gp,
      hasNegative3D32_iff_onGrid (triangle3.permute σ) point3
        (vertex_onGrid _ triangle3 g0 g1 g2 (σ 0))
        (vertex_onGrid _ triangle3 g0 g1 g2 (σ 1))
        (vertex_onGrid _ triangle3 g0 g1 g2 (σ 2)) gp]
    have h := permute_invariant
      (fun t => hasNegative (computeBarycentricVector3D t point3))
      (fun A B C => propext (hasNegative3D_swap01 A B C point3))
      (fun A B C => propext (hasNegative3D_swap12 A B C point3)) triangle3 σ
    exact iff_of_eq h

theorem shouldRender32_permute_witness :
    (withinBound 1024 rightTriangle.v0 ∧ withinBound 1024 rightTriangle.v1 ∧
      withinBound 1024 rightTriangle.v2 ∧ withinBound 1024 (⟨3, 1⟩ : Point)) ∧
    F32.shouldRender2D (rightTriangle.permute swapFirstTwo) ⟨3, 1⟩
      = F32.shouldRender2D rightTriangle ⟨3, 1⟩ ∧
    (hasNegative (F32.computeBarycentricVector3D (unitTriangle.permute swapFirstTwo)
        ⟨1, 1, 0⟩) ↔
      hasNegative (F32.computeBarycentricVector3D unitTriangle ⟨1, 1, 0⟩)) :=
  have b0 : withinBound 1024 rightTriangle.v0 := by
    norm_num [withinBound, rightTriangle]
  have b1 : withinBound 1024 rightTriangle.v1 := by
    norm_num [withinBound, rightTriangle]
  have b2 : withinBound 1024 rightTriangle.v2 := by
    norm_num [withinBound, rightTriangle]
  have bp : withinBound 1024 (⟨3, 1⟩ : Point) := by
    norm_num [withinBound]
  ⟨⟨b0, b1, b2, bp⟩,
    shouldRender32_permute rightTriangle ⟨3, 1⟩ unitTriangle ⟨1, 1, 0⟩ swapFirstTwo b0 b1 b2 bp
      ⟨0, 0, by norm_num [unitTriangle]⟩ ⟨1, 0, by norm_num [unitTriangle]⟩
      ⟨0, 1, by norm_num [unitTriangle]⟩ ⟨1, 1, by norm_num⟩⟩

theorem shouldRender2D32_collinear (t : Triangle Point) (p : Point)
    (h0 : withinBound (2 ^ 23) t.v0) (h1 : withinBound (2 ^ 23) t.v1)
    (h2 : withinBound (2 ^ 23) t.v2)
    (hcol : collinear t.v0.toFloat t.v1.toFloat t.v2.toFloat) :
    F32.shouldRender2D t p = false := by
  rw [shouldRender2D32_eq, computeBarycentricVector2D32_collinear t p h0 h1 h2 hcol]
  simp [hasNegative_INVALID_VECTOR]

theorem shouldRender3D32_collinear (t : Triangle (Vector3 ℚ)) (p : Vector3 ℚ)
    (zBuffer : List ℚ) (width : ℤ)
    (h0 : onGrid (2 ^ 23) t.v0) (h1 : onGrid (2 ^ 23) t.v1) (h2 : onGrid (2 ^ 23) t.v2)
    (hcol : collinear t.v0.xy t.v1.xy t.v2.xy) :
    F32.shouldRender3D t p zBuffer width = some ⟨false, INVALID_VECTOR, zBuffer⟩ := by
  have hrej := computeBarycentricVector3D32_collinear t p h0 h1 h2 hcol
  have h := shouldRender3D32_rejected t p zBuffer width
    (by rw [hrej, ← not_hasNegative_iff, not_not]; exact hasNegative_INVALID_VECTOR)
  rw [hrej] at h
  exact h

/-- Claim C13, counterexample: (1) the three vertices of `slopedTriangle` lie on the line
`y = 1.5 x`, yet on a `4 x 4` image with all depth entries `-5` the flat-colour 3D
`drawTriangle` writes the pixels `(0, 0)` and `(2, 3)` and changes two depth entries; (2) the
three integer vertices of `longTriangle` are collinear, yet on a `4 x 4` image the public 2D
`drawTriangle` writes the pixel `(0, 0)`. -/
theorem slopedTriangle_draws :
    (collinear slopedTriangle.v0.xy slopedTriangle.v1.xy slopedTriangle.v2.xy ∧
      (F32.drawTriangleDepth slopedTriangle depthBuffer4 blankImage4 red).map
          (fun out => (out.1, out.2.get 0 0, out.2.get 2 3))
        = some ([0, -5, -5, -5, -5, -5, -5, -5, -5, -5, -5, -5, -5, -5, 0, -5], red, red) ∧
      blankImage4.get 0 0 ≠ red) ∧
    (collinear longTriangle.v0.toFloat longTriangle.v1.toFloat longTriangle.v2.toFloat ∧
      (F32.drawTriangle longTriangle.v0 longTriangle.v1 longTriangle.v2 (blankCanvas 4 4)
        red).written = [(0, 0)] ∧
      (blankCanvas 4 4 : Canvas ℕ).written = []) :=
  ⟨⟨slopedTriangle_collinear, by decide!, by decide!⟩,
    ⟨3, -16777217, 0, Or.inl (by norm_num), by norm_num [longTriangle, Point.toFloat]⟩,
    by decide!, by decide!⟩

/-- Claim C13, amended: degenerate triangles with integer coordinates render nothing.  For
vertices that are collinear in `x, y` and have integer `x, y` coordinates of magnitude at most
`2^23`, the public 2D `drawTriangle` (both overloads) returns the target with nothing added
to the record of `image.set` calls, and in both 3D `drawTriangle` variants the depth test
reports "not visible" at every pixel, so that the call returns the depth buffer and the image
as they were. -/
theorem collinear_draws_nothing32 {Ch : Type} (conv : Channel Ch) (triangle2 : Triangle Point)
    (canvas : Canvas Ch) (color : TGAColor Ch) (triangle3 : Triangle (Vector3 ℚ))
    (zBuffer : List ℚ) (image texture : TGAImage Ch) (uv : Triangle (Vector2 ℚ))
    (lightIntensity : ℚ)
    (h0 : withinBound (2 ^ 23) triangle2.v0) (h1 : withinBound (2 ^ 23) triangle2.v1)
    (h2 : withinBound (2 ^ 23) triangle2.v2)
    (g0 : onGrid (2 ^ 23) triangle3.v0) (g1 : onGrid (2 ^ 23) triangle3.v1)
    (g2 : onGrid (2 ^ 23) triangle3.v2) :
    (collinear triangle2.v0.toFloat triangle2.v1.toFloat triangle2.v2.toFloat →
      F32.drawTriangle triangle2.v0 triangle2.v1 triangle2.v2 canvas color = canvas ∧
      F32.drawTriangleVertices triangle2 canvas color = canvas ∧
      (F32.drawTriangleVertices triangle2 canvas color).written = canvas.written) ∧
    (collinear triangle3.v0.xy triangle3.v1.xy triangle3.v2.xy →
      (∀ (x y : ℤ) (zb : List ℚ) (width : ℤ),
        F32.shouldRender3D triangle3 (F32.screenPoint x y) zb width
          = some ⟨false, INVALID_VECTOR, zb⟩) ∧
      F32.drawTriangleDepth triangle3 zBuffer image color = some (zBuffer, image) ∧
      F32.drawTriangleTextured conv triangle3 zBuffer image texture uv lightIntensity
        = some (zBuffer, image)) := by
  constructor
  · intro hcol
    have hrej : ∀ p : Point, F32.shouldRender2D ⟨triangle2.v0, triangle2.v1, triangle2.v2⟩ p
        = false := fun p =>
      shouldRender2D32_collinear ⟨triangle2.v0, triangle2.v1, triangle2.v2⟩ p h0 h1 h2 hcol
    have hdraw : F32.drawTriangle triangle2.v0 triangle2.v1 triangle2.v2 canvas color
        = canvas := by
      unfold F32.drawTriangle F32.drawTriangle4
      apply foldl_unchanged
      intro cv x
      apply foldl_unchanged
      intro cv2 y
      rw [hrej]
      rfl
    have hvert : F32.drawTriangleVertices triangle2 canvas color = canvas := hdraw
    exact ⟨hdraw, hvert, by rw [hvert]⟩
  · intro hcol
    refine ⟨fun x y zb width => shouldRender3D32_collinear triangle3 _ zb width g0 g1 g2 hcol,
      ?_, ?_⟩
    · have hbody : ∀ (s : Raster Ch) (x y : ℤ),
          F32.rasterizePixel triangle3 color s x y = some s := by
        intro s x y
        have hr := shouldRender3D32_collinear triangle3 (F32.screenPoint x y) s.1
          s.2.get_width g0 g1 g2 hcol
        unfold F32.rasterizePixel
        simp only [hr]
        rfl
      exact scanBox_unchanged
        (BoundingBox3d.new triangle3
          ⟨F32.ofInt (image.get_width - 1), F32.ofInt (image.get_height - 1)⟩)
        (F32.rasterizePixel triangle3 color) hbody (zBuffer, image)
    · have hbody : ∀ (s : Raster Ch) (x y : ℤ),
          F32.rasterizeTexturedPixel conv triangle3 texture uv lightIntensity s x y
            = some s := by
        intro s x y
        have hr := shouldRender3D32_collinear triangle3 (F32.screenPoint x y) s.1
          s.2.get_width g0 g1 g2 hcol
        unfold F32.rasterizeTexturedPixel
        simp only [hr]
        rfl
      exact scanBox_unchanged
        (BoundingBox3d.new triangle3
          ⟨F32.ofInt (image.get_width - 1), F32.ofInt (image.get_height - 1)⟩)
        (F32.rasterizeTexturedPixel conv triangle3 texture uv lightIntensity) hbody
        (zBuffer, image)

theorem collinear_draws_nothing32_witness :
    (withinBound (2 ^ 23) flatTriangle2D.v0 ∧ withinBound (2 ^ 23) flatTriangle2D.v1 ∧
      withinBound (2 ^ 23) flatTriangle2D.v2) ∧
    (onGrid (2 ^ 23) flatTriangle3D.v0 ∧ onGrid (2 ^ 23) flatTriangle3D.v1 ∧
      onGrid (2 ^ 23) flatTriangle3D.v2) ∧
    (collinear flatTriangle2D.v0.toFloat flatTriangle2D.v1.toFloat flatTriangle2D.v2.toFloat ∧
      F32.drawTriangle flatTriangle2D.v0 flatTriangle2D.v1 flatTriangle2D.v2 (blankCanvas 3 3)
        red = blankCanvas 3 3) ∧
    (collinear flatTriangle3D.v0.xy flatTriangle3D.v1.xy flatTriangle3D.v2.xy ∧
      F32.drawTriangleDepth flatTriangle3D [-5, -5, -5, -5] blankImage red
        = some ([-5, -5, -5, -5], blankImage) ∧
      F32.drawTriangleTextured byteChannel flatTriangle3D [-5, -5, -5, -5] blankImage
        whiteTexture unitUV (1 / 2) = some ([-5, -5, -5, -5], blankImage)) :=
  ⟨withinBound_flatTriangle2D, onGrid_flatTriangle3D,
   ⟨flatTriangle2D_collinear,
    ((collinear_draws_nothing32 byteChannel flatTriangle2D (blankCanvas 3 3) red
      flatTriangle3D [-5, -5, -5, -5] blankImage whiteTexture unitUV (1 / 2)
      withinBound_flatTriangle2D.1 withinBound_flatTriangle2D.2.1
      withinBound_flatTriangle2D.2.2 onGrid_flatTriangle3D.1 onGrid_flatTriangle3D.2.1
      onGrid_flatTriangle3D.2.2).1 flatTriangle2D_collinear).1⟩,
   ⟨flatTriangle3D_collinear,
    ((collinear_draws_nothing32 byteChannel flatTriangle2D (blankCanvas 3 3) red
      flatTriangle3D [-5, -5, -5, -5] blankImage whiteTexture unitUV (1 / 2)
      withinBound_flatTriangle2D.1 withinBound_flatTriangle2D.2.1
      withinBound_flatTriangle2D.2.2 onGrid_flatTriangle3D.1 onGrid_flatTriangle3D.2.1
      onGrid_flatTriangle3D.2.2).2 flatTriangle3D_collinear).2⟩⟩

theorem getElem?_replicate_lt (n i : ℕ) (a : ℚ) (h : i < n) :
    (List.replicate n a)[i]? = some a := by
  rw [List.getElem?_replicate, if_pos h]

theorem getElem?_set_replicate (n i : ℕ) (a b : ℚ) (h : i < n) :
    ((List.replicate n a).set i b)[i]? = some b := by
  apply List.getElem?_set_eq_of_lt
  rw [List.length_replicate]
  exact h

/-- Claim C1, evaluation at the failing input: at pixel `(1, 2048)` of an image of width
`8192` the index computed in binary32 is `16777216`, not `1 + 2048 * 8192 = 16777217`.  On a
buffer whose entry `16777217` is `5` and whose entry `16777216` is `-5`, the call for a
triangle with weights `(1/2, 1/2, 0)` and depth `z = 0` at that pixel returns `true` although
the stored value at index `x + y*width` is not below `z`, and the entry at index
`x + y*width` afterwards is still `5`, not `z`: entry `16777216` was tested and written. -/
theorem shouldRender3D32_index_rounded :
    F32.zBufferIndex (F32.screenPoint 1 2048) 8192 = 16777216 ∧
    ((1 : ℤ) + 2048 * 8192).toNat = 16777217 ∧
    F32.computeBarycentricVector3D farRowTriangle (F32.screenPoint 1 2048) = ⟨1 / 2, 1 / 2, 0⟩ ∧
    F32.interpolateZ farRowTriangle
      (F32.computeBarycentricVector3D farRowTriangle (F32.screenPoint 1 2048)) = 0 ∧
    wideDepthBuffer[((1 : ℤ) + 2048 * 8192).toNat]? = some 5 ∧
    F32.shouldRender3D farRowTriangle (F32.screenPoint 1 2048) wideDepthBuffer 8192
      = some ⟨true, ⟨1 / 2, 1 / 2, 0⟩, wideDepthBuffer.set 16777216 0⟩ ∧
    (wideDepthBuffer.set 16777216 0)[((1 : ℤ) + 2048 * 8192).toNat]? = some 5 := by
  have hidx : F32.zBufferIndex (F32.screenPoint 1 2048) 8192 = 16777216 := by decide!
  have hw : F32.computeBarycentricVector3D farRowTriangle (F32.screenPoint 1 2048)
      = ⟨1 / 2, 1 / 2, 0⟩ := by decide!
  have hz : F32.interpolateZ farRowTriangle
      (F32.computeBarycentricVector3D farRowTriangle (F32.screenPoint 1 2048)) = 0 := by
    decide!
  have hnat : ((1 : ℤ) + 2048 * 8192).toNat = 16777217 := by decide
  have hclaimed : wideDepthBuffer[16777217]? = some 5 := by
    unfold wideDepthBuffer
    rw [List.getElem?_set_ne (by decide)]
    exact getElem?_replicate_lt _ _ _ (by decide)
  have hstored : wideDepthBuffer[(F32.zBufferIndex (F32.screenPoint 1 2048) 8192).toNat]?
      = some (-5) := by
    rw [hidx]
    unfold wideDepthBuffer
    rw [show ((16777216 : ℤ)).toNat = 16777216 by decide]
    exact getElem?_set_replicate _ _ _ _ (by decide)
  have hnn : nonNegative
      (F32.computeBarycentricVector3D farRowTriangle (F32.screenPoint 1 2048)) := by
    rw [hw]
    norm_num [nonNegative]
  have hcall := shouldRender3D32_tested farRowTriangle (F32.screenPoint 1 2048)
    wideDepthBuffer 8192 (-5) hnn (by rw [hidx]; decide) hstored
  rw [hz, hidx, hw] at hcall
  rw [if_pos (by norm_num)] at hcall
  refine ⟨hidx, hnat, hw, hz, by rw [hnat]; exact hclaimed, hcall, ?_⟩
  rw [hnat, List.getElem?_set_ne (by decide)]
  exact hclaimed

/-- Claim C2, evaluation at the failing input: at pixel `(3, 2048)` of an image of width
`8192` the index computed in binary32 is `16777220`, not `3 + 2048 * 8192 = 16777219`.  On a
buffer with all entries `-5` the call returns `true` and changes entry `16777220`, an entry
other than the one at index `x + y*width`, which keeps its value. -/
theorem shouldRender3D32_writes_other_entry :
    F32.zBufferIndex (F32.screenPoint 3 2048) 8192 = 16777220 ∧
    ((3 : ℤ) + 2048 * 8192).toNat = 16777219 ∧
    F32.shouldRender3D farRowTriangle2 (F32.screenPoint 3 2048) wideDepthBuffer2 8192
      = some ⟨true, ⟨1 / 2, 1 / 2, 0⟩, wideDepthBuffer2.set 16777220 0⟩ ∧
    wideDepthBuffer2[16777220]? = some (-5 : ℚ) ∧
    (wideDepthBuffer2.set 16777220 0)[16777220]? = some (0 : ℚ) ∧
    (wideDepthBuffer2.set 16777220 0)[((3 : ℤ) + 2048 * 8192).toNat]?
      = wideDepthBuffer2[((3 : ℤ) + 2048 * 8192).toNat]? := by
  have hidx : F32.zBufferIndex (F32.screenPoint 3 2048) 8192 = 16777220 := by decide!
  have hw : F32.computeBarycentricVector3D farRowTriangle2 (F32.screenPoint 3 2048)
      = ⟨1 / 2, 1 / 2, 0⟩ := by decide!
  have hz : F32.interpolateZ farRowTriangle2
      (F32.computeBarycentricVector3D farRowTriangle2 (F32.screenPoint 3 2048)) = 0 := by
    decide!
  have hnat : ((3 : ℤ) + 2048 * 8192).toNat = 16777219 := by decide
  have hstored : wideDepthBuffer2[(F32.zBufferIndex (F32.screenPoint 3 2048) 8192).toNat]?
      = some (-5) := by
    rw [hidx]
    unfold wideDepthBuffer2
    rw [show ((16777220 : ℤ)).toNat = 16777220 by decide]
    exact getElem?_replicate_lt _ _ _ (by decide)
  have hnn : nonNegative
      (F32.computeBarycentricVector3D farRowTriangle2 (F32.screenPoint 3 2048)) := by
    rw [hw]
    norm_num [nonNegative]
  have hcall := shouldRender3D32_tested farRowTriangle2 (F32.screenPoint 3 2048)
    wideDepthBuffer2 8192 (-5) hnn (by rw [hidx]; decide) hstored
  rw [hz, hidx, hw] at hcall
  rw [if_pos (by norm_num)] at hcall
  refine ⟨hidx, hnat, hcall, ?_, ?_, ?_⟩
  · unfold wideDepthBuffer2
    exact getElem?_replicate_lt _ _ _ (by decide)
  · unfold wideDepthBuffer2
    exact getElem?_set_replicate _ _ _ _ (by decide)
  · rw [hnat, List.getElem?_set_ne (by decide)]

/-- The loop body at a pixel whose weights have a negative component: nothing changes. -/
theorem rasterizePixel32_rejected {Ch : Type} (triangle : Triangle (Vector3 ℚ))
    (color : TGAColor Ch) (zBuffer : List ℚ) (image : TGAImage Ch) (x y : ℤ)
    (h : ¬ nonNegative (F32.computeBarycentricVector3D triangle (F32.screenPoint x y))) :
    F32.rasterizePixel triangle color (zBuffer, image) x y = some (zBuffer, image) := by
  unfold F32.rasterizePixel
  simp only [shouldRender3D32_rejected triangle _ zBuffer image.get_width h]
  rfl

/-- The loop body at a pixel with non-negative weights whose binary32 index lies in the
buffer. -/
theorem rasterizePixel32_tested {Ch : Type} (triangle : Triangle (Vector3 ℚ))
    (color : TGAColor Ch) (zBuffer : List ℚ) (image : TGAImage Ch) (x y : ℤ) (i : ℕ)
    (stored z : ℚ)
    (h : nonNegative (F32.computeBarycentricVector3D triangle (F32.screenPoint x y)))
    (hi : F32.zBufferIndex (F32.screenPoint x y) image.get_width = (i : ℤ))
    (hs : zBuffer[i]? = some stored)
    (hz : F32.interpolateZ triangle
      (F32.computeBarycentricVector3D triangle (F32.screenPoint x y)) = z) :
    F32.rasterizePixel triangle color (zBuffer, image) x y
      = if stored < z then some (zBuffer.set i z, image.set x y color)
        else some (zBuffer, image) := by
  have hcall := shouldRender3D32_tested triangle (F32.screenPoint x y) zBuffer image.get_width
    stored h (by rw [hi]; exact Int.natCast_nonneg i) (by rw [hi, Int.toNat_ofNat]; exact hs)
  unfold F32.rasterizePixel
  simp only [hcall, hz, hi, Int.toNat_ofNat]
  by_cases hlt : stored < z
  · simp only [hlt, if_true]
  · simp only [hlt, if_false]
    rfl

/-- The loop body at a pixel with non-negative weights whose binary32 index lies beyond the
buffer: the access is outside of the buffer. -/
theorem rasterizePixel32_outside {Ch : Type} (triangle : Triangle (Vector3 ℚ))
    (color : TGAColor Ch) (zBuffer : List ℚ) (image : TGAImage Ch) (x y : ℤ) (i : ℕ)
    (h : nonNegative (F32.computeBarycentricVector3D triangle (F32.screenPoint x y)))
    (hi : F32.zBufferIndex (F32.screenPoint x y) image.get_width = (i : ℤ))
    (hlen : zBuffer.length ≤ i) :
    F32.rasterizePixel triangle color (zBuffer, image) x y = none := by
  have hcall := shouldRender3D32_outside triangle (F32.screenPoint x y) zBuffer image.get_width
    h (by rw [hi]; exact Int.natCast_nonneg i) (by rw [hi, Int.toNat_ofNat]; exact hlen)
  unfold F32.rasterizePixel
  simp only [hcall]

/-- The scan of a box over two columns and two rows, step by step. -/
theorem scanBox_two_by_two {Ch : Type} (boundingBox : BoundingBox3d)
    (body : Raster Ch → ℤ → ℤ → Option (Raster Ch)) (state : Raster Ch) (x0 x1 y0 y1 : ℤ)
    (hx : loopRange boundingBox.minPoint.x boundingBox.maxPoint.x = [x0, x1])
    (hy : loopRange boundingBox.minPoint.y boundingBox.maxPoint.y = [y0, y1]) :
    scanBox boundingBox body state
      = (((body state x0 y0).bind (fun s1 => body s1 x0 y1)).bind
          (fun s2 => body s2 x1 y0)).bind (fun s3 => body s3 x1 y1) := by
  unfold scanBox
  rw [hx, hy]
  simp only [List.foldlM_cons, List.foldlM_nil, Option.bind_eq_bind, Option.pure_def,
    Option.bind_some]
  cases body state x0 y0 with
  | none => rfl
  | some s1 =>
    simp only [Option.some_bind]
    cases body s1 x0 y1 with
    | none => rfl
    | some s2 => rfl

/-- Claim C14, evaluation at the failing input: on an image of `4096 x 4100` pixels with a
depth buffer of exactly `4096 * 4100` entries, the bounding box of `cornerTriangle` is
`(4094, 4098)..(4095, 4099)` and satisfies the contract of section 4.1, the binary32 index of
pixel `(4095, 4099)` is `16793600 = 4096 * 4100`, one past the last entry, and the flat-colour
`rasterizeTriangle` reads the depth buffer outside of its extent. -/
theorem rasterizeTriangle32_index_past_end :
    BoundingBox3d.new cornerTriangle
        ⟨F32.ofInt (tallImage.get_width - 1), F32.ofInt (tallImage.get_height - 1)⟩
      = ⟨⟨4094, 4098⟩, ⟨4095, 4099⟩⟩ ∧
    tallDepthBuffer.length = (tallImage.get_width * tallImage.get_height).toNat ∧
    F32.zBufferIndex (F32.screenPoint 4095 4099) tallImage.get_width = 16793600 ∧
    tallImage.get_width * tallImage.get_height = 16793600 ∧
    F32.rasterizeTriangle cornerTriangle tallDepthBuffer tallImage red = none := by
  have hbox : BoundingBox3d.new cornerTriangle
        ⟨F32.ofInt (tallImage.get_width - 1), F32.ofInt (tallImage.get_height - 1)⟩
      = ⟨⟨4094, 4098⟩, ⟨4095, 4099⟩⟩ := by decide!
  have hxs : loopRange 4094 4095 = [4094, 4095] := by decide!
  have hys : loopRange 4098 4099 = [4098, 4099] := by decide!
  have hlen : tallDepthBuffer.length = 16793600 := by
    unfold tallDepthBuffer
    rw [List.length_replicate]
  -- pixel (4094, 4098): rejected
  have s1 : F32.rasterizePixel cornerTriangle red (tallDepthBuffer, tallImage) 4094 4098
      = some (tallDepthBuffer, tallImage) :=
    rasterizePixel32_rejected _ _ _ _ _ _ (by decide!)
  -- pixel (4094, 4099): accepted, entry 16793598
  have s2 : F32.rasterizePixel cornerTriangle red (tallDepthBuffer, tallImage) 4094 4099
      = some (tallDepthBuffer.set 16793598 0, tallImage.set 4094 4099 red) := by
    rw [rasterizePixel32_tested cornerTriangle red tallDepthBuffer tallImage 4094 4099
      16793598 (-5) 0 (by decide!) (by decide!)
      (by unfold tallDepthBuffer; exact getElem?_replicate_lt _ _ _ (by decide)) (by decide!)]
    rw [if_pos (by norm_num)]
  -- pixel (4095, 4098): accepted, entry 16789504
  have s3 : F32.rasterizePixel cornerTriangle red
        (tallDepthBuffer.set 16793598 0, tallImage.set 4094 4099 red) 4095 4098
      = some ((tallDepthBuffer.set 16793598 0).set 16789504 0,
          (tallImage.set 4094 4099 red).set 4095 4098 red) := by
    rw [rasterizePixel32_tested cornerTriangle red (tallDepthBuffer.set 16793598 0)
      (tallImage.set 4094 4099 red) 4095 4098 16789504 (-5) 0 (by decide!) (by decide!)
      (by
        unfold tallDepthBuffer
        rw [List.getElem?_set_ne (by decide)]
        exact getElem?_replicate_lt _ _ _ (by decide)) (by decide!)]
    rw [if_pos (by norm_num)]
  -- pixel (4095, 4099): the index is the length of the buffer
  have s4 : F32.rasterizePixel cornerTriangle red
        ((tallDepthBuffer.set 16793598 0).set 16789504 0,
          (tallImage.set 4094 4099 red).set 4095 4098 red) 4095 4099 = none :=
    rasterizePixel32_outside cornerTriangle red _ _ 4095 4099 16793600 (by decide!)
      (by decide!) (by rw [List.length_set, List.length_set, hlen])
  refine ⟨hbox, ?_, by decide!, by decide, ?_⟩
  · rw [hlen]
    decide
  · unfold F32.rasterizeTriangle
    rw [scanBox_two_by_two _ _ _ 4094 4095 4098 4099 (by rw [hbox]; exact hxs)
      (by rw [hbox]; exact hys), s1, Option.some_bind, s2, Option.some_bind, s3,
      Option.some_bind, s4]

/-- The scan of a box over two columns and one row, step by step. -/
theorem scanBox_two_by_one {Ch : Type} (boundingBox : BoundingBox3d)
    (body : Raster Ch → ℤ → ℤ → Option (Raster Ch)) (state : Raster Ch) (x0 x1 y0 : ℤ)
    (hx : loopRange boundingBox.minPoint.x boundingBox.maxPoint.x = [x0, x1])
    (hy : loopRange boundingBox.minPoint.y boundingBox.maxPoint.y = [y0]) :
    scanBox boundingBox body state = (body state x0 y0).bind (fun s1 => body s1 x1 y0) := by
  unfold scanBox
  rw [hx, hy]
  simp only [List.foldlM_cons, List.foldlM_nil, Option.bind_eq_bind, Option.pure_def,
    Option.bind_some]

/-- One pass of the flat-colour driver over the two pixels `(0, 2048)` and `(1, 2048)` of the
image of width `8192`, for a triangle with vertices `(0,2048), (1,2048), (0,2049)` at constant
depth `d`: both pixels use the depth entry `16777216`, so the second pixel is never drawn. -/
theorem farRow_pass (triangle : Triangle (Vector3 ℚ)) (d stored : ℚ) (zBuffer : List ℚ)
    (image : TGAImage ℕ) (color : TGAColor ℕ)
    (hbox : BoundingBox3d.new triangle
        ⟨F32.ofInt (image.get_width - 1), F32.ofInt (image.get_height - 1)⟩
      = ⟨⟨0, 2048⟩, ⟨1, 2048⟩⟩)
    (hwidth : image.get_width = 8192)
    (hw0 : nonNegative (F32.computeBarycentricVector3D triangle (F32.screenPoint 0 2048)))
    (hw1 : nonNegative (F32.computeBarycentricVector3D triangle (F32.screenPoint 1 2048)))
    (hz0 : F32.interpolateZ triangle
      (F32.computeBarycentricVector3D triangle (F32.screenPoint 0 2048)) = d)
    (hz1 : F32.interpolateZ triangle
      (F32.computeBarycentricVector3D triangle (F32.screenPoint 1 2048)) = d)
    (hlen : 16777216 < zBuffer.length)
    (hstored : zBuffer[16777216]? = some stored) :
    F32.rasterizeTriangle triangle zBuffer image color
      = if stored < d then some (zBuffer.set 16777216 d, image.set 0 2048 color)
        else some (zBuffer, image) := by
  have hxs : loopRange 0 1 = [0, 1] := by decide!
  have hys : loopRange 2048 2048 = [2048] := by decide!
  have hi0 : F32.zBufferIndex (F32.screenPoint 0 2048) 8192 = ((16777216 : ℕ) : ℤ) := by
    decide!
  have hi1 : F32.zBufferIndex (F32.screenPoint 1 2048) 8192 = ((16777216 : ℕ) : ℤ) := by
    decide!
  unfold F32.rasterizeTriangle
  rw [scanBox_two_by_one _ _ _ 0 1 2048 (by rw [hbox]; exact hxs) (by rw [hbox]; exact hys),
    rasterizePixel32_tested triangle color zBuffer image 0 2048 16777216 stored d hw0
      (by rw [hwidth]; exact hi0) hstored hz0]
  by_cases hlt : stored < d
  · rw [if_pos hlt, Option.some_bind,
      rasterizePixel32_tested triangle color (zBuffer.set 16777216 d) (image.set 0 2048 color)
        1 2048 16777216 d d hw1 (by rw [show (image.set 0 2048 color).get_width
          = image.get_width from rfl, hwidth]; exact hi1)
        (List.getElem?_set_eq_of_lt d hlen) hz1, if_neg (lt_irrefl d)]
  · rw [if_neg hlt, Option.some_bind,
      rasterizePixel32_tested triangle color zBuffer image 1 2048 16777216 stored d hw1
        (by rw [hwidth]; exact hi1) hstored hz1, if_neg hlt]

/-- Claim C9, evaluation at the failing input: on an image of `8192 x 2049` pixels the
triangles `farRowLow` (depth `1/2`, colour red) and `farRowHigh` (depth `3/4`, colour green)
both contain pixel `(1, 2048)` with non-negative weights, and the depth entry of that pixel,
at index `1 + 2048 * 8192 = 16777217`, is `-5`, below both depths.  In binary32 the pixels
`(0, 2048)` and `(1, 2048)` share the depth entry `16777216`: in both submission orders
pixel `(1, 2048)` keeps the background colour and the entry `16777217` stays `-5`. -/
theorem rasterizeTriangle32_shared_entry :
    (nonNegative (F32.computeBarycentricVector3D farRowLow (F32.screenPoint 1 2048)) ∧
      nonNegative (F32.computeBarycentricVector3D farRowHigh (F32.screenPoint 1 2048)) ∧
      F32.interpolateZ farRowLow
        (F32.computeBarycentricVector3D farRowLow (F32.screenPoint 1 2048)) = 1 / 2 ∧
      F32.interpolateZ farRowHigh
        (F32.computeBarycentricVector3D farRowHigh (F32.screenPoint 1 2048)) = 3 / 4 ∧
      wideDepthBuffer2[((1 : ℤ) + 2048 * wideImage.get_width).toNat]? = some (-5)) ∧
    (F32.zBufferIndex (F32.screenPoint 0 2048) 8192 = 16777216 ∧
      F32.zBufferIndex (F32.screenPoint 1 2048) 8192 = 16777216) ∧
    (∃ out : Raster ℕ,
      (F32.rasterizeTriangle farRowLow wideDepthBuffer2 wideImage red).bind
          (fun s => F32.rasterizeTriangle farRowHigh s.1 s.2 green) = some out ∧
        out.2.get 1 2048 = ⟨0, 0, 0, 0⟩ ∧ out.2.get 1 2048 ≠ green ∧
        out.1[((1 : ℤ) + 2048 * wideImage.get_width).toNat]? = some (-5)) ∧
    (∃ out : Raster ℕ,
      (F32.rasterizeTriangle farRowHigh wideDepthBuffer2 wideImage green).bind
          (fun s => F32.rasterizeTriangle farRowLow s.1 s.2 red) = some out ∧
        out.2.get 1 2048 = ⟨0, 0, 0, 0⟩ ∧ out.2.get 1 2048 ≠ green ∧
        out.1[((1 : ℤ) + 2048 * wideImage.get_width).toNat]? = some (-5)) := by
  have hnat : ((1 : ℤ) + 2048 * wideImage.get_width).toNat = 16777217 := by decide
  have hlen : wideDepthBuffer2.length = 16785408 := by
    unfold wideDepthBuffer2
    rw [List.length_replicate]
  have hentry : wideDepthBuffer2[16777217]? = some (-5 : ℚ) := by
    unfold wideDepthBuffer2
    exact getElem?_replicate_lt _ _ _ (by decide)
  have hstored : wideDepthBuffer2[16777216]? = some (-5 : ℚ) := by
    unfold wideDepthBuffer2
    exact getElem?_replicate_lt _ _ _ (by decide)
  have hlow : ∀ (zb : List ℚ) (img : TGAImage ℕ) (stored : ℚ) (color : TGAColor ℕ),
      img.get_width = 8192 → img.get_height = 2049 → 16777216 < zb.length →
      zb[16777216]? = some stored →
      F32.rasterizeTriangle farRowLow zb img color
        = if stored < 1 / 2 then some (zb.set 16777216 (1 / 2), img.set 0 2048 color)
          else some (zb, img) := by
    intro zb img stored color hwd hht hl hs
    exact farRow_pass farRowLow (1 / 2) stored zb img color
      (by rw [hwd, hht]; decide!) hwd (by decide!) (by decide!) (by decide!) (by decide!) hl hs
  have hhigh : ∀ (zb : List ℚ) (img : TGAImage ℕ) (stored : ℚ) (color : TGAColor ℕ),
      img.get_width = 8192 → img.get_height = 2049 → 16777216 < zb.length →
      zb[16777216]? = some stored →
      F32.rasterizeTriangle farRowHigh zb img color
        = if stored < 3 / 4 then some (zb.set 16777216 (3 / 4), img.set 0 2048 color)
          else some (zb, img) := by
    intro zb img stored color hwd hht hl hs
    exact farRow_pass farRowHigh (3 / 4) stored zb img color
      (by rw [hwd, hht]; decide!) hwd (by decide!) (by decide!) (by decide!) (by decide!) hl hs
  refine ⟨⟨by decide!, by decide!, by decide!, by decide!, by rw [hnat]; exact hentry⟩,
    ⟨by decide!, by decide!⟩, ?_, ?_⟩
  · refine ⟨((wideDepthBuffer2.set 16777216 (1 / 2)).set 16777216 (3 / 4),
      (wideImage.set 0 2048 red).set 0 2048 green), ?_, by decide!, by decide!, ?_⟩
    · rw [hlow wideDepthBuffer2 wideImage (-5) red rfl rfl (by rw [hlen]; decide) hstored,
        if_pos (by norm_num), Option.some_bind,
        hhigh (wideDepthBuffer2.set 16777216 (1 / 2)) (wideImage.set 0 2048 red) (1 / 2) green
          rfl rfl (by rw [List.length_set, hlen]; decide)
          (List.getElem?_set_eq_of_lt _ (by rw [hlen]; decide)),
        if_pos (by norm_num)]
    · rw [hnat, List.getElem?_set_ne (by decide), List.getElem?_set_ne (by decide)]
      exact hentry
  · refine ⟨(wideDepthBuffer2.set 16777216 (3 / 4), wideImage.set 0 2048 green), ?_,
      by decide!, by decide!, ?_⟩
    · rw [hhigh wideDepthBuffer2 wideImage (-5) green rfl rfl (by rw [hlen]; decide) hstored,
        if_pos (by norm_num), Option.some_bind,
        hlow (wideDepthBuffer2.set 16777216 (3 / 4)) (wideImage.set 0 2048 green) (3 / 4) red
          rfl rfl (by rw [List.length_set, hlen]; decide)
          (List.getElem?_set_eq_of_lt _ (by rw [hlen]; decide)),
        if_neg (by norm_num)]
    · rw [hnat, List.getElem?_set_ne (by decide)]
      exact hentry

/-- The coordinates recorded by the binary32 `drawTriangle4`: the pixels of the half-open box
scan that the binary32 2D containment test accepts, appended to what was recorded before. -/
theorem drawTriangle4_32_written {Ch : Type} (point1 point2 point3 : Point)
    (canvas : Canvas Ch) (color : TGAColor Ch) :
    (F32.drawTriangle4 point1 point2 point3 canvas color).written
      = canvas.written ++
        (openLoop
          (BoundingBox2d.new ⟨point1, point2, point3⟩
            ⟨canvas.image.get_width - 1, canvas.image.get_height - 1⟩).minPoint.x
          (BoundingBox2d.new ⟨point1, point2, point3⟩
            ⟨canvas.image.get_width - 1, canvas.image.get_height - 1⟩).maxPoint.x).flatMap
        (fun x =>
          ((openLoop
            (BoundingBox2d.new ⟨point1, point2, point3⟩
              ⟨canvas.image.get_width - 1, canvas.image.get_height - 1⟩).minPoint.y
            (BoundingBox2d.new ⟨point1, point2, point3⟩
              ⟨canvas.image.get_width - 1, canvas.image.get_height - 1⟩).maxPoint.y).filter
            (fun y => F32.shouldRender2D ⟨point1, point2, point3⟩ ⟨x, y⟩)).map
            (fun y => (x, y))) := by
  unfold F32.drawTriangle4
  exact foldl_box_written _ _ (fun x y => F32.shouldRender2D ⟨point1, point2, point3⟩ ⟨x, y⟩)
    color canvas

/-- The binary32 offset `d * (n / H)` of an edge on a row, for small integers with
`0 <= n <= H`, differs from the exact offset by less than one. -/
theorem scaled_offset32_close (d n H : ℤ) (hd : |d| ≤ 2048) (hn0 : 0 ≤ n) (hnH : n ≤ H)
    (hH0 : 0 < H) (hH : H ≤ 2048) :
    F32.floatDiv n H = some (F32.div (F32.ofInt n) (F32.ofInt H)) ∧
    |F32.mul (F32.ofInt d) (F32.div (F32.ofInt n) (F32.ofInt H))
      - (d : ℚ) * ((n : ℚ) / (H : ℚ))| < 1 := by
  constructor
  · unfold F32.floatDiv
    rw [if_neg (by omega)]
  · have hHq : (0 : ℚ) < (H : ℚ) := by exact_mod_cast hH0
    have hn0q : (0 : ℚ) ≤ (n : ℚ) := by exact_mod_cast hn0
    have hnHq : (n : ℚ) ≤ (H : ℚ) := by exact_mod_cast hnH
    have ha0 : 0 ≤ (n : ℚ) / (H : ℚ) := div_nonneg hn0q hHq.le
    have ha1 : (n : ℚ) / (H : ℚ) ≤ 1 := by
      rw [div_le_one hHq]; exact hnHq
    rw [ofInt32_exact n (by rw [abs_le]; constructor <;> omega),
      ofInt32_exact H (by rw [abs_le]; constructor <;> omega),
      ofInt32_exact d (by rw [abs_le] at hd ⊢; constructor <;> omega)]
    unfold F32.mul F32.div
    have e1 := round32_error_unit ((n : ℚ) / (H : ℚ))
      (by rw [abs_le]; constructor <;> linarith)
    have r0 : 0 ≤ round32 ((n : ℚ) / (H : ℚ)) := by
      have := round32_mono _ _ ha0
      rwa [round32_zero] at this
    have r1 : round32 ((n : ℚ) / (H : ℚ)) ≤ 1 := by
      have := round32_mono _ _ ha1
      rwa [round32_one] at this
    have hdq : |(d : ℚ)| ≤ 2048 := by
      have : ((|d| : ℤ) : ℚ) ≤ ((2048 : ℤ) : ℚ) := by exact_mod_cast hd
      rw [Int.cast_abs] at this
      norm_num at this
      exact this
    have hp : |(d : ℚ) * round32 ((n : ℚ) / (H : ℚ))| ≤ (2 : ℚ) ^ (11 : ℤ) := by
      rw [abs_mul, abs_of_nonneg r0]
      calc |(d : ℚ)| * round32 ((n : ℚ) / (H : ℚ)) ≤ 2048 * 1 :=
            mul_le_mul hdq r1 r0 (by norm_num)
        _ = (2 : ℚ) ^ (11 : ℤ) := by norm_num
    have e2 := round32_error ((d : ℚ) * round32 ((n : ℚ) / (H : ℚ))) 11 (by norm_num) hp
    have e3 : |(d : ℚ) * round32 ((n : ℚ) / (H : ℚ)) - (d : ℚ) * ((n : ℚ) / (H : ℚ))|
        ≤ 2048 * (1 / 33554432) := by
      rw [← mul_sub, abs_mul]
      exact mul_le_mul hdq e1 (abs_nonneg _) (by norm_num)
    have e4 : ((2 : ℚ) ^ ((11 : ℤ) - 25)) = 1 / 16384 := by norm_num
    rw [e4] at e2
    have tri := abs_sub_le (round32 ((d : ℚ) * round32 ((n : ℚ) / (H : ℚ))))
      ((d : ℚ) * round32 ((n : ℚ) / (H : ℚ))) ((d : ℚ) * ((n : ℚ) / (H : ℚ)))
    calc |round32 ((d : ℚ) * round32 ((n : ℚ) / (H : ℚ))) - (d : ℚ) * ((n : ℚ) / (H : ℚ))|
        ≤ 1 / 16384 + 2048 * (1 / 33554432) := by linarith
      _ < 1 := by norm_num

/-- An integer column between two exact edge positions has, within one column, a column
between the two span ends obtained by truncating offsets that are off by less than one. -/
theorem near_truncated (bA bB x : ℤ) (dA dB fA fB : ℚ) (hA : |fA - dA| < 1)
    (hB : |fB - dB| < 1)
    (h : ((bA : ℚ) + dA ≤ (x : ℚ) ∧ (x : ℚ) ≤ (bB : ℚ) + dB) ∨
      ((bB : ℚ) + dB ≤ (x : ℚ) ∧ (x : ℚ) ≤ (bA : ℚ) + dA)) :
    ∃ x2 : ℤ, |x2 - x| ≤ 1 ∧
      ((bA + floatToInt fA ≤ x2 ∧ x2 ≤ bB + floatToInt fB) ∨
        (bB + floatToInt fB ≤ x2 ∧ x2 ≤ bA + floatToInt fA)) := by
  rw [abs_lt] at hA hB
  have key : ∀ (b1 b2 : ℤ) (d1 d2 f1 f2 : ℚ), -1 < f1 - d1 → f1 - d1 < 1 → -1 < f2 - d2 →
      f2 - d2 < 1 → (b1 : ℚ) + d1 ≤ (x : ℚ) → (x : ℚ) ≤ (b2 : ℚ) + d2 →
      ∃ x2 : ℤ, |x2 - x| ≤ 1 ∧
        ((b1 + floatToInt f1 ≤ x2 ∧ x2 ≤ b2 + floatToInt f2) ∨
          (b2 + floatToInt f2 ≤ x2 ∧ x2 ≤ b1 + floatToInt f1)) := by
    intro b1 b2 d1 d2 f1 f2 h1a h1b h2a h2b hlo hhi
    have s1 := floatToInt_le_of_le f1 (x - b1 + 1) (by push_cast; linarith)
    have s2 := le_floatToInt_of_le f2 (x - b2 - 1) (by push_cast; linarith)
    by_cases hord : b1 + floatToInt f1 ≤ b2 + floatToInt f2
    · by_cases hx1 : x < b1 + floatToInt f1
      · exact ⟨b1 + floatToInt f1, by rw [abs_le]; constructor <;> omega, Or.inl ⟨le_rfl, hord⟩⟩
      · by_cases hx2 : b2 + floatToInt f2 < x
        · exact ⟨b2 + floatToInt f2, by rw [abs_le]; constructor <;> omega,
            Or.inl ⟨hord, le_rfl⟩⟩
        · exact ⟨x, by simp, Or.inl ⟨by omega, by omega⟩⟩
    · exact ⟨b2 + floatToInt f2, by rw [abs_le]; constructor <;> omega,
        Or.inr ⟨le_rfl, by omega⟩⟩
  rcases h with ⟨h1, h2⟩ | ⟨h1, h2⟩
  · exact key bA bB dA dB fA fB hA.1 hA.2 hB.1 hB.2 h1 h2
  · obtain ⟨x2, hx2, hc⟩ := key bB bA dB dA fB fA hB.1 hB.2 hA.1 hA.2 h1 h2
    exact ⟨x2, hx2, hc.symm⟩

/-- A row of the first loop of the binary32 `drawTriangle3` with non-zero divisors returns,
keeps what was recorded and records every column between its two span ends. -/
theorem lowerRow32_covers {Ch : Type} (P1 P2 P3 : Point) (color : TGAColor Ch)
    (canvas : Canvas Ch) (y : ℤ) (hH : P3.y - P1.y ≠ 0) (hh : P2.y - P1.y ≠ 0) :
    ∃ cv2, F32.lowerRow P1 P2 P3 color canvas y = some cv2 ∧
      (∀ q ∈ canvas.written, q ∈ cv2.written) ∧
      ∀ x : ℤ,
        ((P1.x + floatToInt (F32.mul (F32.ofInt (P3.x - P1.x))
              (F32.div (F32.ofInt (y - P1.y)) (F32.ofInt (P3.y - P1.y)))) ≤ x ∧
            x ≤ P1.x + floatToInt (F32.mul (F32.ofInt (P2.x - P1.x))
              (F32.div (F32.ofInt (y - P1.y)) (F32.ofInt (P2.y - P1.y))))) ∨
          (P1.x + floatToInt (F32.mul (F32.ofInt (P2.x - P1.x))
              (F32.div (F32.ofInt (y - P1.y)) (F32.ofInt (P2.y - P1.y)))) ≤ x ∧
            x ≤ P1.x + floatToInt (F32.mul (F32.ofInt (P3.x - P1.x))
              (F32.div (F32.ofInt (y - P1.y)) (F32.ofInt (P3.y - P1.y)))))) →
        (x, y) ∈ cv2.written := by
  unfold F32.lowerRow
  simp only [F32.floatDiv, hH, hh, if_false]
  refine ⟨_, rfl, (fillSpan_covers canvas _ _ y color).1, ?_⟩
  intro x hx
  apply (fillSpan_covers canvas _ _ y color).2 x
  simp only [Vector2.add, F32.scale, Vector2.sub]
  exact hx

/-- A row of the second loop of the binary32 `drawTriangle3` with non-zero divisors returns,
keeps what was recorded and records every column between its two span ends. -/
theorem upperRow32_covers {Ch : Type} (P1 P2 P3 : Point) (color : TGAColor Ch)
    (canvas : Canvas Ch) (y : ℤ) (hH : P3.y - P1.y ≠ 0) (hh : P3.y - P2.y ≠ 0) :
    ∃ cv2, F32.upperRow P1 P2 P3 color canvas y = some cv2 ∧
      (∀ q ∈ canvas.written, q ∈ cv2.written) ∧
      ∀ x : ℤ,
        ((P1.x + floatToInt (F32.mul (F32.ofInt (P3.x - P1.x))
              (F32.div (F32.ofInt (y - P1.y)) (F32.ofInt (P3.y - P1.y)))) ≤ x ∧
            x ≤ P2.x + floatToInt (F32.mul (F32.ofInt (P3.x - P2.x))
              (F32.div (F32.ofInt (y - P2.y)) (F32.ofInt (P3.y - P2.y))))) ∨
          (P2.x + floatToInt (F32.mul (F32.ofInt (P3.x - P2.x))
              (F32.div (F32.ofInt (y - P2.y)) (F32.ofInt (P3.y - P2.y)))) ≤ x ∧
            x ≤ P1.x + floatToInt (F32.mul (F32.ofInt (P3.x - P1.x))
              (F32.div (F32.ofInt (y - P1.y)) (F32.ofInt (P3.y - P1.y)))))) →
        (x, y) ∈ cv2.written := by
  unfold F32.upperRow
  simp only [F32.floatDiv, hH, hh, if_false]
  refine ⟨_, rfl, (fillSpan_covers canvas _ _ y color).1, ?_⟩
  intro x hx
  apply (fillSpan_covers canvas _ _ y color).2 x
  simp only [Vector2.add, F32.scale, Vector2.sub]
  exact hx

/-- A pixel is recorded by the binary32 `drawTriangle4` on a fresh record exactly when it lies
in the half-open box scan and the binary32 2D containment test accepts it. -/
theorem mem_drawTriangle4_32_written {Ch : Type} (point1 point2 point3 : Point)
    (canvas : Canvas Ch) (color : TGAColor Ch) (hfresh : canvas.written = []) (x y : ℤ) :
    (x, y) ∈ (F32.drawTriangle4 point1 point2 point3 canvas color).written ↔
      ((BoundingBox2d.new ⟨point1, point2, point3⟩
          ⟨canvas.image.get_width - 1, canvas.image.get_height - 1⟩).minPoint.x ≤ x ∧
        x < (BoundingBox2d.new ⟨point1, point2, point3⟩
          ⟨canvas.image.get_width - 1, canvas.image.get_height - 1⟩).maxPoint.x) ∧
      ((BoundingBox2d.new ⟨point1, point2, point3⟩
          ⟨canvas.image.get_width - 1, canvas.image.get_height - 1⟩).minPoint.y ≤ y ∧
        y < (BoundingBox2d.new ⟨point1, point2, point3⟩
          ⟨canvas.image.get_width - 1, canvas.image.get_height - 1⟩).maxPoint.y) ∧
      F32.shouldRender2D ⟨point1, point2, point3⟩ ⟨x, y⟩ = true := by
  rw [drawTriangle4_32_written, hfresh, List.nil_append, List.mem_flatMap]
  constructor
  · rintro ⟨x2, hx2, hmem⟩
    rw [List.mem_map] at hmem
    obtain ⟨y2, hy2, heq⟩ := hmem
    rw [List.mem_filter] at hy2
    obtain ⟨rfl, rfl⟩ := Prod.mk.inj heq
    exact ⟨(mem_openLoop _ _ _).mp hx2, (mem_openLoop _ _ _).mp hy2.1, hy2.2⟩
  · rintro ⟨hx, hy, hacc⟩
    refine ⟨x, (mem_openLoop _ _ _).mpr hx, ?_⟩
    rw [List.mem_map]
    exact ⟨y, List.mem_filter.mpr ⟨(mem_openLoop _ _ _).mpr hy, hacc⟩, rfl⟩

/-- Claim C11, counterexample: (1) the triangle `(0,0), (4,1), (1,4)` is not degenerate and
lies inside a `6 x 6` image; the scanline fill writes the pixel `(0, 1)`, the bounding-box
fill does not write it, and the 2D containment test rejects it; (2) for the triangle
`(0,0), (0,1), (22,22)` on a `30 x 30` image the bounding-box fill writes the pixel
`(13, 13)` and the scanline fill does not: in row 13 it writes only column 12, because
`13.0f / 22 * 22` is below `13` in binary32; (3) for the triangle `(0,0), (4,0), (0,4)`, which
has two vertices in one row, the scanline fill divides by the zero `segmentHeight` and has no
result. -/
theorem fills_differ_both_ways :
    (¬ collinear slantedTriangle.v0.toFloat slantedTriangle.v1.toFloat
        slantedTriangle.v2.toFloat ∧
      (F32.drawTriangle3 slantedTriangle.v0 slantedTriangle.v1 slantedTriangle.v2
          (blankCanvas 6 6) red).map (fun out => decide ((0, 1) ∈ out.written)) = some true ∧
      (0, 1) ∉ (F32.drawTriangle4 slantedTriangle.v0 slantedTriangle.v1 slantedTriangle.v2
        (blankCanvas 6 6) red).written ∧
      F32.shouldRender2D slantedTriangle ⟨0, 1⟩ = false) ∧
    (¬ collinear steepTriangle.v0.toFloat steepTriangle.v1.toFloat steepTriangle.v2.toFloat ∧
      (13, 13) ∈ (F32.drawTriangle4 steepTriangle.v0 steepTriangle.v1 steepTriangle.v2
        (blankCanvas 30 30) red).written ∧
      (F32.drawTriangle3 steepTriangle.v0 steepTriangle.v1 steepTriangle.v2
          (blankCanvas 30 30) red).map
          (fun out => out.written.filter (fun q => decide (q.2 = 13))) = some [(12, 13)]) ∧
    (¬ collinear rightTriangle.v0.toFloat rightTriangle.v1.toFloat rightTriangle.v2.toFloat ∧
      (F32.drawTriangle3 rightTriangle.v0 rightTriangle.v1 rightTriangle.v2
          (blankCanvas 6 6) red).map (fun out => out.written) = none) := by
  refine ⟨⟨?_, by decide!, ?_, by decide!⟩, ⟨?_, ?_, by decide!⟩, ?_, by decide!⟩
  · rw [collinear_iff_cross]
    decide!
  · rw [mem_drawTriangle4_32_written _ _ _ _ _ rfl]
    intro h
    exact absurd h.2.2 (by decide!)
  · rw [collinear_iff_cross]
    decide!
  · rw [mem_drawTriangle4_32_written _ _ _ _ _ rfl]
    exact ⟨by decide, by decide, by decide!⟩
  · rw [collinear_iff_cross]
    decide!

/-- Claim C11, amended: for three integer vertices of magnitude at most `1024` in three
different rows the binary32 scanline fill `drawTriangle3` returns, and every coordinate
`(x, y)` that the bounding-box fill `drawTriangle4` passes to `image.set` on the same target
has a neighbour `(x2, y)` in the same row, at most one column away, that `drawTriangle3`
passes to `image.set`. -/
theorem drawTriangle4_32_near_drawTriangle3 {Ch : Type} (point1 point2 point3 : Point)
    (canvas : Canvas Ch) (color : TGAColor Ch)
    (hb1 : withinBound 1024 point1) (hb2 : withinBound 1024 point2)
    (hb3 : withinBound 1024 point3)
    (hrows : point1.y ≠ point2.y ∧ point2.y ≠ point3.y ∧ point1.y ≠ point3.y) :
    ∃ out, F32.drawTriangle3 point1 point2 point3 canvas color = some out ∧
      ∀ x y : ℤ, (x, y) ∈ (F32.drawTriangle4 point1 point2 point3 canvas color).written →
        ∃ x2 : ℤ, |x2 - x| ≤ 1 ∧ (x2, y) ∈ out.written := by
  obtain ⟨hdist, hle12, hle23⟩ := sortPoints_symmetric
    (fun A B C => (A.y ≠ B.y ∧ B.y ≠ C.y ∧ A.y ≠ C.y : Prop))
    (fun A B C => propext ⟨fun h => ⟨h.1.symm, h.2.2, h.2.1⟩, fun h => ⟨h.1.symm, h.2.2, h.2.1⟩⟩)
    (fun A B C => propext ⟨fun h => ⟨h.2.2, h.2.1.symm, h.1⟩, fun h => ⟨h.2.2, h.2.1.symm, h.1⟩⟩)
    point1 point2 point3
  obtain ⟨hbound, -, -⟩ := sortPoints_symmetric
    (fun A B C => (withinBound 1024 A ∧ withinBound 1024 B ∧ withinBound 1024 C : Prop))
    (fun A B C => propext ⟨fun h => ⟨h.2.1, h.1, h.2.2⟩, fun h => ⟨h.2.1, h.1, h.2.2⟩⟩)
    (fun A B C => propext ⟨fun h => ⟨h.1, h.2.2, h.2.1⟩, fun h => ⟨h.1, h.2.2, h.2.1⟩⟩)
    point1 point2 point3
  obtain ⟨hs1, hs2, hs3⟩ := hbound.mpr ⟨hb1, hb2, hb3⟩
  have hdist2 := hdist.mpr hrows
  generalize hS1 : (sortPoints point1 point2 point3).1 = S1 at *
  generalize hS2 : (sortPoints point1 point2 point3).2.1 = S2 at *
  generalize hS3 : (sortPoints point1 point2 point3).2.2 = S3 at *
  have hlt12 : S1.y < S2.y := lt_of_le_of_ne hle12 hdist2.1
  have hlt23 : S2.y < S3.y := lt_of_le_of_ne hle23 hdist2.2.1
  obtain ⟨bx1, by1⟩ := hs1
  obtain ⟨bx2, by2⟩ := hs2
  obtain ⟨bx3, by3⟩ := hs3
  rw [abs_le] at bx1 by1 bx2 by2 bx3 by3
  obtain ⟨canvas2, hlow, hkeep1, hcov1⟩ := foldlM_rows_cover
    (F32.lowerRow S1 S2 S3 color)
    (fun x y =>
      (S1.x + floatToInt (F32.mul (F32.ofInt (S3.x - S1.x))
            (F32.div (F32.ofInt (y - S1.y)) (F32.ofInt (S3.y - S1.y)))) ≤ x ∧
          x ≤ S1.x + floatToInt (F32.mul (F32.ofInt (S2.x - S1.x))
            (F32.div (F32.ofInt (y - S1.y)) (F32.ofInt (S2.y - S1.y))))) ∨
        (S1.x + floatToInt (F32.mul (F32.ofInt (S2.x - S1.x))
            (F32.div (F32.ofInt (y - S1.y)) (F32.ofInt (S2.y - S1.y)))) ≤ x ∧
          x ≤ S1.x + floatToInt (F32.mul (F32.ofInt (S3.x - S1.x))
            (F32.div (F32.ofInt (y - S1.y)) (F32.ofInt (S3.y - S1.y))))))
    (closedLoop S1.y S2.y)
    (fun cv y _ => lowerRow32_covers _ _ _ color cv y (by omega) (by omega)) canvas
  obtain ⟨out, hupp, hkeep2, hcov2⟩ := foldlM_rows_cover
    (F32.upperRow S1 S2 S3 color)
    (fun x y =>
      (S1.x + floatToInt (F32.mul (F32.ofInt (S3.x - S1.x))
            (F32.div (F32.ofInt (y - S1.y)) (F32.ofInt (S3.y - S1.y)))) ≤ x ∧
          x ≤ S2.x + floatToInt (F32.mul (F32.ofInt (S3.x - S2.x))
            (F32.div (F32.ofInt (y - S2.y)) (F32.ofInt (S3.y - S2.y))))) ∨
        (S2.x + floatToInt (F32.mul (F32.ofInt (S3.x - S2.x))
            (F32.div (F32.ofInt (y - S2.y)) (F32.ofInt (S3.y - S2.y)))) ≤ x ∧
          x ≤ S1.x + floatToInt (F32.mul (F32.ofInt (S3.x - S1.x))
            (F32.div (F32.ofInt (y - S1.y)) (F32.ofInt (S3.y - S1.y))))))
    (closedLoop S2.y S3.y)
    (fun cv y _ => upperRow32_covers _ _ _ color cv y (by omega) (by omega)) canvas2
  refine ⟨out, ?_, ?_⟩
  · unfold F32.drawTriangle3
    simp only [hS1, hS2, hS3, hlow]
    exact hupp
  · intro x y hq
    rw [drawTriangle4_32_written, List.mem_append] at hq
    rcases hq with hq | hq
    · exact ⟨x, by simp, hkeep2 _ (hkeep1 _ hq)⟩
    · rw [List.mem_flatMap] at hq
      obtain ⟨x0, hx0, hmem⟩ := hq
      rw [List.mem_map] at hmem
      obtain ⟨y0, hy0, heq⟩ := hmem
      obtain ⟨rfl, rfl⟩ := Prod.mk.inj heq
      rw [List.mem_filter] at hy0
      obtain ⟨hy0, hacc32⟩ := hy0
      rw [mem_openLoop] at hx0 hy0
      simp only [BoundingBox2d.new] at hx0 hy0
      obtain ⟨b1x, b1y⟩ := hb1
      obtain ⟨b2x, b2y⟩ := hb2
      obtain ⟨b3x, b3y⟩ := hb3
      rw [abs_le] at b1x b1y b2x b2y b3x b3y
      have hpx : withinBound 1024 (⟨x0, y0⟩ : Point) := by
        show |x0| ≤ 1024 ∧ |y0| ≤ 1024
        constructor
        · rw [abs_le]
          have h1 := le_trans (le_max_left 0 _) hx0.1
          have h2 := lt_of_lt_of_le hx0.2 (min_le_right _ _)
          have h3 : max (max point1.x point2.x) point3.x ≤ 1024 :=
            max_le (max_le b1x.2 b2x.2) b3x.2
          constructor <;> omega
        · rw [abs_le]
          have h1 := le_trans (le_max_left 0 _) hy0.1
          have h2 := lt_of_lt_of_le hy0.2 (min_le_right _ _)
          have h3 : max (max point1.y point2.y) point3.y ≤ 1024 :=
            max_le (max_le b1y.2 b2y.2) b3y.2
          constructor <;> omega
      have hacc : shouldRender2D ⟨point1, point2, point3⟩ ⟨x0, y0⟩ = true := by
        rw [← shouldRender2D32_eq_withinBound ⟨point1, point2, point3⟩ ⟨x0, y0⟩
          ⟨abs_le.mpr b1x, abs_le.mpr b1y⟩ ⟨abs_le.mpr b2x, abs_le.mpr b2y⟩
          ⟨abs_le.mpr b3x, abs_le.mpr b3y⟩ hpx]
        exact hacc32
      have hin := ((shouldRender2D_iff ⟨point1, point2, point3⟩ ⟨x0, y0⟩).mp hacc).2
      obtain ⟨hsym, _, _⟩ := sortPoints_symmetric
        (fun A B C => inClosedTriangle A.toFloat B.toFloat C.toFloat (Point.toFloat ⟨x0, y0⟩))
        (fun A B C => propext (inClosedTriangle_swap01 A.toFloat B.toFloat C.toFloat _))
        (fun A B C => propext (inClosedTriangle_swap12 A.toFloat B.toFloat C.toFloat _))
        point1 point2 point3
      rw [hS1, hS2, hS3] at hsym
      obtain ⟨a, b, c, ha, hb, hc, hsum, hx, hy2⟩ := hsym.mpr hin
      simp only [Point.toFloat] at hx hy2
      have hq12 : ((S1.y : ℤ) : ℚ) < ((S2.y : ℤ) : ℚ) := by exact_mod_cast hlt12
      have hq23 : ((S2.y : ℤ) : ℚ) < ((S3.y : ℤ) : ℚ) := by exact_mod_cast hlt23
      obtain ⟨hr1, hr3⟩ := closed_triangle_rows _ _ _ _ a b c (le_of_lt hq12) (le_of_lt hq23)
        ha hb hc hsum hy2
      have hr1i : S1.y ≤ y0 := by exact_mod_cast hr1
      have hr3i : y0 ≤ S3.y := by exact_mod_cast hr3
      by_cases hrow : y0 ≤ S2.y
      · have hex : ((S1.x : ℚ) + ((S3.x - S1.x : ℤ) : ℚ)
              * (((y0 - S1.y : ℤ) : ℚ) / ((S3.y - S1.y : ℤ) : ℚ)) ≤ (x0 : ℚ) ∧
            (x0 : ℚ) ≤ (S1.x : ℚ) + ((S2.x - S1.x : ℤ) : ℚ)
              * (((y0 - S1.y : ℤ) : ℚ) / ((S2.y - S1.y : ℤ) : ℚ))) ∨
            ((S1.x : ℚ) + ((S2.x - S1.x : ℤ) : ℚ)
              * (((y0 - S1.y : ℤ) : ℚ) / ((S2.y - S1.y : ℤ) : ℚ)) ≤ (x0 : ℚ) ∧
            (x0 : ℚ) ≤ (S1.x : ℚ) + ((S3.x - S1.x : ℤ) : ℚ)
              * (((y0 - S1.y : ℤ) : ℚ) / ((S3.y - S1.y : ℤ) : ℚ))) := by
          have h := lower_between _ _ _ _ _ _ _ _ a b c hq12 hq23 hb hc hsum hx hy2
          push_cast
          exact h
        have cA := (scaled_offset32_close (S3.x - S1.x) (y0 - S1.y) (S3.y - S1.y)
          (by rw [abs_le]; constructor <;> omega) (by omega) (by omega) (by omega)
          (by omega)).2
        have cB := (scaled_offset32_close (S2.x - S1.x) (y0 - S1.y) (S2.y - S1.y)
          (by rw [abs_le]; constructor <;> omega) (by omega) (by omega) (by omega)
          (by omega)).2
        obtain ⟨x2, hx2, hspan⟩ := near_truncated S1.x S1.x x0 _ _ _ _ cA cB hex
        exact ⟨x2, hx2, hkeep2 _ (hcov1 y0 ((mem_closedLoop _ _ _).mpr ⟨hr1i, hrow⟩) x2 hspan)⟩
      · have hex : ((S1.x : ℚ) + ((S3.x - S1.x : ℤ) : ℚ)
              * (((y0 - S1.y : ℤ) : ℚ) / ((S3.y - S1.y : ℤ) : ℚ)) ≤ (x0 : ℚ) ∧
            (x0 : ℚ) ≤ (S2.x : ℚ) + ((S3.x - S2.x : ℤ) : ℚ)
              * (((y0 - S2.y : ℤ) : ℚ) / ((S3.y - S2.y : ℤ) : ℚ))) ∨
            ((S2.x : ℚ) + ((S3.x - S2.x : ℤ) : ℚ)
              * (((y0 - S2.y : ℤ) : ℚ) / ((S3.y - S2.y : ℤ) : ℚ)) ≤ (x0 : ℚ) ∧
            (x0 : ℚ) ≤ (S1.x : ℚ) + ((S3.x - S1.x : ℤ) : ℚ)
              * (((y0 - S1.y : ℤ) : ℚ) / ((S3.y - S1.y : ℤ) : ℚ))) := by
          have h := upper_between _ _ _ _ _ _ _ _ a b c hq12 hq23 ha hb hsum hx hy2
          push_cast
          exact h
        have cA := (scaled_offset32_close (S3.x - S1.x) (y0 - S1.y) (S3.y - S1.y)
          (by rw [abs_le]; constructor <;> omega) (by omega) (by omega) (by omega)
          (by omega)).2
        have cB := (scaled_offset32_close (S3.x - S2.x) (y0 - S2.y) (S3.y - S2.y)
          (by rw [abs_le]; constructor <;> omega) (by omega) (by omega) (by omega)
          (by omega)).2
        obtain ⟨x2, hx2, hspan⟩ := near_truncated S1.x S2.x x0 _ _ _ _ cA cB hex
        exact ⟨x2, hx2, hcov2 y0 ((mem_closedLoop _ _ _).mpr ⟨by omega, hr3i⟩) x2 hspan⟩

theorem drawTriangle4_32_near_drawTriangle3_witness :
    (withinBound 1024 slantedTriangle.v0 ∧ withinBound 1024 slantedTriangle.v1 ∧
      withinBound 1024 slantedTriangle.v2) ∧
    (slantedTriangle.v0.y ≠ slantedTriangle.v1.y ∧ slantedTriangle.v1.y ≠ slantedTriangle.v2.y
      ∧ slantedTriangle.v0.y ≠ slantedTriangle.v2.y) ∧
    ∃ out, F32.drawTriangle3 slantedTriangle.v0 slantedTriangle.v1 slantedTriangle.v2
        (blankCanvas 6 6) red = some out ∧
      ∀ x y : ℤ, (x, y) ∈ (F32.drawTriangle4 slantedTriangle.v0 slantedTriangle.v1
          slantedTriangle.v2 (blankCanvas 6 6) red).written →
        ∃ x2 : ℤ, |x2 - x| ≤ 1 ∧ (x2, y) ∈ out.written :=
  have hb : withinBound 1024 slantedTriangle.v0 ∧ withinBound 1024 slantedTriangle.v1 ∧
      withinBound 1024 slantedTriangle.v2 := by
    norm_num [withinBound, slantedTriangle]
  ⟨hb, by decide, drawTriangle4_32_near_drawTriangle3 slantedTriangle.v0 slantedTriangle.v1
    slantedTriangle.v2 (blankCanvas 6 6) red hb.1 hb.2.1 hb.2.2 (by decide)⟩

/-- The weights handed back through `resultingBarycentric` by the binary32 depth test are
those of the binary32 3D solver. -/
theorem shouldRender3D32_barycentric (triangle : Triangle (Vector3 ℚ)) (point : Vector3 ℚ)
    (zBuffer : List ℚ) (width : ℤ) (test : DepthTest)
    (h : F32.shouldRender3D triangle point zBuffer width = some test) :
    test.barycentric = F32.computeBarycentricVector3D triangle point := by
  unfold F32.shouldRender3D at h
  by_cases hneg : (F32.computeBarycentricVector3D triangle point).x < 0 ∨
      (F32.computeBarycentricVector3D triangle point).y < 0 ∨
      (F32.computeBarycentricVector3D triangle point).z < 0
  · simp only [hneg, if_true] at h
    have ht := Option.some.inj h
    subst ht
    rfl
  · simp only [hneg, if_false] at h
    split at h
    · split at h
      · exact Option.noConfusion h
      · split at h
        · have ht := Option.some.inj h
          subst ht
          rfl
        · have ht := Option.some.inj h
          subst ht
          rfl
    · exact Option.noConfusion h

/-- At a pixel that the binary32 depth test reports visible, the textured driver writes the
sampled texel with its `r`, `g`, `b` channels scaled through the conversions of the channel
type, whatever that type is. -/
theorem rasterizeTexturedPixel32_written {Ch : Type} (conv : Channel Ch)
    (triangle : Triangle (Vector3 ℚ)) (texture : TGAImage Ch) (uv : Triangle (Vector2 ℚ))
    (lightIntensity : ℚ) (state : Raster Ch) (x y : ℤ) (test : DepthTest)
    (htest : F32.shouldRender3D triangle (F32.screenPoint x y) state.1 state.2.get_width
      = some test)
    (hvisible : test.visible = true) :
    F32.rasterizeTexturedPixel conv triangle texture uv lightIntensity state x y
      = some (test.zBuffer, state.2.set x y
          (litColour conv
            (F32.sampleTexel texture uv
              (F32.computeBarycentricVector3D triangle (F32.screenPoint x y)))
            lightIntensity)) := by
  have hbary := shouldRender3D32_barycentric triangle (F32.screenPoint x y) state.1
    state.2.get_width test htest
  unfold F32.rasterizeTexturedPixel
  simp only [htest, hvisible, if_true, hbary]
  rfl

/-- With the channel type modelled from the spec the lit colour has each colour channel
multiplied by the lighting intensity. -/
theorem litColour_exactChannel (texel : TGAColor ℚ) (lightIntensity : ℚ) :
    litColour exactChannel texel lightIntensity
      = ⟨texel.r * lightIntensity, texel.g * lightIntensity, texel.b * lightIntensity,
          texel.a⟩ := rfl

theorem litColour_exactChannel_half (texel : TGAColor ℚ) :
    litColour exactChannel texel (1 / 2) = ⟨texel.r / 2, texel.g / 2, texel.b / 2, texel.a⟩ := by
  rw [litColour_exactChannel]
  congr 1 <;> ring

theorem plainTexture_origin_test :
    F32.shouldRender3D unitTriangle (F32.screenPoint 0 0)
        (([-5, -5, -5, -5], plainImage) : Raster ℚ).1
        (([-5, -5, -5, -5], plainImage) : Raster ℚ).2.get_width
      = some ⟨true, ⟨1, 0, 0⟩, [0, -5, -5, -5]⟩ := by
  decide!

end Renderer
